import Mathlib

/-!
# libdynd: indexing, the ckernel builder, compound kernels, dispatch, dtypes

A shallow embedding of
* `apply_single_index` (include/dynd/shape_tools.hpp),
* `base_ckernel_builder` / `ckernel_builder` / `kernels::general_ck` and the
  C functions `ckernel_builder_ensure_capacity(_leaf)`
  (include/dynd/kernels/ckernel_builder.hpp),
* `left_compound_kernel` / `right_compound_kernel`
  (include/dynd/kernels/compound_kernel.hpp),
* `min_dispatch_callable` / `uniform_dispatch_callable` and
  `elwise_entry_callable::resolve` (include/dynd/callables),
* `new_id` (src/dynd/type_registry.cpp),
* the constructor, `get_canonical_dtype`, `operator==`, the type-level
  and the data-level `apply_linear_index`, `get_metadata_size`,
  `metadata_copy_construct`, `metadata_destruct` and `is_unique_data_owner`
  of `pointer_dtype` (src/dynd/dtypes/pointer_dtype.cpp),
* `tuple_type::operator==` and `tuple_type::is_lossless_assignment`
  (src/dynd/types/tuple_type.cpp),
* `irange` (include/dnd/irange.hpp),
* `is_valid_perm` (include/dynd/shape_tools.hpp), and
* the constructors and the type string of the builtin `dtype`
  (src/dnd/dtype.cpp).

Conventions of the embedding.
* `intptr_t` values are embedded in `Int`.  Signed overflow is undefined
  behaviour in C++ and lies outside the model, except where a function's
  result is an `Option` that is `none` on overflow.
* A read or write through a pointer to nothing has no defined result: the
  function returns `none`.
* `size_t` byte counts handed to `malloc`, `memcpy`, `memset` are `Nat`; an
  `intptr_t` is converted with `Int.toNat`.
* A sum of an `intptr_t` and a `size_t` is taken in `size_t`, modulo
  `2 ^ bits`, and converted back in two's complement; `bits` is a parameter.
* A `char` buffer is a `List byte`.
* A pointer into the builder is the byte offset from `m_data`.
* C++ exceptions are explicit: a function that can throw returns an
  `Except`, or an `outcome` record with a `thrown` field.
-/

set_option autoImplicit false
set_option maxRecDepth 100000

namespace dynd

/-! ## shape_tools.hpp -/

/-- The exception `index_out_of_bounds`, with the constructor arguments the
source passes: `(i0, dimension_size)` or `(i0, axis, ndim, shape)`. -/
inductive index_out_of_bounds where
  | of_dim (i0 : Int) (dimension_size : Int)
  | of_shape (i0 : Int) (axis : Nat) (ndim : Nat) (shape : List Int)
deriving DecidableEq, Repr

/-- What `apply_single_index` reads from a non-NULL `error_dt`:
`error_dt->extended()->get_undim()` and the shape that
`error_dt->extended()->get_shape(0, ...)` fills in. -/
structure error_dtype where
  get_undim : Nat
  get_shape : List Int
deriving DecidableEq, Repr

/-- The throw statement shared by both failing branches of
`apply_single_index`. -/
def throw_index_out_of_bounds (i0 dimension_size : Int)
    (error_dt : Option error_dtype) : index_out_of_bounds :=
  match error_dt with
  | some dt => index_out_of_bounds.of_shape i0 0 dt.get_undim dt.get_shape
  | none => index_out_of_bounds.of_dim i0 dimension_size

/-- Embedding of `apply_single_index(i0, dimension_size, error_dt)`,
shape_tools.hpp lines 171-197. -/
def apply_single_index (i0 dimension_size : Int)
    (error_dt : Option error_dtype) : Except index_out_of_bounds Int :=
  if i0 ≥ 0 then
    if i0 < dimension_size then
      Except.ok i0
    else
      Except.error (throw_index_out_of_bounds i0 dimension_size error_dt)
  else if i0 ≥ -dimension_size then
    Except.ok (i0 + dimension_size)
  else
    Except.error (throw_index_out_of_bounds i0 dimension_size error_dt)

/-- Whether a result is a raised exception. -/
def raises {ε α : Type} (r : Except ε α) : Bool :=
  match r with
  | Except.error _ => true
  | Except.ok _ => false

/-! ## kernels/ckernel_builder.hpp -/

/-- One `char` of a buffer. -/
abbrev byte := Fin 256

/-- Modelled from the spec: `ckernel_prefix::align_offset` is declared in
kernels/ckernel_prefix.hpp, which is not among the sources.  The spec says
the size is "rounded to the alignment quantum" and that child offsets are
computed "via `align(sizeof(parent_record), 8)`": the least multiple of 8
that is not below `offset`. -/
def align_offset (offset : Nat) : Nat :=
  (offset + 7) / 8 * 8

/-- Modelled from the spec: `ckernel_prefix::get_child_ckernel(offset)` is
declared in kernels/ckernel_prefix.hpp, which is not among the sources.  The
spec says children "are stored contiguously after the parent in the same
buffer, addressed by byte offset": the child is `offset` bytes past the
record itself.  `self` is the record's own byte offset in the buffer. -/
def base_get_child_ckernel (self : Int) (offset : Nat) : Int :=
  self + (offset : Int)

namespace kernels

/-- Embedding of `kernels::inc_ckb_offset(inout_ckb_offset, inc)`, lines 25-29;
the result is the new value of the reference parameter.  The template
overload `inc_ckb_offset<T>` is this function at `inc = sizeof(T)`. -/
def inc_ckb_offset (inout_ckb_offset : Int) (inc : Nat) : Int :=
  inout_ckb_offset + ((align_offset inc : Nat) : Int)

end kernels

/-- The sum of an `intptr_t` and a `size_t` in C++: by the usual arithmetic
conversions both operands are taken to `size_t`, an unsigned type of `bits`
bits, and the sum is the mathematical sum modulo 2^bits. -/
def size_t_add (bits : Nat) (x : Int) (y : Nat) : Int :=
  (x + (y : Int)) % 2 ^ bits

/-- The conversion of a `size_t` value to `intptr_t`, the signed type of the
same width, in two's complement: the value itself when it is at most
`INTPTR_MAX = 2^(bits-1) - 1`, the value less 2^bits otherwise. -/
def size_t_to_intptr (bits : Nat) (u : Int) : Int :=
  if u < 2 ^ (bits - 1) then u else u - 2 ^ bits

/-- The value of `m_data`: `NULL`, `&m_static_data[0]`, or a pointer to a
block obtained from `malloc`/`realloc`.  A builder is the only owner of its
heap block, so the pointer is represented by the block it points to. -/
inductive data_ptr where
  | null
  | static_data
  | heap (block : List byte)
deriving DecidableEq, Repr

/-- Embedding of the members of `ckernel_builder`: `m_data` and `m_capacity`
from `base_ckernel_builder`, and the inline array `m_static_data`. -/
structure ckernel_builder where
  m_data : data_ptr
  m_capacity : Int
  m_static_data : List byte
deriving DecidableEq, Repr

/-- The C++ exception a builder operation can raise. -/
inductive exn where
  | bad_alloc
deriving DecidableEq, Repr

/-- What a builder operation does to the outside world, in program order. -/
inductive effect where
  /-- The call `CKBT::destroy(reinterpret_cast<ckernel_prefix *>(m_data))`,
  that is `ckernel_prefix::destroy` on the root record; `chain` is the buffer
  the root record lives in. -/
  | destroy_chain (chain : List byte)
  /-- The call `std::free(ptr)` on a heap block. -/
  | std_free (block : List byte)
  /-- The placement-new of a record of `ckernel_builder::init<self_type>`,
  at byte offset `offset`. -/
  | construct (offset : Int) (record : List byte)
deriving DecidableEq, Repr

/-- State after a member function, the effects it had, and the exception it
left with, if any. -/
structure outcome where
  ckb : ckernel_builder
  effects : List effect
  thrown : Option exn
deriving DecidableEq, Repr

/-- What the C allocator does on the one allocation a call may make:
whether it succeeds, and the indeterminate content of fresh memory. -/
structure alloc_outcome where
  succeeds : Bool
  garbage : Nat → byte

/-- The value of `sizeof(m_static_data)`, from the declaration `char m_static_data[16 * 8]`. -/
def sizeof_m_static_data : Nat := 16 * 8

/-- The value of `sizeof(intptr_t)` on a target with 64-bit pointers. -/
def sizeof_intptr_t_64 : Nat := 8

/-- The value of `sizeof(intptr_t)` on a target with 32-bit pointers. -/
def sizeof_intptr_t_32 : Nat := 4

namespace ckernel_builder

/-- The bytes `m_data` points to. -/
def buffer (self : ckernel_builder) : List byte :=
  match self.m_data with
  | data_ptr.null => []
  | data_ptr.static_data => self.m_static_data
  | data_ptr.heap block => block

/-- Embedding of `using_static_data()`, line 202. -/
def using_static_data (self : ckernel_builder) : Bool :=
  self.m_data == data_ptr.static_data

/-- Embedding of `set(dst, value, size)`, lines 260-263 (`memset`), where
`dst` points `off` bytes into the buffer `buf`. -/
def set (buf : List byte) (off : Nat) (value : byte) (size : Nat) : List byte :=
  buf.take off ++ List.replicate size value ++ buf.drop (off + size)

/-- Embedding of `copy(dst, src, size)`, lines 255-258 (`memcpy`), both
pointers at the start of their buffers. -/
def copy (dst src : List byte) (size : Nat) : List byte :=
  src.take size ++ dst.drop size

/-- Embedding of `alloc(size)`, line 231 (`malloc`): `none` is `NULL`. -/
def alloc (a : alloc_outcome) (size : Nat) : Option (List byte) :=
  if a.succeeds then some ((List.range size).map a.garbage) else none

/-- The library call `std::realloc(ptr, new_size)`: on failure `NULL` and the
old block is untouched; on success the common initial part is kept and the
rest is indeterminate.  `std::realloc(NULL, n)` is `malloc(n)`. -/
def std_realloc (a : alloc_outcome) (ptr : List byte) (new_size : Nat) :
    Option (List byte) :=
  if a.succeeds then
    some (ptr.take new_size ++
      (List.range (new_size - ptr.length)).map (fun i => a.garbage (ptr.length + i)))
  else none

/-- Embedding of `realloc(ptr, old_size, new_size)`, lines 233-246, called
with `ptr = m_data`. -/
def realloc (a : alloc_outcome) (self : ckernel_builder) (old_size new_size : Nat) :
    Option (List byte) :=
  if self.using_static_data then
    match alloc a new_size with
    | some new_data => some (copy new_data self.buffer old_size)
    | none => none
  else
    std_realloc a self.buffer new_size

/-- Embedding of `free(ptr)`, lines 248-253, called with `ptr = m_data`. -/
def free (self : ckernel_builder) : List effect :=
  if !self.using_static_data then [effect.std_free self.buffer] else []

/-- Embedding of `init()`, lines 205-210. -/
def init (self : ckernel_builder) : ckernel_builder :=
  { m_data := data_ptr.static_data
    m_capacity := sizeof_m_static_data
    m_static_data := set self.m_static_data 0 0 sizeof_m_static_data }

/-- Embedding of `base_ckernel_builder::destroy()`, lines 55-64.  It changes
no member; it returns the calls it makes. -/
def destroy (self : ckernel_builder) : List effect :=
  if self.m_data ≠ data_ptr.null then
    effect.destroy_chain self.buffer :: free self
  else []

/-- Embedding of the constructor `base_ckernel_builder()`, line 67, run on an
object whose inline array holds the indeterminate bytes `raw`. -/
def construct (raw : List byte) : ckernel_builder :=
  init { m_data := data_ptr.null, m_capacity := 0, m_static_data := raw }

/-- Embedding of the destructor `~base_ckernel_builder()`, line 69. -/
def destruct (self : ckernel_builder) : List effect :=
  destroy self

/-- Embedding of `reset()`, lines 84-88. -/
def reset (self : ckernel_builder) : outcome :=
  { ckb := init self, effects := destroy self, thrown := none }

/-- Embedding of `ensure_capacity_leaf(requested_capacity)`, lines 112-137. -/
def ensure_capacity_leaf (a : alloc_outcome) (self : ckernel_builder)
    (requested_capacity : Int) : outcome :=
  if self.m_capacity < requested_capacity then
    let grown_capacity := (self.m_capacity * 3).tdiv 2
    let requested_capacity :=
      if requested_capacity < grown_capacity then grown_capacity else requested_capacity
    match realloc a self self.m_capacity.toNat requested_capacity.toNat with
    | none =>
      { ckb := { self with m_data := data_ptr.null }
        effects := destroy self
        thrown := some exn.bad_alloc }
    | some new_data =>
      { ckb := { self with
          m_data := data_ptr.heap
            (set new_data self.m_capacity.toNat 0
              (requested_capacity - self.m_capacity).toNat)
          m_capacity := requested_capacity }
        effects := []
        thrown := none }
  else
    { ckb := self, effects := [], thrown := none }

/-- Embedding of `ensure_capacity(requested_capacity)`, lines 101-104;
`sizeof_ckernel_pfx` is `sizeof(ckernel_prefix)`, a type declared in
kernels/ckernel_prefix.hpp, and `bits` the width of `size_t` and `intptr_t`.
The sum `requested_capacity + sizeof(ckernel_prefix)` is of type `size_t`
and is converted to the `intptr_t` parameter of `ensure_capacity_leaf`. -/
def ensure_capacity (bits sizeof_ckernel_pfx : Nat) (a : alloc_outcome)
    (self : ckernel_builder) (requested_capacity : Int) : outcome :=
  ensure_capacity_leaf a self
    (size_t_to_intptr bits (size_t_add bits requested_capacity sizeof_ckernel_pfx))

/-- Result of `alloc_ck` and its relatives: the builder outcome, the value
left in the reference parameter `inout_ckb_offset`, and the returned record
pointer as a byte offset from the new `m_data`. -/
structure alloc_result where
  out : outcome
  inout_ckb_offset : Int
  record : Int
deriving DecidableEq, Repr

/-- Embedding of `alloc_ck<T>(inout_ckb_offset)`, lines 145-152, with
`sizeof_T = sizeof(T)`. -/
def alloc_ck (bits sizeof_ckernel_pfx : Nat) (a : alloc_outcome) (self : ckernel_builder)
    (sizeof_T : Nat) (inout_ckb_offset : Int) : alloc_result :=
  let ckb_offset := inout_ckb_offset
  let inout_ckb_offset := kernels.inc_ckb_offset inout_ckb_offset sizeof_T
  { out := ensure_capacity bits sizeof_ckernel_pfx a self inout_ckb_offset
    inout_ckb_offset := inout_ckb_offset
    record := ckb_offset }

/-- Embedding of `alloc_ck_leaf<T>(inout_ckb_offset)`, lines 160-167. -/
def alloc_ck_leaf (a : alloc_outcome) (self : ckernel_builder)
    (sizeof_T : Nat) (inout_ckb_offset : Int) : alloc_result :=
  let ckb_offset := inout_ckb_offset
  let inout_ckb_offset := kernels.inc_ckb_offset inout_ckb_offset sizeof_T
  { out := ensure_capacity_leaf a self inout_ckb_offset
    inout_ckb_offset := inout_ckb_offset
    record := ckb_offset }

/-- Embedding of `ckernel_builder::swap(rhs)`, lines 265-292.  The result is
the pair (`*this`, `rhs`) after the call.  `sizeof_intptr_t` is
`sizeof(intptr_t)` of the target; `stack` is the indeterminate initial
content of the local array `tmp_static_data`. -/
def swap (sizeof_intptr_t : Nat) (stack : Nat → byte) (self rhs : ckernel_builder) :
    ckernel_builder × ckernel_builder :=
  if self.using_static_data then
    if rhs.using_static_data then
      let tmp_static_data := (List.range sizeof_m_static_data).map stack
      let tmp_static_data := copy tmp_static_data self.m_static_data sizeof_m_static_data
      let self_static := copy self.m_static_data rhs.m_static_data sizeof_m_static_data
      let rhs_static := copy rhs.m_static_data tmp_static_data sizeof_m_static_data
      ({ self with m_static_data := self_static }, { rhs with m_static_data := rhs_static })
    else
      let rhs_static := copy rhs.m_static_data self.m_static_data sizeof_m_static_data
      ({ self with m_data := rhs.m_data, m_capacity := rhs.m_capacity },
       { m_data := data_ptr.static_data
         m_capacity := ((16 * sizeof_intptr_t : Nat) : Int)
         m_static_data := rhs_static })
  else
    if rhs.using_static_data then
      let self_static := copy self.m_static_data rhs.m_static_data sizeof_m_static_data
      ({ m_data := data_ptr.static_data
         m_capacity := sizeof_m_static_data
         m_static_data := self_static },
       { rhs with m_data := self.m_data, m_capacity := self.m_capacity })
    else
      ({ self with m_data := rhs.m_data, m_capacity := rhs.m_capacity },
       { rhs with m_data := self.m_data, m_capacity := self.m_capacity })

/-- Stores of single bytes at consecutive addresses starting `off` bytes into
`buf`; a store outside the buffer is not modelled and leaves it alone. -/
def store (buf : List byte) (off : Nat) (bytes : List byte) : List byte :=
  match bytes with
  | [] => buf
  | b :: bs => store (buf.set off b) (off + 1) bs

/-- A client storing `bytes` through a pointer `m_data + off` it got from
`get_at`, `alloc_ck` or `alloc_ck_leaf`. -/
def write (self : ckernel_builder) (off : Nat) (bytes : List byte) : ckernel_builder :=
  match self.m_data with
  | data_ptr.null => self
  | data_ptr.static_data =>
    { self with m_static_data := store self.m_static_data off bytes }
  | data_ptr.heap block =>
    { self with m_data := data_ptr.heap (store block off bytes) }

/-- Embedding of `ckernel_builder::init<self_type>(rawself, kernreq, args...)`,
lines 212-225: the placement-new at `rawself`, the store of the destructor
pointer and `init_kernfunc`.  `record` is the object representation these
leave at `rawself`, `sizeof(self_type)` bytes. -/
def init_record (self : ckernel_builder) (rawself : Int) (record : List byte) : outcome :=
  { ckb := write self rawself.toNat record
    effects := [effect.construct rawself record]
    thrown := none }

end ckernel_builder

namespace kernels
namespace general_ck

open ckernel_builder

/-- Runs `k` on the builder `o` leaves, unless `o` left with an exception. -/
def and_then (o : outcome) (k : ckernel_builder → outcome) : outcome :=
  match o.thrown with
  | some e => { o with thrown := some e }
  | none =>
    let o2 := k o.ckb
    { ckb := o2.ckb, effects := o.effects ++ o2.effects, thrown := o2.thrown }

/-- Embedding of `general_ck::create(ckb, kernreq, inout_ckb_offset, args...)`,
lines 556-566; `record` is the object representation of the new
`self_type`, so `sizeof(self_type) = record.length`. -/
def create (bits sizeof_ckernel_pfx : Nat) (a : alloc_outcome) (ckb : ckernel_builder)
    (inout_ckb_offset : Int) (record : List byte) : alloc_result :=
  let ckb_offset := inout_ckb_offset
  let inout_ckb_offset := kernels.inc_ckb_offset inout_ckb_offset record.length
  { out := and_then (ensure_capacity bits sizeof_ckernel_pfx a ckb inout_ckb_offset)
      (fun ckb => init_record ckb ckb_offset record)
    inout_ckb_offset := inout_ckb_offset
    record := ckb_offset }

/-- Embedding of `general_ck::create_leaf(ckb, kernreq, inout_ckb_offset,
args...)`, lines 572-582. -/
def create_leaf (a : alloc_outcome) (ckb : ckernel_builder)
    (inout_ckb_offset : Int) (record : List byte) : alloc_result :=
  let ckb_offset := inout_ckb_offset
  let inout_ckb_offset := kernels.inc_ckb_offset inout_ckb_offset record.length
  { out := and_then (ensure_capacity_leaf a ckb inout_ckb_offset)
      (fun ckb => init_record ckb ckb_offset record)
    inout_ckb_offset := inout_ckb_offset
    record := ckb_offset }

/-- Embedding of `general_ck::get_child_ckernel(offset)`, lines 613-616, on
the record at byte offset `self`. -/
def get_child_ckernel_at (self : Int) (offset : Nat) : Int :=
  base_get_child_ckernel self (align_offset offset)

/-- Embedding of `general_ck::get_child_ckernel()`, lines 605-608, on the
record of size `sizeof_self_type` at byte offset `self`. -/
def get_child_ckernel (self : Int) (sizeof_self_type : Nat) : Int :=
  get_child_ckernel_at self sizeof_self_type

end general_ck
end kernels

/-! ### Sequences of calls on one builder -/

/-- A call made on a builder during the construction phase. -/
inductive op where
  | ensure_capacity (a : alloc_outcome) (requested_capacity : Int)
  | ensure_capacity_leaf (a : alloc_outcome) (requested_capacity : Int)
  | alloc_ck (a : alloc_outcome) (sizeof_T : Nat) (inout_ckb_offset : Int)
  | alloc_ck_leaf (a : alloc_outcome) (sizeof_T : Nat) (inout_ckb_offset : Int)
  | client_write (off : Nat) (bytes : List byte)
  | reset

/-- A builder, the offsets clients have stored to since construction or the
last `reset()`, and the exception that a call of the sequence left with, if
any. -/
structure tracked where
  ckb : ckernel_builder
  written : List Nat
  thrown : Option exn

/-- One call of a sequence. -/
def step (bits sizeof_ckernel_pfx : Nat) (t : tracked) (o : op) : tracked :=
  match o with
  | op.ensure_capacity a n =>
    let r := ckernel_builder.ensure_capacity bits sizeof_ckernel_pfx a t.ckb n
    { t with ckb := r.ckb, thrown := r.thrown }
  | op.ensure_capacity_leaf a n =>
    let r := ckernel_builder.ensure_capacity_leaf a t.ckb n
    { t with ckb := r.ckb, thrown := r.thrown }
  | op.alloc_ck a sz off =>
    let r := ckernel_builder.alloc_ck bits sizeof_ckernel_pfx a t.ckb sz off
    { t with ckb := r.out.ckb, thrown := r.out.thrown }
  | op.alloc_ck_leaf a sz off =>
    let r := ckernel_builder.alloc_ck_leaf a t.ckb sz off
    { t with ckb := r.out.ckb, thrown := r.out.thrown }
  | op.client_write off bytes =>
    { t with
      ckb := ckernel_builder.write t.ckb off bytes
      written := (List.range bytes.length).map (fun i => off + i) ++ t.written }
  | op.reset =>
    { ckb := (ckernel_builder.reset t.ckb).ckb, written := [], thrown := none }

/-- The calls of `ops` in program order; an exception ends the sequence. -/
def run_ops (bits sizeof_ckernel_pfx : Nat) (ops : List op) (t : tracked) : tracked :=
  match ops with
  | [] => t
  | o :: os =>
    let t2 := step bits sizeof_ckernel_pfx t o
    match t2.thrown with
    | some _ => t2
    | none => run_ops bits sizeof_ckernel_pfx os t2

/-- Whether a call is `reset()`. -/
def op.is_reset : op → Bool
  | op.reset => true
  | _ => false

/-- The calls of `ops` in program order when the caller catches every
exception and goes on with the same builder. `thrown` is then the first
exception since construction or the last `reset()`, if there was one. -/
def run_ops_caught (bits sizeof_ckernel_pfx : Nat) (ops : List op) (t : tracked) :
    tracked :=
  match ops with
  | [] => t
  | o :: os =>
    let t2 := step bits sizeof_ckernel_pfx t o
    run_ops_caught bits sizeof_ckernel_pfx os
      { t2 with
        thrown :=
          if o.is_reset then none
          else
            match t.thrown with
            | some e => some e
            | none => t2.thrown }

/-- The state right after the constructor. -/
def tracked.construct (raw : List byte) : tracked :=
  { ckb := ckernel_builder.construct raw, written := [], thrown := none }

/-- Whether `m_capacity` agrees with what `m_data` points to: the size of
the heap block, or at most the inline size when `m_data` is the inline
array. -/
def data_ptr.fits (p : data_ptr) (m_capacity : Int) : Prop :=
  match p with
  | data_ptr.null => True
  | data_ptr.static_data => m_capacity ≤ sizeof_m_static_data
  | data_ptr.heap block => (block.length : Int) = m_capacity

instance data_ptr.fits_decidable (p : data_ptr) (c : Int) : Decidable (p.fits c) :=
  match p with
  | data_ptr.null => isTrue trivial
  | data_ptr.static_data => inferInstanceAs (Decidable (c ≤ sizeof_m_static_data))
  | data_ptr.heap block => inferInstanceAs (Decidable ((block.length : Int) = c))

/-- The relation between the members that the source maintains: the inline
array has `sizeof(m_static_data)` bytes, `m_capacity` is not negative and
agrees with `m_data`. -/
def ckernel_builder.wf (self : ckernel_builder) : Prop :=
  self.m_static_data.length = sizeof_m_static_data ∧
  0 ≤ self.m_capacity ∧
  self.m_data.fits self.m_capacity

instance ckernel_builder.wf_decidable (self : ckernel_builder) : Decidable self.wf :=
  inferInstanceAs (Decidable (_ ∧ _ ∧ _))

/-! ### Invariant and sample builders -/

/-- The state a call sequence maintains on a live builder: the members agree,
the buffer has `m_capacity` bytes, and every byte no client stored to is 0. -/
def tracked.zero_inv (t : tracked) : Prop :=
  t.thrown = none ∧ t.ckb.wf ∧ t.ckb.m_data ≠ data_ptr.null ∧
  (t.ckb.buffer.length : Int) = t.ckb.m_capacity ∧
  ∀ (i : Nat) (b : byte), t.ckb.buffer[i]? = some b → i ∉ t.written → b = 0

/-- What holds after a sequence of calls: the invariant when the sequence
returned, an empty buffer (`m_data == NULL`) when it ended in an exception. -/
def tracked.zero_final (t : tracked) : Prop :=
  (t.thrown = none → t.zero_inv) ∧ (t.thrown ≠ none → t.ckb.buffer = [])

/-- A live inline builder holding the canary bytes `0xAA 0xBB` at offsets
0 and 1. -/
def canary_builder : ckernel_builder :=
  ckernel_builder.write (ckernel_builder.construct (List.replicate 128 7)) 0 [170, 187]

/-- The canary builder grown to a heap block of 200 bytes. -/
def grown_builder : ckernel_builder :=
  (ckernel_builder.ensure_capacity_leaf ⟨true, fun _ => 255⟩ canary_builder 200).ckb

/-- A local array `tmp_static_data` that happens to hold zeros. -/
def zero_stack : Nat → byte := fun _ => 0

/-! ## Destruction of a kernel chain -/

/-- Modelled from the spec: the object representation of a pointer stored in
the buffer (the layout of `ckernel_prefix` is declared in
kernels/ckernel_prefix.hpp, which is not among the sources).  The value of
the `size` bytes at offset `off`, least significant byte first; it is 0, the
null pointer, exactly when all of these bytes are 0.  A byte outside the
buffer reads as 0. -/
def read_pointer (buf : List byte) (off size : Nat) : Nat :=
  match size with
  | 0 => 0
  | n + 1 => (buf.getD off 0).val + 256 * read_pointer buf (off + 1) n

/-- The kernel types whose `destruct` function a record of the chain can
hold, with their `sizeof`: a kernel that keeps the `destruct_children` of
`general_ck`, and the two compound kernels of kernels/compound_kernel.hpp. -/
inductive self_type where
  | leaf (sizeof_self_type : Nat)
  | left_compound_kernel (sizeof_self_type : Nat)
  | right_compound_kernel (sizeof_self_type : Nat)
deriving DecidableEq, Repr

/-- The value of `sizeof(self_type)`. -/
def self_type.sizeof_self_type : self_type → Nat
  | self_type.leaf n => n
  | self_type.left_compound_kernel n => n
  | self_type.right_compound_kernel n => n

/-- What destroying a builder does, in program order. -/
inductive destruct_event where
  /-- The call `destructor(this)` with `destructor == &T::destruct`, on the
  record at byte offset `rawself`. -/
  | destructor_call (rawself : Int) (T : self_type)
  /-- The destructor body `self->~self_type()` of the record at `rawself`. -/
  | destructor_body (rawself : Int) (T : self_type)
  /-- The call `std::free` on the heap block of the builder. -/
  | buffer_freed
deriving DecidableEq, Repr

/-- The code of the program as far as destruction goes: which kernel
type's `destruct` function lives at a non-null function address. -/
abbrev code_table := Nat → self_type

/-- Modelled from the spec: the member `destructor` of the `ckernel_prefix` at
byte offset `self` (kernels/ckernel_prefix.hpp is not among the sources).  The
spec lays the prefix out as "a function pointer table selected by call mode,
a destructor function pointer": the destructor pointer is the second
pointer-sized member.  `none` is the null pointer. -/
def destructor_at (code : code_table) (sizeof_void_ptr : Nat) (buf : List byte)
    (self : Int) : Option self_type :=
  let p := read_pointer buf (self.toNat + sizeof_void_ptr) sizeof_void_ptr
  if p = 0 then none else some (code p)

namespace kernels
namespace general_ck

/-- Embedding of `destruct_children()`: the default of `general_ck`, lines
597-600 of kernels/ckernel_builder.hpp, which does nothing, and the override
of `left_compound_kernel` and `right_compound_kernel`, lines 38-41 and 87-90
of kernels/compound_kernel.hpp, which is `get_child_ckernel()->destroy()`.
`destroy` is `ckernel_prefix::destroy` on the record at a byte offset. -/
def destruct_children (destroy : Int → Option (List destruct_event)) (T : self_type)
    (self : Int) : Option (List destruct_event) :=
  match T with
  | self_type.leaf _ => some []
  | self_type.left_compound_kernel n => destroy (get_child_ckernel self n)
  | self_type.right_compound_kernel n => destroy (get_child_ckernel self n)

/-- Embedding of `general_ck::destruct(rawself)`, lines 588-595 of
kernels/ckernel_builder.hpp, instantiated at the kernel type `T`:
`destruct_children()` first, then the destructor of `self_type`. -/
def destruct (destroy : Int → Option (List destruct_event)) (T : self_type)
    (rawself : Int) : Option (List destruct_event) :=
  match destruct_children destroy T rawself with
  | none => none
  | some children =>
    some (destruct_event.destructor_call rawself T :: children ++
      [destruct_event.destructor_body rawself T])

end general_ck
end kernels

/-- Modelled from the spec: `ckernel_prefix::destroy()` on the record at byte
offset `self` of the buffer (kernels/ckernel_prefix.hpp is not among the
sources).  The spec has "a null-initialized function pointer" in a
not-yet-created child that a parent "can always destroy ... safely": the
destructor is called when it is not null, and nothing happens when it is.
`fuel` bounds the nesting depth of the calls; `none` is a chain nested deeper
than `fuel`. -/
def ckernel_destroy (code : code_table) (sizeof_void_ptr : Nat) (buf : List byte)
    (fuel : Nat) (self : Int) : Option (List destruct_event) :=
  match fuel with
  | 0 => none
  | fuel + 1 =>
    match destructor_at code sizeof_void_ptr buf self with
    | none => some []
    | some T =>
      kernels.general_ck.destruct (ckernel_destroy code sizeof_void_ptr buf fuel) T self

/-- What one effect of a builder operation does to the records and the
heap: `destroy_chain` is `ckernel_prefix::destroy` on the root record, at
offset 0 of the buffer. -/
def effect.events (code : code_table) (sizeof_void_ptr fuel : Nat) (e : effect) :
    Option (List destruct_event) :=
  match e with
  | effect.destroy_chain chain => ckernel_destroy code sizeof_void_ptr chain fuel 0
  | effect.std_free _ => some [destruct_event.buffer_freed]
  | effect.construct _ _ => some []

/-- The events of a sequence of effects, in order. -/
def effects_events (code : code_table) (sizeof_void_ptr fuel : Nat) (es : List effect) :
    Option (List destruct_event) :=
  match es with
  | [] => some []
  | e :: rest =>
    match e.events code sizeof_void_ptr fuel, effects_events code sizeof_void_ptr fuel rest with
    | some a, some b => some (a ++ b)
    | _, _ => none

/-- A sample code table: address 1 holds `left_compound_kernel::destruct`
(16-byte kernel), address 2 `right_compound_kernel::destruct`, every other
address the `destruct` of a 24-byte leaf kernel. -/
def sample_code : code_table := fun p =>
  if p = 1 then self_type.left_compound_kernel 16
  else if p = 2 then self_type.right_compound_kernel 16
  else self_type.leaf 24

/-- A heap builder of capacity 200 with a left compound root at offset 0 and a
constructed leaf child at offset 16 (8-byte pointers; the destructor pointers
are the bytes 8..15 and 24..31). -/
def compound_chain_builder : ckernel_builder :=
  ckernel_builder.write (ckernel_builder.write
    (ckernel_builder.ensure_capacity_leaf ⟨true, fun _ => 255⟩
      (ckernel_builder.construct (List.replicate 128 7)) 200).ckb 8 [1]) 24 [3]

/-- An inline builder with a left compound root at offset 0 whose child slot
at offset 16 was never constructed. -/
def compound_root_only_builder : ckernel_builder :=
  ckernel_builder.write (ckernel_builder.construct (List.replicate 128 7)) 8 [1]

/-! ## kernels/compound_kernel.hpp -/

/-- The data the kernels work on: the value found at each address. -/
abbrev memory (α : Type) := Int → α

/-- The store `*p = v`. -/
def memory.store {α : Type} (m : memory α) (p : Int) (v : α) : memory α :=
  fun q => if q = p then v else m q

/-- A C array given by its initializer list, as in
`char *src_binary[2] = {dst, src[0]}`; an array is read through `a i`. -/
def array_of (l : List Int) : Nat → Int :=
  fun i => l.getD i 0

/-- The function type `expr_single_t`: `(dst, src)` on the memory. -/
abbrev expr_single_t (α : Type) := memory α → Int → (Nat → Int) → memory α

/-- The function type `expr_strided_t`:
`(dst, dst_stride, src, src_stride, count)` on the memory. -/
abbrev expr_strided_t (α : Type) :=
  memory α → Int → Int → (Nat → Int) → (Nat → Int) → Nat → memory α

/-- The child kernel behind `get_child_ckernel()`: what
`child->get_function<expr_single_t>()` and
`child->get_function<expr_strided_t>()` do when called. -/
structure child_ckernel (α : Type) where
  single : expr_single_t α
  strided : expr_strided_t α

namespace nd
namespace functional

/-- Embedding of `left_compound_kernel::single(dst, src)`,
kernels/compound_kernel.hpp lines 20-26. -/
def left_compound_kernel.single {α : Type} (child : child_ckernel α) : expr_single_t α :=
  fun m dst src =>
    let src_binary := array_of [dst, src 0]
    child.single m dst src_binary

/-- Embedding of `left_compound_kernel::strided(dst, dst_stride, src,
src_stride, count)`, lines 28-36. -/
def left_compound_kernel.strided {α : Type} (child : child_ckernel α) : expr_strided_t α :=
  fun m dst dst_stride src src_stride count =>
    let src_binary := array_of [dst, src 0]
    let src_binary_stride := array_of [dst_stride, src_stride 0]
    child.strided m dst dst_stride src_binary src_binary_stride count

/-- Embedding of `right_compound_kernel::single(dst, src)`, lines 69-75. -/
def right_compound_kernel.single {α : Type} (child : child_ckernel α) : expr_single_t α :=
  fun m dst src =>
    let src_binary := array_of [src 0, dst]
    child.single m dst src_binary

/-- Embedding of `right_compound_kernel::strided(dst, dst_stride, src,
src_stride, count)`, lines 77-85. -/
def right_compound_kernel.strided {α : Type} (child : child_ckernel α) : expr_strided_t α :=
  fun m dst dst_stride src src_stride count =>
    let src_binary := array_of [src 0, dst]
    let src_binary_stride := array_of [src_stride 0, dst_stride]
    child.strided m dst dst_stride src_binary src_binary_stride count

end functional
end nd

/-- Specification of batch mode, in the words of the spec ("batch mode must be
derivable by repeatedly invoking the one-element path"): `count` sequential
calls of `single`, the `i`-th at the pointers `dst + i * dst_stride` and
`src[j] + i * src_stride[j]`. -/
def sequential_calls {α : Type} (single : expr_single_t α) : expr_strided_t α :=
  fun m dst dst_stride src src_stride count =>
    (List.range count).foldl
      (fun (m : memory α) (i : Nat) =>
        single m (dst + (i : Int) * dst_stride) (fun j => src j + (i : Int) * src_stride j)) m

/-- The single function of a binary child kernel that computes `f`:
`*dst = f(*src[0], *src[1])`. -/
def binary_single {α : Type} (f : α → α → α) : expr_single_t α :=
  fun m dst src => m.store dst (f (m (src 0)) (m (src 1)))

/-- A binary child kernel that computes `f`, whose strided function is the
loop over its single function. -/
def binary_child {α : Type} (f : α → α → α) : child_ckernel α :=
  { single := binary_single f, strided := sequential_calls (binary_single f) }

/-- The recurrence documented on `left_compound_kernel`, lines 15-17, in its
own words: `dst_(0) = a[n-1]`, `dst_(i+1) = dst_(i) <OP> a[n-1-(i+1)]`; the
result is the last `dst`. -/
def left_compound_recurrence {α : Type} (op : α → α → α) (a : List α) : Option α :=
  match a.reverse with
  | [] => none
  | last :: before => some (before.foldl (fun dst x => op dst x) last)

/-- The recurrence documented on `right_compound_kernel`, lines 64-66, in its
own words: `dst_(0) = a[0]`, `dst_(i+1) = a[i+1] <OP> dst_(i)`. -/
def right_compound_recurrence {α : Type} (op : α → α → α) (a : List α) : Option α :=
  match a with
  | [] => none
  | first :: after => some (after.foldl (fun dst x => op x dst) first)

/-- A memory that holds the list `a` at the addresses `0, 1, ...` and zeros
elsewhere. -/
def memory.of_list (a : List Int) : memory Int :=
  fun q => if 0 ≤ q then a.getD q.toNat 0 else 0

/-- The fold of a compound kernel over the elements of `a` from the last to
the first: `dst`, at address `a.length`, is seeded with `a[n-1]`, then the
strided function runs over `a[n-2], ..., a[0]` with `dst_stride = 0` and
`src_stride = -1`.  The result is the final `dst`. -/
def fold_backward (strided : expr_strided_t Int) (a : List Int) : Int :=
  let n : Int := a.length
  let m := (memory.of_list a).store n (a.getD (a.length - 1) 0)
  (strided m n 0 (array_of [n - 2]) (array_of [-1]) (a.length - 1)) n

/-- The fold of a compound kernel over the elements of `a` from the first to
the last: `dst` is seeded with `a[0]`, then the strided function runs over
`a[1], ..., a[n-1]` with `dst_stride = 0` and `src_stride = 1`. -/
def fold_forward (strided : expr_strided_t Int) (a : List Int) : Int :=
  let n : Int := a.length
  let m := (memory.of_list a).store n (a.getD 0 0)
  (strided m n 0 (array_of [1]) (array_of [1]) (a.length - 1)) n

/-! ## type_registry.cpp -/

deriving instance DecidableEq for Except

/-- Modelled from the spec: the struct `id_info` is declared in
type_registry.hpp, which is not among the sources.  The registry "assign[s]
each ... type-kind a stable integer id and record[s] its ancestor chain":
the two members `new_id` passes to `emplace_back(id, base_ids)` and reads
back through `.base_ids`.  A `type_id_t` is an index into the table, a
`Nat`. -/
structure id_info where
  id : Nat
  base_ids : List Nat
deriving DecidableEq, Repr

namespace detail

/-- Embedding of the initial value of the table of `detail::infos()`,
type_registry.cpp line 122: `{{}, id_info(any_kind_id)}`, a value-initialized
entry and the entry of `any_kind_id`, both without base ids.  The enumerator
`any_kind_id` is declared in types/type_id.hpp, not among the sources, and is
a parameter. -/
def infos (any_kind_id : Nat) : List id_info :=
  [{ id := 0, base_ids := [] }, { id := any_kind_id, base_ids := [] }]

end detail

/-- Embedding of `new_id(base_id)`, type_registry.cpp lines 127-141, on the
table `infos`: the returned id and the table after the call.  `none` is the
out-of-range read `infos[base_id]`, which the source does not define. -/
def new_id (infos : List id_info) (base_id : Nat) : Option (Nat × List id_info) :=
  match infos[base_id]? with
  | none => none
  | some base_info =>
    let id := infos.length
    let base_ids := base_info.base_ids.foldl (fun base_ids id => base_ids ++ [id]) [base_id]
    some (id, infos ++ [{ id := id, base_ids := base_ids }])

/-- A sequence of `new_id` calls, as in the constructor of `type_registry`:
the ids returned, in order, and the final table. -/
def new_ids (infos : List id_info) (bases : List Nat) : Option (List Nat × List id_info) :=
  match bases with
  | [] => some ([], infos)
  | base_id :: rest =>
    match new_id infos base_id with
    | none => none
    | some (id, infos2) =>
      match new_ids infos2 rest with
      | none => none
      | some (ids, infos3) => some (id :: ids, infos3)

/-- Modelled from the spec: `is_a(id, candidate_base)` "holds iff
`candidate_base` appears in `id`'s recorded ancestor list or equals `id`"
(the function is not among the sources). -/
def is_a (infos : List id_info) (id candidate_base : Nat) : Bool :=
  candidate_base == id ||
    match infos[id]? with
    | some info => info.base_ids.contains candidate_base
    | none => false

/-! ## callables/min_dispatch_callable.hpp, uniform_dispatch_callable.hpp -/

namespace ndt

/-- What the dispatch callables read from an `ndt::type`: `get_id()`; and
`get_ndim()`, which they do not read. -/
structure type where
  get_id : Nat
  get_ndim : Nat
deriving DecidableEq, Repr

end ndt

/-- Modelled from the spec: the error of a dispatch miss, "a
`NoOverloadError` naming the attempted signature"; the signature of these
dispatchers is the one type id they key on. -/
structure no_overload_error where
  attempted : Nat
deriving DecidableEq, Repr

/-- Modelled from the spec: the class template `dispatcher<callable>`
(dispatcher.hpp) is not among the sources.  It is "a registered table keyed
by a tuple of type ids", here the one id these callables pass. -/
structure dispatcher (callable : Type) where
  pairs : List (Nat × callable)

namespace dispatcher

/-- Modelled from the spec: `dispatcher::insert(pair)`, which "inserts under
the dispatch key": the pair is added to the table, after the pairs already
there. The spec does not say what a second insertion under a key that is
already in the table does to the first; no statement below depends on it. -/
def insert {callable : Type} (self : dispatcher callable) (pair : Nat × callable) :
    dispatcher callable :=
  { pairs := self.pairs ++ [pair] }

/-- Modelled from the spec: `dispatcher::operator()(id)`, which matches
"first-match on exact id, not sub-kind, unless the table was populated with a
kind-level key", and whose miss "is a `NoOverloadError` naming the attempted
signature ... never silently defaulted": the callable under the key `id`
itself if there is one; else the first callable under a key that `id` is a
sub-kind of in the registry `infos`; else the error. -/
def call {callable : Type} (infos : List id_info) (self : dispatcher callable) (id : Nat) :
    Except no_overload_error callable :=
  match self.pairs.find? (fun p => p.1 == id) with
  | some p => Except.ok p.2
  | none =>
    match self.pairs.find? (fun p => is_a infos id p.1) with
    | some p => Except.ok p.2
    | none => Except.error { attempted := id }

end dispatcher

namespace nd

/-- Embedding of the member of `min_dispatch_callable`,
callables/min_dispatch_callable.hpp line 14. -/
structure min_dispatch_callable (callable : Type) where
  m_dispatcher : dispatcher callable

/-- Embedding of `min_dispatch_callable::overload(dst_tp, nsrc, src_tp,
value)`, lines 22-26; the result is the callable after the call. -/
def min_dispatch_callable.overload {callable : Type} (self : min_dispatch_callable callable)
    (_dst_tp : ndt.type) (_nsrc : Int) (src_tp : Nat → ndt.type) (value : callable) :
    min_dispatch_callable callable :=
  { m_dispatcher := self.m_dispatcher.insert ((src_tp 0).get_id, value) }

/-- Embedding of `min_dispatch_callable::specialize(dst_tp, nsrc, src_tp)`,
lines 28-32; `infos` is the type registry the dispatcher consults. -/
def min_dispatch_callable.specialize {callable : Type} (infos : List id_info)
    (self : min_dispatch_callable callable) (_dst_tp : ndt.type) (_nsrc : Int)
    (src_tp : Nat → ndt.type) : Except no_overload_error callable :=
  self.m_dispatcher.call infos (src_tp 0).get_id

/-- Embedding of the member of `uniform_dispatch_callable`,
callables/uniform_dispatch_callable.hpp line 14. -/
structure uniform_dispatch_callable (callable : Type) where
  m_dispatcher : dispatcher callable

/-- Embedding of `uniform_dispatch_callable::overload(dst_tp, nsrc, src_tp,
value)`, lines 22-26. -/
def uniform_dispatch_callable.overload {callable : Type}
    (self : uniform_dispatch_callable callable) (dst_tp : ndt.type) (_nsrc : Int)
    (_src_tp : Nat → ndt.type) (value : callable) : uniform_dispatch_callable callable :=
  { m_dispatcher := self.m_dispatcher.insert (dst_tp.get_id, value) }

/-- Embedding of `uniform_dispatch_callable::specialize(dst_tp, nsrc,
src_tp)`, lines 28-32. -/
def uniform_dispatch_callable.specialize {callable : Type} (infos : List id_info)
    (self : uniform_dispatch_callable callable) (dst_tp : ndt.type) (_nsrc : Int)
    (_src_tp : Nat → ndt.type) : Except no_overload_error callable :=
  self.m_dispatcher.call infos dst_tp.get_id

end nd

/-- A sample registry: the initial table with `any_kind_id = 1`, then a kind
with id 2 under `any_kind_id` and a type with id 3 under that kind. -/
def sample_infos : List id_info :=
  [{ id := 0, base_ids := [] }, { id := 1, base_ids := [] },
   { id := 2, base_ids := [1] }, { id := 3, base_ids := [2, 1] }]

/-! ## dtypes/pointer_dtype.cpp -/

/-- The enumerators of `dtype_kind_t` that the sources name; every other
kind of the enumeration (declared in dtype.hpp, not among the sources) is
`other_kind n`. -/
inductive dtype_kind_t where
  | bool_kind
  | int_kind
  | uint_kind
  | real_kind
  | complex_kind
  | string_kind
  | composite_kind
  | expression_kind
  | pattern_kind
  | other_kind (n : Nat)
deriving DecidableEq, Repr

/-- The enumerators of `type_id_t` that dtypes/pointer_dtype.cpp and its
scenario name; every other id of the enumeration (declared in dtype.hpp, not
among the sources) is `other_type_id n`. -/
inductive type_id_t where
  | int32_type_id
  | pointer_type_id
  | other_type_id (n : Nat)
deriving DecidableEq, Repr

/-- The members of `base_dtype` that the constructor of
`base_expression_dtype` sets from its arguments
`(type_id, kind, data_size, alignment, undim)`. -/
structure base_dtype where
  m_type_id : type_id_t
  m_kind : dtype_kind_t
  m_data_size : Nat
  m_alignment : Nat
  m_undim : Nat
deriving DecidableEq, Repr

/-- A `dtype` value: a builtin type id, or a reference to an extended dtype
object, which is a `pointer_dtype` with its target or an object of another
class, told apart by `payload`. -/
inductive dtype where
  | builtin (type_id : type_id_t)
  | pointer (base : base_dtype) (m_target_dtype : dtype)
  | extended (base : base_dtype) (payload : Nat)
deriving DecidableEq, Repr

namespace dtype

/-- Modelled from the spec: `dtype::get_type_id()` (dtype.hpp is not among the
sources), the attribute `id` of a type descriptor. -/
def get_type_id : dtype → type_id_t
  | builtin type_id => type_id
  | pointer base _ => base.m_type_id
  | extended base _ => base.m_type_id

/-- Modelled from the spec: `dtype::get_kind()` (dtype.hpp is not among the
sources), the attribute `kind` of a type descriptor; `builtin_kinds` is the
table of the kinds of the builtin type ids. -/
def get_kind (builtin_kinds : type_id_t → dtype_kind_t) : dtype → dtype_kind_t
  | builtin type_id => builtin_kinds type_id
  | pointer base _ => base.m_kind
  | extended base _ => base.m_kind

/-- Modelled from the spec: `dtype::get_undim()` (dtype.hpp is not among the
sources), the attribute `ndim` of a type descriptor, which is 0 for a builtin
dtype. -/
def get_undim : dtype → Nat
  | builtin _ => 0
  | pointer base _ => base.m_undim
  | extended base _ => base.m_undim

end dtype

/-- The members of a `pointer_dtype` object: those of its base class and
`m_target_dtype`. -/
structure pointer_dtype where
  base : base_dtype
  m_target_dtype : dtype
deriving DecidableEq, Repr

/-- The exception `std::runtime_error` thrown by the constructor of
`pointer_dtype`, whose message names the target. -/
inductive runtime_error where
  | pointer_target_is_expression (target_dtype : dtype)
deriving DecidableEq, Repr

namespace pointer_dtype

/-- Embedding of the constructor `pointer_dtype::pointer_dtype(target_dtype)`,
dtypes/pointer_dtype.cpp lines 20-33; `sizeof_void_ptr` is `sizeof(void *)`. -/
def make (builtin_kinds : type_id_t → dtype_kind_t) (sizeof_void_ptr : Nat)
    (target_dtype : dtype) : Except runtime_error pointer_dtype :=
  let self : pointer_dtype :=
    { base :=
        { m_type_id := type_id_t.pointer_type_id
          m_kind := dtype_kind_t.expression_kind
          m_data_size := sizeof_void_ptr
          m_alignment := sizeof_void_ptr
          m_undim := target_dtype.get_undim }
      m_target_dtype := target_dtype }
  if target_dtype.get_kind builtin_kinds = dtype_kind_t.expression_kind ∧
      target_dtype.get_type_id ≠ type_id_t.pointer_type_id then
    Except.error (runtime_error.pointer_target_is_expression target_dtype)
  else
    Except.ok self

/-- The `dtype` that refers to a pointer dtype object, as in
`dtype(new pointer_dtype(dt), false)` and `dtype(this, true)`. -/
def to_dtype (self : pointer_dtype) : dtype :=
  dtype.pointer self.base self.m_target_dtype

/-- Embedding of `pointer_dtype::get_canonical_dtype()`, lines 95-99. -/
def get_canonical_dtype (self : pointer_dtype) : dtype :=
  self.m_target_dtype

end pointer_dtype

/-- A sample table of builtin kinds: every builtin id is of `int_kind`. -/
def sample_builtin_kinds : type_id_t → dtype_kind_t :=
  fun _ => dtype_kind_t.int_kind


/-! ## dnd/irange.hpp -/

/-- The value `std::numeric_limits<intptr_t>::min()` for an `intptr_t` of
`bits` bits. -/
def intptr_min (bits : Nat) : Int := -(2 ^ (bits - 1))

/-- The value `std::numeric_limits<intptr_t>::max()` for an `intptr_t` of
`bits` bits. -/
def intptr_max (bits : Nat) : Int := 2 ^ (bits - 1) - 1

/-- The members of class `irange`, irange.hpp line 41; an `intptr_t` is
embedded as the integer it holds. -/
structure irange where
  m_start : Int
  m_finish : Int
  m_step : Int
deriving DecidableEq, Repr

namespace irange

/-- Embedding of the default constructor `irange()`, irange.hpp lines 43-46. -/
def make (bits : Nat) : irange :=
  { m_start := intptr_min bits, m_finish := intptr_max bits, m_step := 1 }

/-- Embedding of the constructor `irange(intptr_t idx)`, lines 48-50. -/
def make_index (idx : Int) : irange :=
  { m_start := idx, m_finish := idx, m_step := 0 }

/-- Embedding of the constructor `irange(start, finish, step = 1)`, lines
52-54; the default argument is written out by the caller. -/
def make_range (start finish step : Int) : irange :=
  { m_start := start, m_finish := finish, m_step := step }

/-- Embedding of `irange::start()`, lines 56-58. -/
def start (self : irange) : Int := self.m_start

/-- Embedding of `irange::finish()`, lines 60-62. -/
def finish (self : irange) : Int := self.m_finish

/-- Embedding of `irange::step()`, lines 64-66. -/
def step (self : irange) : Int := self.m_step

/-- Embedding of `irange::operator/(intptr_t step)`, lines 84-86. -/
def div (self : irange) (step : Int) : irange :=
  make_range self.m_start self.m_finish step

/-- Embedding of the member `irange::operator<(intptr_t finish)`, lines
92-94: the notation `irange() < finish`. -/
def lt (self : irange) (finish : Int) : irange :=
  make_range self.m_start finish self.m_step

/-- Embedding of the member `irange::operator<=(intptr_t last)`, lines
100-102: the notation `irange() <= last`. The sum `last + 1` is a signed
addition, which has no defined value when `last` is the largest `intptr_t`;
the result is then `none`. -/
def le (bits : Nat) (self : irange) (last : Int) : Option irange :=
  if last ≠ -1 then
    if last + 1 ≤ intptr_max bits then
      some (make_range self.m_start (last + 1) self.m_step)
    else none
  else some (make_range self.m_start (intptr_max bits) self.m_step)

/-- Embedding of the member `irange::operator>(intptr_t finish)`, lines
108-110: the notation `irange() > finish`. -/
def gt (self : irange) (finish : Int) : irange :=
  make_range self.m_start finish self.m_step

/-- Embedding of the member `irange::operator>=(intptr_t last)`, lines
116-118: the notation `irange() >= last`. The difference `last - 1` has no
defined value when `last` is the smallest `intptr_t`; the result is then
`none`. -/
def ge (bits : Nat) (self : irange) (last : Int) : Option irange :=
  if last ≠ 0 then
    if intptr_min bits ≤ last - 1 then
      some (make_range self.m_start (last - 1) self.m_step)
    else none
  else some (make_range self.m_start (intptr_max bits) self.m_step)

/-- Embedding of the free `operator<(intptr_t start_minus_one, const irange& i)`,
lines 130-132: the notation `lower < irange()`. The sum
`start_minus_one + 1` has no defined value when `start_minus_one` is the
largest `intptr_t`; the result is then `none`. -/
def lt_left (bits : Nat) (start_minus_one : Int) (i : irange) : Option irange :=
  if start_minus_one + 1 ≤ intptr_max bits then
    some (make_range (start_minus_one + 1) i.m_finish i.m_step)
  else none

/-- Embedding of the free `operator<=(intptr_t start, const irange& i)`, lines
138-140: the notation `start <= irange()`. -/
def le_left (start : Int) (i : irange) : irange :=
  make_range start i.m_finish i.m_step

/-- Embedding of the free `operator>(intptr_t start_plus_one, const irange& i)`,
lines 146-148: the notation `upper > irange()`. The difference
`start_plus_one - 1` has no defined value when `start_plus_one` is the
smallest `intptr_t`; the result is then `none`. -/
def gt_left (bits : Nat) (start_plus_one : Int) (i : irange) : Option irange :=
  if intptr_min bits ≤ start_plus_one - 1 then
    some (make_range (start_plus_one - 1) i.m_finish i.m_step)
  else none

/-- Embedding of the free `operator>=(intptr_t start, const irange& i)`, lines
154-156: the notation `start >= irange()`. -/
def ge_left (start : Int) (i : irange) : irange :=
  make_range start i.m_finish i.m_step

/-- The indices of a range as the class documentation, lines 18-25, describes
them: the single index `m_start` when the step is 0; otherwise
`m_start, m_start + m_step, ...`, as many as stay below `m_finish` for a
positive step, or above `m_finish` for a negative step. -/
def indices (self : irange) : List Int :=
  if self.m_step = 0 then [self.m_start]
  else if 0 < self.m_step then
    (List.range ((self.m_finish - self.m_start + self.m_step - 1) / self.m_step).toNat).map
      (fun (k : Nat) => self.m_start + (k : Int) * self.m_step)
  else
    (List.range ((self.m_start - self.m_finish + (-self.m_step) - 1) / (-self.m_step)).toNat).map
      (fun (k : Nat) => self.m_start + (k : Int) * self.m_step)

end irange

/-! ## dtypes/pointer_dtype.cpp: equality, indexing, metadata -/

namespace dtype

/-- Modelled from the spec: `dtype::operator==` (dtype.hpp is not among the
sources). Builtin dtypes are identified by their id; two extended dtypes are
compared by the virtual `operator==` of the left object. For a pointer dtype
that is `pointer_dtype::operator==(const base_dtype& rhs)`,
dtypes/pointer_dtype.cpp lines 243-253; for an object of another class it is
`extended_eq`. `same_object a b` is the address comparison `this == &rhs` of
the two objects referred to. An object whose type id is `pointer_type_id` is a
`pointer_dtype`; the `static_cast` of any other object has no defined result
and is given `false`. -/
def eq (same_object : dtype → dtype → Bool)
    (extended_eq : base_dtype → Nat → dtype → Bool) : dtype → dtype → Bool
  | builtin a, builtin b => decide (a = b)
  | builtin _, pointer _ _ => false
  | builtin _, extended _ _ => false
  | pointer base m_target_dtype, rhs =>
    match rhs with
    | builtin _ => false
    | pointer rbase rtarget =>
      if same_object (pointer base m_target_dtype) (pointer rbase rtarget) then true
      else if rbase.m_type_id ≠ type_id_t.pointer_type_id then false
      else eq same_object extended_eq m_target_dtype rtarget
    | extended rbase payload =>
      if same_object (pointer base m_target_dtype) (extended rbase payload) then true
      else if rbase.m_type_id ≠ type_id_t.pointer_type_id then false
      else false
  | extended base payload, rhs =>
    match rhs with
    | builtin _ => false
    | pointer rbase rtarget => extended_eq base payload (pointer rbase rtarget)
    | extended rbase rpayload => extended_eq base payload (extended rbase rpayload)

end dtype

/-- The exceptions that leave the type-level `apply_linear_index`: the
`std::runtime_error` of the `pointer_dtype` constructor, and whatever the
indexing of a dtype that is not a pointer throws. -/
inductive index_exception where
  | runtime (e : runtime_error)
  | other (n : Nat)
deriving DecidableEq, Repr

namespace dtype

/-- Embedding of the type-level `pointer_dtype::apply_linear_index`,
dtypes/pointer_dtype.cpp lines 101-122, in the `pointer` case, reached through
`dtype::apply_linear_index` (dtype.hpp is not among the sources). For a dtype
that is not a pointer, builtin or of another class, the result of
`dtype::apply_linear_index` is the parameter `leaf_apply_linear_index`. The
array `indices` is a list, `NULL` the empty list. -/
def apply_linear_index (builtin_kinds : type_id_t → dtype_kind_t) (sizeof_void_ptr : Nat)
    (same_object : dtype → dtype → Bool) (extended_eq : base_dtype → Nat → dtype → Bool)
    (leaf_apply_linear_index :
      dtype → Int → List irange → Int → dtype → Bool → Except index_exception dtype) :
    dtype → Int → List irange → Int → dtype → Bool → Except index_exception dtype
  | builtin type_id, nindices, indices, current_i, root_dt, leading_dimension =>
    leaf_apply_linear_index (builtin type_id) nindices indices current_i root_dt
      leading_dimension
  | extended base payload, nindices, indices, current_i, root_dt, leading_dimension =>
    leaf_apply_linear_index (extended base payload) nindices indices current_i root_dt
      leading_dimension
  | pointer base m_target_dtype, nindices, indices, current_i, root_dt, leading_dimension =>
    if nindices = 0 then
      if leading_dimension then
        apply_linear_index builtin_kinds sizeof_void_ptr same_object extended_eq
          leaf_apply_linear_index m_target_dtype 0 [] current_i root_dt true
      else
        Except.ok (pointer base m_target_dtype)
    else
      match apply_linear_index builtin_kinds sizeof_void_ptr same_object extended_eq
          leaf_apply_linear_index m_target_dtype nindices indices current_i root_dt
          leading_dimension with
      | Except.error e => Except.error e
      | Except.ok dt =>
        if leading_dimension then
          Except.ok dt
        else if eq same_object extended_eq dt m_target_dtype then
          Except.ok (pointer base m_target_dtype)
        else
          match pointer_dtype.make builtin_kinds sizeof_void_ptr dt with
          | Except.error e => Except.error (index_exception.runtime e)
          | Except.ok p => Except.ok p.to_dtype

/-- The dtype under all the leading pointers of a dtype: `T` for
`pointer<pointer<T>>` when `T` is not a pointer. -/
def strip_pointers : dtype → dtype
  | builtin type_id => builtin type_id
  | extended base payload => extended base payload
  | pointer _ m_target_dtype => strip_pointers m_target_dtype

/-- Whether a dtype refers to a `pointer_dtype` object. -/
def is_pointer : dtype → Bool
  | pointer _ _ => true
  | _ => false

/-- The dtypes that the constructors build: every pointer dtype has the base
members that `pointer_dtype::pointer_dtype` computes from its target, and no
object of another class has `pointer_type_id`. -/
def constructed (sizeof_void_ptr : Nat) : dtype → Prop
  | builtin _ => True
  | extended base _ => base.m_type_id ≠ type_id_t.pointer_type_id
  | pointer base m_target_dtype =>
    base = { m_type_id := type_id_t.pointer_type_id
             m_kind := dtype_kind_t.expression_kind
             m_data_size := sizeof_void_ptr
             m_alignment := sizeof_void_ptr
             m_undim := m_target_dtype.get_undim } ∧
    constructed sizeof_void_ptr m_target_dtype

end dtype

/-- The enumerators of `memory_block_type_t` that dtypes/pointer_dtype.cpp
names; every other kind of memory block (the enumeration is declared in
memblock/memory_block.hpp, not among the sources) is
`other_memory_block_type n`. -/
inductive memory_block_type_t where
  | pod_memory_block_type
  | fixed_size_pod_memory_block_type
  | other_memory_block_type (n : Nat)
deriving DecidableEq, Repr

/-- The members of `memory_block_data` that dtypes/pointer_dtype.cpp reads. -/
structure memory_block_data where
  m_use_count : Int
  m_type : memory_block_type_t
deriving DecidableEq, Repr

/-- The record `pointer_dtype_metadata`: `blockref` is the address of a
memory block, 0 for `NULL`. -/
structure pointer_dtype_metadata where
  blockref : Int
  offset : Int
deriving DecidableEq, Repr

/-- The memory that the metadata functions work on: the memory blocks and the
`pointer_dtype_metadata` records, each by the address where it starts, `none`
where there is none; nothing is stored at the address 0. -/
structure metadata_memory where
  blocks : Int → Option memory_block_data
  records : Int → Option pointer_dtype_metadata

namespace metadata_memory

/-- The assignment `md->blockref = value` to the record at `md`; `none` when
no record is stored there. -/
def set_blockref (mem : metadata_memory) (md : Int) (value : Int) : Option metadata_memory :=
  match mem.records md with
  | none => none
  | some r =>
    some { mem with
      records := fun a => if a = md then some { r with blockref := value } else mem.records a }

/-- The assignment `md->offset = value` to the record at `md`; `none` when no
record is stored there. -/
def set_offset (mem : metadata_memory) (md : Int) (value : Int) : Option metadata_memory :=
  match mem.records md with
  | none => none
  | some r =>
    some { mem with
      records := fun a => if a = md then some { r with offset := value } else mem.records a }

end metadata_memory

/-- Modelled from the spec: `memory_block_incref(mbd)` (memblock/memory_block.hpp
is not among the sources) increments the `use_count` of the block at `mbd`; it
has no defined result, `none`, when no block is stored there, as for
`NULL`. -/
def memory_block_incref (mem : metadata_memory) (mbd : Int) : Option metadata_memory :=
  match mem.blocks mbd with
  | none => none
  | some b =>
    some { mem with
      blocks := fun a =>
        if a = mbd then some { b with m_use_count := b.m_use_count + 1 } else mem.blocks a }

namespace dtype

/-- Embedding of `pointer_dtype::metadata_copy_construct`,
dtypes/pointer_dtype.cpp lines 330-343, in the `pointer` case. The call
`m_target_dtype.extended()->metadata_copy_construct(...)` under
`!m_target_dtype.is_builtin()` is the recursion: nothing for a builtin dtype,
`extended_copy_construct` for an object of another class.
`sizeof_metadata` is `sizeof(pointer_dtype_metadata)`. -/
def metadata_copy_construct (sizeof_metadata : Int)
    (extended_copy_construct :
      base_dtype → Nat → metadata_memory → Int → Int → Int → Option metadata_memory) :
    dtype → metadata_memory → Int → Int → Int → Option metadata_memory
  | builtin _, mem, _, _, _ => some mem
  | extended base payload, mem, dst_metadata, src_metadata, embedded_reference =>
    extended_copy_construct base payload mem dst_metadata src_metadata embedded_reference
  | pointer _ m_target_dtype, mem, dst_metadata, src_metadata, embedded_reference =>
    match mem.records src_metadata with
    | none => none
    | some src_md =>
      match mem.set_blockref dst_metadata
          (if src_md.blockref ≠ 0 then src_md.blockref else embedded_reference) with
      | none => none
      | some mem1 =>
        match mem1.records dst_metadata with
        | none => none
        | some dst_md =>
          match memory_block_incref mem1 dst_md.blockref with
          | none => none
          | some mem2 =>
            match mem2.records src_metadata with
            | none => none
            | some src_md2 =>
              match mem2.set_offset dst_metadata src_md2.offset with
              | none => none
              | some mem3 =>
                metadata_copy_construct sizeof_metadata extended_copy_construct
                  m_target_dtype mem3 (dst_metadata + sizeof_metadata)
                  (src_metadata + sizeof_metadata) embedded_reference

end dtype

namespace pointer_dtype

/-- Embedding of `pointer_dtype::is_unique_data_owner`,
dtypes/pointer_dtype.cpp lines 68-78. Line 70 casts `*metadata`, the `char`
stored at `metadata`, to the record pointer `md`; `first_char r` is the `char`
at the first byte of a record `r`. The reads through `md` and through
`md->blockref` have no defined result, `none`, when no record or no block is
stored there. -/
def is_unique_data_owner (first_char : pointer_dtype_metadata → Int)
    (mem : metadata_memory) (metadata : Int) : Option Bool :=
  match mem.records metadata with
  | none => none
  | some at_metadata =>
    let md : Int := first_char at_metadata
    match mem.records md with
    | none => none
    | some r =>
      if r.blockref ≠ 0 then
        match mem.blocks r.blockref with
        | none => none
        | some block =>
          if block.m_use_count ≠ 1 ∨
              (block.m_type ≠ memory_block_type_t.pod_memory_block_type ∧
               block.m_type ≠ memory_block_type_t.fixed_size_pod_memory_block_type) then
            some false
          else some true
      else some true

end pointer_dtype

/-- The first byte of a record on a little-endian machine with a signed
`char`: the low byte of `blockref`. -/
def first_char_little_endian (r : pointer_dtype_metadata) : Int :=
  if r.blockref % 256 < 128 then r.blockref % 256 else r.blockref % 256 - 256

/-- A sample memory: a POD block with use count 1 at the address 8192, and at
the address 4096 a record whose `blockref` is null, with the offset 24, at
4112 a record that refers to the block. -/
def sample_metadata_memory : metadata_memory :=
  { blocks := fun a =>
      if a = 8192 then some ⟨1, memory_block_type_t.pod_memory_block_type⟩ else none
    records := fun a =>
      if a = 4096 then some ⟨0, 24⟩
      else if a = 4112 then some ⟨8192, 0⟩
      else none }

/-- A sample of the indexing of the dtypes that are not pointers: a dtype
indexed with no indices is returned as it is, more indices are an error. -/
def sample_leaf_apply_linear_index :
    dtype → Int → List irange → Int → dtype → Bool → Except index_exception dtype :=
  fun d nindices _ _ _ _ =>
    if nindices = 0 then Except.ok d else Except.error (index_exception.other 0)

/-- The base members of a pointer dtype with 8-byte pointers and a target
without dimensions. -/
def sample_pointer_base : base_dtype :=
  { m_type_id := type_id_t.pointer_type_id, m_kind := dtype_kind_t.expression_kind,
    m_data_size := 8, m_alignment := 8, m_undim := 0 }

/-! ## types/tuple_type.cpp -/

namespace types

/-- The enumerator of `type_id_t` that types/tuple_type.cpp names; every other
id of the enumeration is `other_type_id n`. -/
inductive type_id_t where
  | tuple_type_id
  | other_type_id (n : Nat)
deriving DecidableEq, Repr

/-- An `ndt::type` value as types/tuple_type.cpp uses it: a builtin type id,
or a reference to a `tuple_type` object, with the data alignment of its base
class and its array `m_field_types`, or a reference to an object of another
class, told apart by `payload`. -/
inductive type where
  | builtin (type_id : type_id_t)
  | tuple (data_alignment : Nat) (m_field_types : List type)
  | other (type_id : type_id_t) (payload : Nat)

namespace type

/-- Modelled from the spec: `ndt::type::get_type_id()` (type.hpp is not among
the sources), the attribute `id` of a type descriptor; a `tuple_type` object
is constructed with `tuple_type_id`. -/
def get_type_id : type → type_id_t
  | builtin type_id => type_id
  | tuple _ _ => type_id_t.tuple_type_id
  | other type_id _ => type_id

mutual

/-- Modelled from the spec: `ndt::type::operator==` (type.hpp is not among the
sources). Builtin types are identified by their id; two other types are
compared by the virtual `operator==` of the left object. For a tuple type that
is `tuple_type::operator==(const base_type& rhs)`, types/tuple_type.cpp lines
147-158; for an object of another class it is `other_eq`. `same_object a b`
is the address comparison `this == &rhs`. An object whose type id is
`tuple_type_id` is a `tuple_type`; the `static_cast` of any other object has no
defined result and is given `false`. -/
def eq (same_object : type → type → Bool) (other_eq : type_id_t → Nat → type → Bool) :
    type → type → Bool
  | builtin a, builtin b => decide (a = b)
  | builtin _, tuple _ _ => false
  | builtin _, other _ _ => false
  | tuple data_alignment m_field_types, rhs =>
    match rhs with
    | builtin _ => false
    | tuple ralignment rfield_types =>
      if same_object (tuple data_alignment m_field_types) (tuple ralignment rfield_types)
      then true
      else if (tuple ralignment rfield_types).get_type_id ≠ type_id_t.tuple_type_id then false
      else decide (data_alignment = ralignment) &&
        equals_exact same_object other_eq m_field_types rfield_types
    | other rtype_id rpayload =>
      if same_object (tuple data_alignment m_field_types) (other rtype_id rpayload) then true
      else if rtype_id ≠ type_id_t.tuple_type_id then false
      else false
  | other type_id payload, rhs =>
    match rhs with
    | builtin _ => false
    | tuple ralignment rfield_types => other_eq type_id payload (tuple ralignment rfield_types)
    | other rtype_id rpayload => other_eq type_id payload (other rtype_id rpayload)

/-- Modelled from the spec: `nd::array::equals_exact` on two arrays of types
(array.cpp is not among the sources), "an exactly equal field-type sequence":
the same number of elements, equal pair by pair under `==`. -/
def equals_exact (same_object : type → type → Bool)
    (other_eq : type_id_t → Nat → type → Bool) : List type → List type → Bool
  | [], [] => true
  | [], _ :: _ => false
  | _ :: _, [] => false
  | a :: as, b :: bs =>
    eq same_object other_eq a b && equals_exact same_object other_eq as bs

end

end type

end types

/-- A sample of the `operator==` of the classes other than `tuple_type`:
equal to the objects of the same id and payload only. -/
def sample_other_eq : types.type_id_t → Nat → types.type → Bool :=
  fun type_id payload rhs =>
    match rhs with
    | types.type.other rtype_id rpayload => decide (type_id = rtype_id ∧ payload = rpayload)
    | _ => false

/-- A sample of the `operator==` of the classes other than `pointer_dtype`:
equal to the objects of the same members only. -/
def sample_extended_eq : base_dtype → Nat → dtype → Bool :=
  fun base payload rhs => decide (rhs = dtype.extended base payload)

/-! ## shape_tools.hpp -/

/-- The conversion `static_cast<unsigned int>(v)` of an `int` to the 32-bit
`unsigned int`: the value modulo 2^32 = 4294967296. -/
def to_unsigned_int (v : Int) : Nat := (v % 4294967296).toNat

/-- The loop of `is_valid_perm`, shape_tools.hpp lines 210-216, with
`remaining = size - i` iterations left; `flags` is the `char` array. The read
`flags[v]` at an index outside the array has no defined value: the result is
then `none`. -/
def is_valid_perm_loop (size : Nat) (perm : Nat → Int) :
    Nat → Nat → List Int → Option Bool
  | 0, _, _ => some true
  | remaining + 1, i, flags =>
    let v := perm i
    if to_unsigned_int v ≥ size then some false
    else if v < 0 then none
    else
      match flags[v.toNat]? with
      | none => none
      | some f =>
        if f ≠ 0 then some false
        else is_valid_perm_loop size perm remaining (i + 1) (flags.set v.toNat 1)

/-- Embedding of `is_valid_perm(size, perm)`, shape_tools.hpp lines 207-218;
`perm` is the C array, `shortvector<char> flags(size)` is zeroed by
`memset`. -/
def is_valid_perm (size : Nat) (perm : Nat → Int) : Option Bool :=
  is_valid_perm_loop size perm size 0 (List.replicate size 0)

/-! ## dnd/dtype.cpp -/

namespace dnd

/-- The constants of dnd/dtype.hpp, which is not among the sources, that
dnd/dtype.cpp reads and whose values none of its lines fixes: the enumerators
`builtin_type_id_count`, `bytes_type_id`, `pattern_type_id` of `type_id_t`, and
the enumerator of `dtype_kind_t` whose value is 0, which is the kind of a
zero-initialized row of `basic_type_id_info`. -/
structure dtype_hpp where
  builtin_type_id_count : Nat
  bytes_type_id : Int
  pattern_type_id : Int
  zero_kind : dtype_kind_t

/-- The enumerators of `type_id_t` from `bool_type_id` to `utf8_type_id`; both
tables of dnd/dtype.cpp "must match up with the type id enumeration", and
`validate_type_id` accepts `0 <= type_id <= utf8_type_id`. -/
def bool_type_id : Int := 0
/-- See `bool_type_id`. -/
def int8_type_id : Int := 1
/-- See `bool_type_id`. -/
def int16_type_id : Int := 2
/-- See `bool_type_id`. -/
def int32_type_id : Int := 3
/-- See `bool_type_id`. -/
def int64_type_id : Int := 4
/-- See `bool_type_id`. -/
def uint8_type_id : Int := 5
/-- See `bool_type_id`. -/
def uint16_type_id : Int := 6
/-- See `bool_type_id`. -/
def uint32_type_id : Int := 7
/-- See `bool_type_id`. -/
def uint64_type_id : Int := 8
/-- See `bool_type_id`. -/
def float32_type_id : Int := 9
/-- See `bool_type_id`. -/
def float64_type_id : Int := 10
/-- See `bool_type_id`. -/
def complex_float32_type_id : Int := 11
/-- See `bool_type_id`. -/
def complex_float64_type_id : Int := 12
/-- See `bool_type_id`. -/
def utf8_type_id : Int := 13

/-- The macro `DND_MAX_NUM_TYPE_IDS`, dnd/dtype.cpp line 18. -/
def DND_MAX_NUM_TYPE_IDS : Nat := 64

/-- A row of `basic_type_id_info`, dnd/dtype.cpp lines 50-52. -/
structure type_id_info where
  kind : dtype_kind_t
  alignment : Nat
  itemsize : Nat
deriving DecidableEq, Repr

/-- The table `basic_type_id_info`, dnd/dtype.cpp lines 50-70: seventeen rows
with an initializer, the other rows of the `DND_MAX_NUM_TYPE_IDS` zeroed. -/
def basic_type_id_info (hpp : dtype_hpp) : List type_id_info :=
  [ ⟨dtype_kind_t.bool_kind, 1, 1⟩,
    ⟨dtype_kind_t.int_kind, 1, 1⟩,
    ⟨dtype_kind_t.int_kind, 2, 2⟩,
    ⟨dtype_kind_t.int_kind, 4, 4⟩,
    ⟨dtype_kind_t.int_kind, 8, 8⟩,
    ⟨dtype_kind_t.uint_kind, 1, 1⟩,
    ⟨dtype_kind_t.uint_kind, 2, 2⟩,
    ⟨dtype_kind_t.uint_kind, 4, 4⟩,
    ⟨dtype_kind_t.uint_kind, 8, 8⟩,
    ⟨dtype_kind_t.real_kind, 4, 4⟩,
    ⟨dtype_kind_t.real_kind, 8, 8⟩,
    ⟨dtype_kind_t.complex_kind, 4, 8⟩,
    ⟨dtype_kind_t.complex_kind, 8, 16⟩,
    ⟨dtype_kind_t.string_kind, 1, 0⟩,
    ⟨dtype_kind_t.composite_kind, 1, 0⟩,
    ⟨dtype_kind_t.composite_kind, 1, 0⟩,
    ⟨dtype_kind_t.pattern_kind, 1, 0⟩ ] ++
  List.replicate (DND_MAX_NUM_TYPE_IDS - 17) ⟨hpp.zero_kind, 0, 0⟩

/-- The table `type_id_names`, dnd/dtype.cpp lines 77-97: nineteen names, the
other rows of the `DND_MAX_NUM_TYPE_IDS` empty strings. -/
def type_id_names : List String :=
  [ "bool", "int8", "int16", "int32", "int64", "uint8", "uint16", "uint32",
    "uint64", "float32", "float64", "complex<float32>", "complex<float64>",
    "utf8", "bytes<>", "struct", "array", "convert", "pattern" ] ++
  List.replicate (DND_MAX_NUM_TYPE_IDS - 19) ""

/-- The exceptions that dnd/dtype.cpp throws: `invalid_type_id` with the id,
and `std::runtime_error` with its message. -/
inductive exception where
  | invalid_type_id (type_id : Int)
  | runtime_error (what : String)
deriving DecidableEq, Repr

/-- The members of `dnd::dtype` that the constructors of dnd/dtype.cpp set;
`m_data` is the shared pointer to the extended dtype, `none` when empty. -/
structure dtype where
  m_type_id : Int
  m_kind : dtype_kind_t
  m_alignment : Nat
  m_itemsize : Int
  m_data : Option Nat
deriving DecidableEq, Repr

/-- Embedding of `validate_type_id`, dnd/dtype.cpp lines 105-113; the cast
`(unsigned int)type_id` is the value modulo 2^32 = 4294967296. -/
def validate_type_id (type_id : Int) : Except exception Int :=
  if type_id % 4294967296 ≤ utf8_type_id then Except.ok type_id
  else Except.error (exception.invalid_type_id type_id)

/-- Embedding of `get_type_id_basename`, dnd/dtype.cpp lines 115-118. -/
def get_type_id_basename (type_id : Int) : Except exception String :=
  match validate_type_id type_id with
  | Except.error e => Except.error e
  | Except.ok id => Except.ok (type_id_names.getD id.toNat "")

/-- The element `basic_type_id_info[type_id]` for an index inside the table. -/
def info_row (hpp : dtype_hpp) (type_id : Nat) : type_id_info :=
  (basic_type_id_info hpp).getD type_id ⟨hpp.zero_kind, 0, 0⟩

namespace dtype

/-- Embedding of the default constructor `dtype::dtype()`, lines 120-125. -/
def make_default (hpp : dtype_hpp) : dtype :=
  { m_type_id := hpp.pattern_type_id, m_kind := dtype_kind_t.pattern_kind,
    m_alignment := 1, m_itemsize := 0, m_data := none }

/-- Embedding of `dtype::dtype(type_id_t type_id)` and of
`dtype::dtype(int type_id)`, lines 127-143; the member initializers run in
order, so a rejected id reads no table row. -/
def make (hpp : dtype_hpp) (type_id : Int) : Except exception dtype :=
  match validate_type_id type_id with
  | Except.error e => Except.error e
  | Except.ok id =>
    Except.ok
      { m_type_id := id
        m_kind := (info_row hpp type_id.toNat).kind
        m_alignment := (info_row hpp type_id.toNat).alignment
        m_itemsize := (info_row hpp type_id.toNat).itemsize
        m_data := none }

/-- Embedding of `dtype::dtype(type_id_t type_id, intptr_t size)` and of
`dtype::dtype(int type_id, intptr_t size)`, lines 145-177. -/
def make_sized (hpp : dtype_hpp) (type_id : Int) (size : Int) : Except exception dtype :=
  match make hpp type_id with
  | Except.error e => Except.error e
  | Except.ok self =>
    if self.m_itemsize ≠ 0 then
      if self.m_itemsize ≠ size then
        match get_type_id_basename type_id with
        | Except.error e => Except.error e
        | Except.ok name =>
          Except.error (exception.runtime_error ("invalid itemsize for type id " ++ name))
      else Except.ok self
    else Except.ok { self with m_itemsize := size }

/-- Embedding of `dtype::dtype(const std::string& rep)`, lines 179-194: the
first `id` below `builtin_type_id_count` whose name is `rep`. -/
def of_string (hpp : dtype_hpp) (rep : String) : Except exception dtype :=
  match (List.range hpp.builtin_type_id_count).find?
      (fun (id : Nat) => decide (rep = type_id_names.getD id "")) with
  | some id =>
    Except.ok
      { m_type_id := (id : Int)
        m_kind := (info_row hpp id).kind
        m_alignment := (info_row hpp id).alignment
        m_itemsize := (info_row hpp id).itemsize
        m_data := none }
  | none =>
    Except.error (exception.runtime_error ("invalid type string \"" ++ rep ++ "\""))

/-- Embedding of `operator<<(std::ostream&, const dtype&)`, lines 196-261, as
the text it writes; `extended_print` is the text that `extended()->print(o)`
writes for an extended dtype. -/
def print (hpp : dtype_hpp) (extended_print : Nat → String) (rhs : dtype) : String :=
  if rhs.m_type_id = bool_type_id then "bool"
  else if rhs.m_type_id = int8_type_id then "int8"
  else if rhs.m_type_id = int16_type_id then "int16"
  else if rhs.m_type_id = int32_type_id then "int32"
  else if rhs.m_type_id = int64_type_id then "int64"
  else if rhs.m_type_id = uint8_type_id then "uint8"
  else if rhs.m_type_id = uint16_type_id then "uint16"
  else if rhs.m_type_id = uint32_type_id then "uint32"
  else if rhs.m_type_id = uint64_type_id then "uint64"
  else if rhs.m_type_id = float32_type_id then "float32"
  else if rhs.m_type_id = float64_type_id then "float64"
  else if rhs.m_type_id = complex_float32_type_id then "complex<float32>"
  else if rhs.m_type_id = complex_float64_type_id then "complex<float64>"
  else if rhs.m_type_id = utf8_type_id then
    if rhs.m_itemsize = 0 then "utf8"
    else "utf8<" ++ toString rhs.m_itemsize ++ ">"
  else if rhs.m_type_id = hpp.bytes_type_id then
    "bytes<" ++ toString rhs.m_itemsize ++ "," ++ toString rhs.m_alignment ++ ">"
  else if rhs.m_type_id = hpp.pattern_type_id then "pattern"
  else
    match rhs.m_data with
    | some extended => extended_print extended
    | none => "<internal error: builtin dtype without formatting support>"

end dtype

/-- A sample of the constants of dnd/dtype.hpp: thirteen builtin ids, `bytes`
and `pattern` placed where `type_id_names` has their names. -/
def sample_hpp : dtype_hpp :=
  { builtin_type_id_count := 13, bytes_type_id := 14, pattern_type_id := 18,
    zero_kind := dtype_kind_t.bool_kind }

end dnd

/-! ## kernels/ckernel_builder.hpp: the C API -/

/-- State after a C API function, the effects it had, and the `int` it
returned. -/
structure c_outcome where
  ckb : ckernel_builder
  effects : List effect
  returned : Int
deriving DecidableEq, Repr

/-- Embedding of the C API function
`ckernel_builder_ensure_capacity_leaf(ckb, requested_capacity)`, lines 463-499;
its calls of `malloc`, `memcpy`, `realloc` and `memset` are the library calls
behind `alloc`, `copy`, `std_realloc` and `set`. -/
def ckernel_builder_ensure_capacity_leaf (a : alloc_outcome) (ckb_ptr : ckernel_builder)
    (requested_capacity : Int) : c_outcome :=
  if ckb_ptr.m_capacity < requested_capacity then
    let grown_capacity := (ckb_ptr.m_capacity * 3).tdiv 2
    let requested_capacity :=
      if requested_capacity < grown_capacity then grown_capacity else requested_capacity
    let new_data : Option (List byte) :=
      if ckb_ptr.using_static_data then
        match ckernel_builder.alloc a requested_capacity.toNat with
        | some new_data =>
          some (ckernel_builder.copy new_data ckb_ptr.buffer ckb_ptr.m_capacity.toNat)
        | none => none
      else
        ckernel_builder.std_realloc a ckb_ptr.buffer requested_capacity.toNat
    match new_data with
    | none =>
      { ckb := { ckb_ptr with m_data := data_ptr.null }
        effects := ckb_ptr.destroy
        returned := -1 }
    | some new_data =>
      { ckb := { ckb_ptr with
          m_data := data_ptr.heap
            (ckernel_builder.set new_data ckb_ptr.m_capacity.toNat 0
              (requested_capacity - ckb_ptr.m_capacity).toNat)
          m_capacity := requested_capacity }
        effects := []
        returned := 0 }
  else
    { ckb := ckb_ptr, effects := [], returned := 0 }

/-- Embedding of the C API function
`ckernel_builder_ensure_capacity(ckb, requested_capacity)`, lines 517-522;
`sizeof_ckernel_pfx` is `sizeof(ckernel_prefix)` and `bits` the width of
`size_t` and `intptr_t`: the sum is of type `size_t` and is converted to
the `intptr_t` parameter of the leaf function. -/
def ckernel_builder_ensure_capacity (bits sizeof_ckernel_pfx : Nat) (a : alloc_outcome)
    (ckb : ckernel_builder) (requested_capacity : Int) : c_outcome :=
  ckernel_builder_ensure_capacity_leaf a ckb
    (size_t_to_intptr bits (size_t_add bits requested_capacity sizeof_ckernel_pfx))

/-! ## type_registry.cpp: the ancestor lists -/

/-- The order of the ancestor lists of a table: the list of every entry `n`
is strictly decreasing, each of its members is smaller than `n`, and it
contains the list of each of its members. -/
def ancestors_ordered (infos : List id_info) : Prop :=
  ∀ (n : Nat) (info : id_info), infos[n]? = some info →
    info.base_ids.Pairwise (fun a b => b < a) ∧
    ∀ a, a ∈ info.base_ids →
      a < n ∧ ∀ info_a : id_info, infos[a]? = some info_a →
        ∀ x, x ∈ info_a.base_ids → x ∈ info.base_ids

/-! ## dtypes/pointer_dtype.cpp: metadata_destruct, metadata size, data-level indexing -/

/-- Modelled from the spec: `memory_block_decref(mbd)`
(memblock/memory_block.hpp is not among the sources), the "reference-count
decrement" of the block at `mbd`; it has no defined result, `none`, when no
block is stored there. What happens to a block whose count reaches zero is
not modelled: the block stays, with the count 0. -/
def memory_block_decref (mem : metadata_memory) (mbd : Int) : Option metadata_memory :=
  match mem.blocks mbd with
  | none => none
  | some b =>
    some { mem with
      blocks := fun a =>
        if a = mbd then some { b with m_use_count := b.m_use_count - 1 } else mem.blocks a }

namespace pointer_dtype

/-- Embedding of `pointer_dtype::metadata_destruct(metadata)`,
dtypes/pointer_dtype.cpp lines 362-368. -/
def metadata_destruct (mem : metadata_memory) (metadata : Int) : Option metadata_memory :=
  match mem.records metadata with
  | none => none
  | some md =>
    if md.blockref ≠ 0 then memory_block_decref mem md.blockref
    else some mem

end pointer_dtype

namespace dtype

/-- Modelled from the spec: `dtype::is_builtin()` (dtype.hpp is not among the
sources): whether the dtype is one of the "built-in scalar kinds", which are
"identified purely by `id`". -/
def is_builtin : dtype → Bool
  | builtin _ => true
  | pointer _ _ => false
  | extended _ _ => false

/-- Embedding of `pointer_dtype::get_metadata_size()`, dtypes/pointer_dtype.cpp
lines 313-317, in the `pointer` case; `extended_metadata_size` is
`get_metadata_size()` of an object of another class, and a builtin dtype has
no metadata. `sizeof_metadata` is `sizeof(pointer_dtype_metadata)`. -/
def get_metadata_size (sizeof_metadata : Nat) (extended_metadata_size : base_dtype → Nat → Nat) :
    dtype → Nat
  | builtin _ => 0
  | extended base payload => extended_metadata_size base payload
  | pointer _ m_target_dtype =>
    sizeof_metadata +
      (if m_target_dtype.is_builtin then 0
        else get_metadata_size sizeof_metadata extended_metadata_size m_target_dtype)

end dtype

/-- What the data-level `apply_linear_index` leaves: the memory, the returned
offset, and the values of `*inout_data` and `*inout_dataref`, `none` where the
pointer passed is `NULL`. -/
structure index_data_result where
  mem : metadata_memory
  returned : Int
  inout_data : Option Int
  inout_dataref : Option Int

namespace dtype

/-- Embedding of the data-level `pointer_dtype::apply_linear_index`,
dtypes/pointer_dtype.cpp lines 124-167, in the `pointer` case. The calls
`m_target_dtype.extended()->apply_linear_index(...)` are the recursion:
`extended_apply` for an object of another class; a builtin target is never
called, by the tests of `is_builtin()`. `pointer_at d` is the `char *` stored
in the data at the address `d`, `sizeof_metadata` is
`sizeof(pointer_dtype_metadata)`. A read or write through `NULL`, and the
`static_cast` of a `result_dtype` that is not a pointer dtype, have no defined
result. -/
def apply_linear_index_data (sizeof_metadata : Int) (pointer_at : Int → Option Int)
    (extended_apply :
      base_dtype → Nat → metadata_memory → Int → List irange → Int → dtype → Int → Int →
        Int → dtype → Bool → Option Int → Option Int → Option index_data_result) :
    dtype → metadata_memory → Int → List irange → Int → dtype → Int → Int → Int → dtype →
      Bool → Option Int → Option Int → Option index_data_result
  | builtin _, mem, _, _, _, _, _, _, _, _, _, inout_data, inout_dataref =>
    some { mem := mem, returned := 0, inout_data := inout_data,
           inout_dataref := inout_dataref }
  | extended base payload, mem, nindices, indices, metadata, result_dtype, out_metadata,
      embedded_reference, current_i, root_dt, leading_dimension, inout_data,
      inout_dataref =>
    extended_apply base payload mem nindices indices metadata result_dtype out_metadata
      embedded_reference current_i root_dt leading_dimension inout_data inout_dataref
  | pointer _ m_target_dtype, mem, nindices, indices, metadata, result_dtype, out_metadata,
      embedded_reference, current_i, root_dt, leading_dimension, inout_data,
      inout_dataref =>
    if leading_dimension then
      match mem.records metadata, inout_data, inout_dataref with
      | some md, some data, some dataref =>
        match pointer_at data with
        | none => none
        | some target_data =>
          match (if dataref ≠ 0 then memory_block_decref mem dataref else some mem) with
          | none => none
          | some mem1 =>
            match memory_block_incref mem1
                (if md.blockref ≠ 0 then md.blockref else embedded_reference) with
            | none => none
            | some mem2 =>
              if m_target_dtype.is_builtin then
                some { mem := mem2, returned := 0
                       inout_data := some (target_data + md.offset)
                       inout_dataref :=
                         some (if md.blockref ≠ 0 then md.blockref else embedded_reference) }
              else
                apply_linear_index_data sizeof_metadata pointer_at extended_apply
                  m_target_dtype mem2 nindices indices (metadata + sizeof_metadata)
                  result_dtype out_metadata embedded_reference current_i root_dt true
                  (some (target_data + md.offset))
                  (some (if md.blockref ≠ 0 then md.blockref else embedded_reference))
      | _, _, _ => none
    else
      match mem.records metadata with
      | none => none
      | some md =>
        match mem.set_blockref out_metadata md.blockref with
        | none => none
        | some mem1 =>
          match mem1.records out_metadata with
          | none => none
          | some out_md =>
            match memory_block_incref mem1 out_md.blockref with
            | none => none
            | some mem2 =>
              match mem2.records metadata with
              | none => none
              | some md2 =>
                match mem2.set_offset out_metadata md2.offset with
                | none => none
                | some mem3 =>
                  if m_target_dtype.is_builtin then
                    some { mem := mem3, returned := 0, inout_data := inout_data,
                           inout_dataref := inout_dataref }
                  else
                    match result_dtype with
                    | pointer _ pdt_target_dtype =>
                      match apply_linear_index_data sizeof_metadata pointer_at
                          extended_apply m_target_dtype mem3 nindices indices
                          (metadata + sizeof_metadata) pdt_target_dtype
                          (out_metadata + sizeof_metadata) embedded_reference current_i
                          root_dt false none none with
                      | none => none
                      | some r =>
                        match r.mem.records out_metadata with
                        | none => none
                        | some out_md2 =>
                          match r.mem.set_offset out_metadata
                              (out_md2.offset + r.returned) with
                          | none => none
                          | some mem4 =>
                            some { mem := mem4, returned := 0, inout_data := inout_data,
                                   inout_dataref := inout_dataref }
                    | _ => none

end dtype

/-- A sample memory for nested pointers: POD blocks at 8192 and 8208, both
with use count 1; the records of a `pointer<pointer<int32>>` at 4096 and 4112,
which refer to the two blocks; and storage for two records at 4128 and
4144. -/
def nested_metadata_memory : metadata_memory :=
  { blocks := fun a =>
      if a = 8192 then some ⟨1, memory_block_type_t.pod_memory_block_type⟩
      else if a = 8208 then some ⟨1, memory_block_type_t.pod_memory_block_type⟩
      else none
    records := fun a =>
      if a = 4096 then some ⟨8192, 24⟩
      else if a = 4112 then some ⟨8208, 0⟩
      else if a = 4128 then some ⟨0, 0⟩
      else if a = 4144 then some ⟨0, 0⟩
      else none }

/-- The memory after the non-leading data-level pass has copied the pointer
record `md` to the record at `out_metadata` and taken a reference on its block
`b`: the state that lines 150-155 of dtypes/pointer_dtype.cpp leave. -/
def metadata_memory.with_copy (mem : metadata_memory) (out_metadata : Int)
    (md : pointer_dtype_metadata) (b : memory_block_data) : metadata_memory :=
  { blocks := fun a =>
      if a = md.blockref then some { b with m_use_count := b.m_use_count + 1 }
      else mem.blocks a
    records := fun a =>
      if a = out_metadata then some ⟨md.blockref, md.offset⟩ else mem.records a }

/-- The addresses of the pointer records in the metadata of a dtype whose
metadata starts at `metadata`: one record for each leading pointer, each
`sizeof(pointer_dtype_metadata)` after the one before. -/
def dtype.record_addresses (sizeof_metadata : Int) : dtype → Int → List Int
  | dtype.builtin _, _ => []
  | dtype.extended _ _, _ => []
  | dtype.pointer _ m_target_dtype, metadata =>
    metadata :: dtype.record_addresses sizeof_metadata m_target_dtype
      (metadata + sizeof_metadata)

/-- No record outside the `size` bytes that start at `out_metadata` differs
between the memory `mem` before a pass and the memory `res` after it. -/
def metadata_memory.same_outside (mem res : metadata_memory) (out_metadata : Int)
    (size : Nat) : Prop :=
  ∀ a : Int, a < out_metadata ∨ out_metadata + (size : Int) ≤ a →
    res.records a = mem.records a

/-- The dtypes `rt` that the data-level pass of a dtype `d` off a leading
dimension is handed as `result_dtype` by the pass of a pointer dtype over
`d`, lines 104-121 and 156-162 of dtypes/pointer_dtype.cpp: `d` itself for no
indices; for some indices the indexed type `dt` of `d`, or `d` itself when
`dt == d`. -/
def dtype.admissible_result (builtin_kinds : type_id_t → dtype_kind_t)
    (sizeof_void_ptr : Nat) (same_object : dtype → dtype → Bool)
    (extended_eq : base_dtype → Nat → dtype → Bool)
    (leaf_apply_linear_index :
      dtype → Int → List irange → Int → dtype → Bool → Except index_exception dtype)
    (nindices : Int) (indices : List irange) (current_i : Int) (root_dt : dtype)
    (d rt : dtype) : Prop :=
  if nindices = 0 then rt = d
  else
    ∃ dt, dtype.apply_linear_index builtin_kinds sizeof_void_ptr same_object extended_eq
        leaf_apply_linear_index d nindices indices current_i root_dt false = Except.ok dt ∧
      (rt = dt ∨ (rt = d ∧ dtype.eq same_object extended_eq dt d = true))

/-- The base members of a sample dtype of another class, an array of `int32`
elements with one dimension. -/
def sample_array_base : base_dtype :=
  { m_type_id := type_id_t.other_type_id 0, m_kind := dtype_kind_t.composite_kind,
    m_data_size := 0, m_alignment := 4, m_undim := 1 }

/-- A sample of the indexing of the dtypes that are not pointers: an array
indexed with one index gives its element type `int32`; any dtype indexed with
no indices is returned as it is; more indices are an error. -/
def sample_array_apply_linear_index :
    dtype → Int → List irange → Int → dtype → Bool → Except index_exception dtype :=
  fun d nindices _ _ _ _ =>
    if nindices = 0 then Except.ok d
    else
      match d with
      | dtype.extended _ _ =>
        if nindices = 1 then Except.ok (dtype.builtin type_id_t.int32_type_id)
        else Except.error (index_exception.other 0)
      | _ => Except.error (index_exception.other 0)

/-- A sample of the data-level pass of the array class: it writes no output
metadata and returns the offset of the element, 8 bytes into the data. -/
def sample_array_apply :
    base_dtype → Nat → metadata_memory → Int → List irange → Int → dtype → Int → Int →
      Int → dtype → Bool → Option Int → Option Int → Option index_data_result :=
  fun _ _ mem nindices _ _ _ _ _ _ _ _ inout_data inout_dataref =>
    some { mem := mem, returned := if nindices = 0 then 0 else 8, inout_data := inout_data,
           inout_dataref := inout_dataref }

/-! ## callables/elwise_entry_callable.hpp -/

namespace nd

/-- What `elwise_entry_callable::resolve` reads from a `base_callable`:
`get_argument_types()`, as the array of the argument types. -/
structure base_callable where
  get_argument_types : Nat → ndt.type

namespace functional

/-- The aggregate `elwise_dispatch_callable<0>::data_type` as
`elwise_entry_callable::resolve` initializes it, line 34, from
`{child, m_res_ignore, m_state, 0, true}`; the source names the members
`child` and `ndim`, a `size_t`. -/
structure data_type where
  child : base_callable
  res_ignore : Bool
  state : Bool
  ndim : Nat
  first : Bool

/-- The node that `resolve` appends to the call graph, lines 44-53: the
closure that sets up the index state, with its capture `ndim`. -/
structure index_state_node where
  ndim : Nat
deriving DecidableEq, Repr

/-- The members of `elwise_entry_callable`, lines 21-23; `m_child` is `none`
for an empty `callable`. -/
structure elwise_entry_callable where
  m_child : Option base_callable
  m_res_ignore : Bool
  m_state : Bool

/-- What `resolve` has built when it makes its final call
`table[nsrc]->resolve(this, &data, cg, ...)`, line 61: the `data`, the call
graph, and the index into `table`. -/
structure resolve_call where
  data : data_type
  cg : List index_state_node
  table_index : Nat

/-- The loop of `elwise_entry_callable::resolve`, lines 37-42, from the source
`i` on with `remaining = nsrc - i` sources left; the result is `data.ndim`.
The difference of the two `get_ndim()` values is stored in a `size_t` of
`size_bits` bits. -/
def elwise_entry_callable.resolve_loop (size_bits : Nat) (src_tp : Nat → ndt.type)
    (child : base_callable) : Nat → Nat → Nat → Nat
  | 0, _, data_ndim => data_ndim
  | remaining + 1, i, data_ndim =>
    let ndim : Nat :=
      ((((src_tp i).get_ndim : Int) - ((child.get_argument_types i).get_ndim : Int)) %
        2 ^ size_bits).toNat
    elwise_entry_callable.resolve_loop size_bits src_tp child remaining (i + 1)
      (if ndim > data_ndim then ndim else data_ndim)

/-- Embedding of `elwise_entry_callable::resolve`, lines 31-63, up to its final
call: `none` when `nsrc` is not an index of the eight-element `table`.
`cg` is the call graph on entry. -/
def elwise_entry_callable.resolve (size_bits : Nat) (self : elwise_entry_callable)
    (caller : base_callable) (cg : List index_state_node) (nsrc : Nat)
    (src_tp : Nat → ndt.type) : Option resolve_call :=
  let child : base_callable :=
    match self.m_child with
    | some c => c
    | none => caller
  let data : data_type :=
    { child := child, res_ignore := self.m_res_ignore, state := self.m_state, ndim := 0,
      first := true }
  let data : data_type :=
    if self.m_state then
      { data with
        ndim := elwise_entry_callable.resolve_loop size_bits src_tp data.child nsrc 0
          data.ndim }
    else data
  let cg : List index_state_node :=
    if self.m_state then cg ++ [{ ndim := data.ndim }] else cg
  if nsrc < 8 then some { data := data, cg := cg, table_index := nsrc } else none

end functional

end nd

/-- A callable that takes one argument of one dimension. -/
def sample_child_one_dim : nd.base_callable :=
  { get_argument_types := fun _ => { get_id := 3, get_ndim := 1 } }

/-! ## types/tuple_type.cpp: is_lossless_assignment -/

namespace types

/-- The comparison `tp.extended() == this` of `tuple_type::is_lossless_assignment`:
whether the type `tp` refers to the object `self`. A builtin type refers to no
object; for the others `same_object` is the address comparison. -/
def extended_is (same_object : type → type → Bool) (tp self : type) : Bool :=
  match tp with
  | type.builtin _ => false
  | type.tuple data_alignment m_field_types =>
    same_object (type.tuple data_alignment m_field_types) self
  | type.other type_id payload => same_object (type.other type_id payload) self

namespace tuple_type

/-- Embedding of `tuple_type::is_lossless_assignment(dst_tp, src_tp)`,
types/tuple_type.cpp lines 71-82, on the tuple type object with the members
`data_alignment` and `m_field_types`. The comparison
`*dst_tp.extended() == *src_tp.extended()` is the virtual `operator==` of the
object of `dst_tp`, which `type.eq` calls for two types that are not
builtin. -/
def is_lossless_assignment (same_object : type → type → Bool)
    (other_eq : type_id_t → Nat → type → Bool) (data_alignment : Nat)
    (m_field_types : List type) (dst_tp src_tp : type) : Bool :=
  if extended_is same_object dst_tp (type.tuple data_alignment m_field_types) then
    if extended_is same_object src_tp (type.tuple data_alignment m_field_types) then
      true
    else if src_tp.get_type_id = type_id_t.tuple_type_id then
      type.eq same_object other_eq dst_tp src_tp
    else
      false
  else
    false

end tuple_type

end types

/-- A sample of the address comparison of two type objects: there is one
object, the empty tuple type of alignment 1, and every reference to that shape
refers to it. -/
def sample_same_unit_tuple : types.type → types.type → Bool :=
  fun a b =>
    match a, b with
    | types.type.tuple 1 [], types.type.tuple 1 [] => true
    | _, _ => false
/-! ## Theorems -/

/-! ### apply_single_index -/

/-- C1: for a dimension size `N >= 0` and an index `i` with `-N <= i < N`,
`apply_single_index(i, N, error_dt)` returns `i` when `i >= 0` and `i + N`
when `i < 0`; the returned value lies in `[0, N)` and is congruent to `i`
modulo `N`. -/
theorem apply_single_index_normalizes (i N : Int) (error_dt : Option error_dtype)
    (hN : 0 ≤ N) (hlo : -N ≤ i) (hhi : i < N) :
    apply_single_index i N error_dt = Except.ok (if i ≥ 0 then i else i + N) ∧
    ∃ r, apply_single_index i N error_dt = Except.ok r ∧
      0 ≤ r ∧ r < N ∧ r ≡ i [ZMOD N] := by
  have _ := hN
  by_cases hi : i ≥ 0
  · have h : apply_single_index i N error_dt = Except.ok i := by
      simp [apply_single_index, hi, hhi]
    refine ⟨by simp [h, hi], i, h, hi, hhi, Int.ModEq.refl i⟩
  · have h : apply_single_index i N error_dt = Except.ok (i + N) := by
      have h2 : i ≥ -N := hlo
      simp only [apply_single_index, if_neg hi, if_pos h2]
    refine ⟨by simp [h, hi], i + N, h, by omega, by omega, ?_⟩
    simp [Int.ModEq]

/-- Witness of C1 at `i = -2`, `N = 5` without an error dtype: the result is 3. -/
theorem apply_single_index_normalizes_witness :
    (0 : Int) ≤ 5 ∧ -(5 : Int) ≤ -2 ∧ (-2 : Int) < 5 ∧
    apply_single_index (-2) 5 none = Except.ok 3 :=
  ⟨by decide, by decide, by decide,
    (apply_single_index_normalizes (-2) 5 none (by decide) (by decide) (by decide)).1⟩

/-- C2: `apply_single_index(i, N, error_dt)` raises `index_out_of_bounds` if
and only if `i < -N` or `i >= N`, with or without an error dtype; `i = N` is
rejected, and for `N = 0` every index is rejected. -/
theorem apply_single_index_raises_iff (i N : Int) (error_dt : Option error_dtype) :
    (raises (apply_single_index i N error_dt) = true ↔ (i < -N ∨ i ≥ N)) ∧
    raises (apply_single_index N N error_dt) = true ∧
    raises (apply_single_index i 0 error_dt) = true := by
  refine ⟨?_, ?_, ?_⟩
  · unfold apply_single_index
    by_cases h1 : i ≥ 0
    · by_cases h2 : i < N
      · simp only [if_pos h1, if_pos h2, raises]; constructor
        · intro h; cases h
        · intro h; omega
      · simp only [if_pos h1, if_neg h2, raises]; constructor
        · intro _; omega
        · intro _; trivial
    · by_cases h3 : i ≥ -N
      · simp only [if_neg h1, if_pos h3, raises]; constructor
        · intro h; cases h
        · intro h; omega
      · simp only [if_neg h1, if_neg h3, raises]; constructor
        · intro _; omega
        · intro _; trivial
  · unfold apply_single_index
    by_cases h1 : N ≥ 0
    · simp [h1, raises]
    · have h3 : ¬ (N ≥ -N) := by omega
      simp only [if_neg h1, if_neg h3, raises]
  · unfold apply_single_index
    by_cases h1 : i ≥ 0
    · have h2 : ¬ (i < 0) := by omega
      simp only [if_pos h1, if_neg h2, raises]
    · have h3 : ¬ (i ≥ -0) := by omega
      simp only [if_neg h1, if_neg h3, raises]

/-! ### Growth of the buffer -/

namespace ckernel_builder

/-- The C++ quotient `m_capacity * 3 / 2` against floor division. -/
theorem tdiv_three_halves (c : Int) :
    (0 ≤ c → (c * 3).tdiv 2 = c * 3 / 2) ∧ (c < 0 → (c * 3).tdiv 2 = -((-(c * 3)) / 2)) := by
  constructor
  · intro h
    exact Int.tdiv_eq_ediv (by omega) (by omega)
  · intro h
    have h1 : (c * 3).tdiv 2 = -((-(c * 3)).tdiv 2) := by
      rw [Int.neg_tdiv, neg_neg]
    rw [h1, Int.tdiv_eq_ediv (by omega) (by omega)]

/-- The capacity `ensure_capacity_leaf` asks the allocator for. -/
theorem grown_request_eq (c r : Int) (h : c < r) :
    (if r < (c * 3).tdiv 2 then (c * 3).tdiv 2 else r) = max r (c * 3 / 2) := by
  rcases le_or_lt 0 c with hc | hc
  · rw [(tdiv_three_halves c).1 hc]
    split <;> omega
  · rw [(tdiv_three_halves c).2 hc]
    split <;> omega

theorem ensure_capacity_leaf_enough (a : alloc_outcome) (self : ckernel_builder) (r : Int)
    (h : r ≤ self.m_capacity) :
    ensure_capacity_leaf a self r = { ckb := self, effects := [], thrown := none } := by
  unfold ensure_capacity_leaf
  rw [if_neg (by omega)]

theorem realloc_fails (a : alloc_outcome) (self : ckernel_builder) (o n : Nat)
    (h : a.succeeds = false) : realloc a self o n = none := by
  unfold realloc alloc std_realloc
  simp [h]

theorem ensure_capacity_leaf_fails (a : alloc_outcome) (self : ckernel_builder) (r : Int)
    (hlt : self.m_capacity < r) (h : a.succeeds = false) :
    ensure_capacity_leaf a self r =
      { ckb := { self with m_data := data_ptr.null }
        effects := destroy self
        thrown := some exn.bad_alloc } := by
  unfold ensure_capacity_leaf
  rw [if_pos hlt]
  simp only [realloc_fails a self _ _ h]

end ckernel_builder

namespace ckernel_builder

/-- A successful `realloc` returns a block of the new size that starts with
the old bytes. -/
theorem realloc_succeeds (a : alloc_outcome) (self : ckernel_builder) (n : Nat)
    (hs : a.succeeds = true) (hwf : self.wf) (hn : self.m_capacity.toNat ≤ n) :
    ∃ X, realloc a self self.m_capacity.toNat n = some X ∧ X.length = n ∧
      (self.m_data ≠ data_ptr.null →
        X.take self.m_capacity.toNat = self.buffer.take self.m_capacity.toNat) := by
  obtain ⟨hlen, hc0, hfit⟩ := hwf
  cases hd : self.m_data with
  | null =>
    refine ⟨(List.range n).map (fun i => a.garbage (0 + i)), ?_, ?_, ?_⟩
    · simp [realloc, using_static_data, hd, std_realloc, hs, buffer]
    · simp
    · intro h; exact absurd rfl h
  | static_data =>
    have hcap : self.m_capacity.toNat ≤ self.m_static_data.length := by
      rw [hd] at hfit
      simp only [data_ptr.fits] at hfit
      rw [hlen]; omega
    refine ⟨copy ((List.range n).map a.garbage) self.m_static_data self.m_capacity.toNat,
      ?_, ?_, ?_⟩
    · simp [realloc, using_static_data, hd, alloc, hs, buffer]
    · simp only [copy, List.length_append, List.length_take, List.length_drop,
        List.length_map, List.length_range]
      omega
    · intro _
      simp only [copy]
      rw [List.take_append_of_le_length (by simp; omega)]
      simp [buffer, hd, List.take_take]
  | heap block =>
    have hcap : block.length = self.m_capacity.toNat := by
      rw [hd] at hfit
      simp only [data_ptr.fits] at hfit
      omega
    refine ⟨block.take n ++
      (List.range (n - block.length)).map (fun i => a.garbage (block.length + i)), ?_, ?_, ?_⟩
    · simp [realloc, using_static_data, hd, std_realloc, hs, buffer]
    · simp only [List.length_append, List.length_take, List.length_map, List.length_range]
      omega
    · intro _
      rw [List.take_append_of_le_length (by simp; omega)]
      simp [buffer, hd, List.take_take, hn]

/-- A successful growth: the new block is `m_capacity` bytes followed by
zeros up to the new capacity `max r (m_capacity * 3 / 2)`; for a live
builder these first bytes are the old ones. -/
theorem ensure_capacity_leaf_grows (a : alloc_outcome) (self : ckernel_builder) (r : Int)
    (hwf : self.wf) (hlt : self.m_capacity < r) (hs : a.succeeds = true) :
    ∃ pre : List byte, pre.length = self.m_capacity.toNat ∧
      (self.m_data ≠ data_ptr.null → pre = self.buffer.take self.m_capacity.toNat) ∧
      ensure_capacity_leaf a self r =
        { ckb := { self with
            m_data := data_ptr.heap (pre ++ List.replicate
              (max r (self.m_capacity * 3 / 2) - self.m_capacity).toNat 0)
            m_capacity := max r (self.m_capacity * 3 / 2) }
          effects := []
          thrown := none } := by
  have hc0 : 0 ≤ self.m_capacity := hwf.2.1
  have hn : self.m_capacity.toNat ≤ (max r (self.m_capacity * 3 / 2)).toNat := by omega
  obtain ⟨X, hX, hXlen, hXpre⟩ := realloc_succeeds a self _ hs hwf hn
  refine ⟨X.take self.m_capacity.toNat, ?_, ?_, ?_⟩
  · simp only [List.length_take]; omega
  · intro h; exact hXpre h
  · unfold ensure_capacity_leaf
    rw [if_pos hlt]
    simp only [grown_request_eq _ _ hlt, hX, set]
    have hdrop : X.drop (self.m_capacity.toNat +
        (max r (self.m_capacity * 3 / 2) - self.m_capacity).toNat) = [] := by
      apply List.drop_eq_nil_of_le
      omega
    rw [hdrop, List.append_nil]

end ckernel_builder

namespace ckernel_builder

/-- A successful allocation makes `realloc` return a block. -/
theorem realloc_some (a : alloc_outcome) (self : ckernel_builder) (o n : Nat)
    (hs : a.succeeds = true) : ∃ X, realloc a self o n = some X := by
  unfold realloc alloc std_realloc
  by_cases h : self.using_static_data = true
  · simp [h, hs]
  · simp [h, hs]

/-- The capacity after `ensure_capacity_leaf`, without any assumption on the
builder. -/
theorem ensure_capacity_leaf_m_capacity (a : alloc_outcome) (self : ckernel_builder)
    (r : Int) :
    (ensure_capacity_leaf a self r).ckb.m_capacity =
      if self.m_capacity < r ∧ a.succeeds = true then max r (self.m_capacity * 3 / 2)
      else self.m_capacity := by
  by_cases hlt : self.m_capacity < r
  · cases hs : a.succeeds with
    | false =>
      rw [ensure_capacity_leaf_fails a self r hlt hs]
      simp
    | true =>
      obtain ⟨X, hX⟩ := realloc_some a self self.m_capacity.toNat
        (max r (self.m_capacity * 3 / 2)).toNat hs
      unfold ensure_capacity_leaf
      rw [if_pos hlt]
      simp only [grown_request_eq _ _ hlt, hX]
      simp [hlt]
  · rw [ensure_capacity_leaf_enough a self r (by omega)]
    simp [hlt]

/-- The exception state after `ensure_capacity_leaf`. -/
theorem ensure_capacity_leaf_thrown (a : alloc_outcome) (self : ckernel_builder)
    (r : Int) :
    (ensure_capacity_leaf a self r).thrown =
      if self.m_capacity < r ∧ a.succeeds = false then some exn.bad_alloc else none := by
  by_cases hlt : self.m_capacity < r
  · cases hs : a.succeeds with
    | false =>
      rw [ensure_capacity_leaf_fails a self r hlt hs]
      simp [hlt]
    | true =>
      obtain ⟨X, hX⟩ := realloc_some a self self.m_capacity.toNat
        (max r (self.m_capacity * 3 / 2)).toNat hs
      unfold ensure_capacity_leaf
      rw [if_pos hlt]
      simp only [grown_request_eq _ _ hlt, hX]
      simp
  · rw [ensure_capacity_leaf_enough a self r (by omega)]
    simp [hlt]

/-- No call of `ensure_capacity_leaf` lowers the capacity. -/
theorem ensure_capacity_leaf_mono (a : alloc_outcome) (self : ckernel_builder) (r : Int) :
    self.m_capacity ≤ (ensure_capacity_leaf a self r).ckb.m_capacity := by
  rw [ensure_capacity_leaf_m_capacity]
  split
  · omega
  · exact le_refl _

theorem write_m_capacity (self : ckernel_builder) (off : Nat) (bytes : List byte) :
    (write self off bytes).m_capacity = self.m_capacity := by
  unfold write
  cases self.m_data <;> rfl

end ckernel_builder

/-- A call other than `reset()` does not lower the capacity. -/
theorem step_capacity_mono (bits p : Nat) (t : tracked) (o : op) (h : o ≠ op.reset) :
    t.ckb.m_capacity ≤ (step bits p t o).ckb.m_capacity := by
  cases o with
  | ensure_capacity a n => exact ckernel_builder.ensure_capacity_leaf_mono a t.ckb _
  | ensure_capacity_leaf a n => exact ckernel_builder.ensure_capacity_leaf_mono a t.ckb _
  | alloc_ck a sz off => exact ckernel_builder.ensure_capacity_leaf_mono a t.ckb _
  | alloc_ck_leaf a sz off => exact ckernel_builder.ensure_capacity_leaf_mono a t.ckb _
  | client_write off bytes =>
    simp only [step]
    rw [ckernel_builder.write_m_capacity]
  | reset => exact absurd rfl h

/-- A sequence of calls without `reset()` does not lower the capacity. -/
theorem run_ops_capacity_mono (bits p : Nat) (ops : List op) :
    ∀ t : tracked, op.reset ∉ ops →
      t.ckb.m_capacity ≤ (run_ops bits p ops t).ckb.m_capacity := by
  induction ops with
  | nil => intro t _; exact le_refl _
  | cons o os ih =>
    intro t h
    have ho : o ≠ op.reset := fun e => h (by simp [e])
    have hos : op.reset ∉ os := fun e => h (by simp [e])
    have h1 := step_capacity_mono bits p t o ho
    simp only [run_ops]
    cases hth : (step bits p t o).thrown with
    | some e => simpa using h1
    | none => exact le_trans h1 (ih _ hos)

/-- C3: `ensure_capacity_leaf(r)` on a builder of capacity `c`. If `c >= r`
the builder is left as it is. Otherwise, when the allocation succeeds, the
new capacity is exactly `max(r, floor(3*c/2))`, which is at least `r`. No
call lowers the capacity, and over any sequence of `ensure_capacity_leaf`
calls on a constructed builder the capacity never decreases and never falls
below the 128 bytes of the inline array. -/
theorem ensure_capacity_leaf_capacity (a : alloc_outcome) (self : ckernel_builder)
    (r : Int) :
    (r ≤ self.m_capacity →
      ckernel_builder.ensure_capacity_leaf a self r =
        { ckb := self, effects := [], thrown := none }) ∧
    (self.m_capacity < r → a.succeeds = true →
      (ckernel_builder.ensure_capacity_leaf a self r).thrown = none ∧
      (ckernel_builder.ensure_capacity_leaf a self r).ckb.m_capacity =
        max r (self.m_capacity * 3 / 2) ∧
      r ≤ (ckernel_builder.ensure_capacity_leaf a self r).ckb.m_capacity) ∧
    self.m_capacity ≤ (ckernel_builder.ensure_capacity_leaf a self r).ckb.m_capacity ∧
    (∀ (bits p : Nat) (calls : List (alloc_outcome × Int)) (t : tracked),
      t.ckb.m_capacity ≤
        (run_ops bits p
          (calls.map (fun c => op.ensure_capacity_leaf c.1 c.2)) t).ckb.m_capacity) ∧
    (∀ (bits p : Nat) (calls : List (alloc_outcome × Int)) (raw : List byte),
      (128 : Int) ≤
        (run_ops bits p (calls.map (fun c => op.ensure_capacity_leaf c.1 c.2))
          (tracked.construct raw)).ckb.m_capacity) := by
  have hseq : ∀ (bits p : Nat) (calls : List (alloc_outcome × Int)) (t : tracked),
      t.ckb.m_capacity ≤
        (run_ops bits p
          (calls.map (fun c => op.ensure_capacity_leaf c.1 c.2)) t).ckb.m_capacity := by
    intro bits p calls t
    apply run_ops_capacity_mono
    simp
  refine ⟨ckernel_builder.ensure_capacity_leaf_enough a self r, ?_,
    ckernel_builder.ensure_capacity_leaf_mono a self r, hseq, ?_⟩
  · intro hlt hs
    rw [ckernel_builder.ensure_capacity_leaf_thrown,
      ckernel_builder.ensure_capacity_leaf_m_capacity]
    simp only [hlt, hs, true_and, if_true]
    exact ⟨by simp, le_max_left _ _⟩
  · intro bits p calls raw
    exact le_trans (by simp [tracked.construct, ckernel_builder.construct,
      ckernel_builder.init, sizeof_m_static_data]) (hseq bits p calls (tracked.construct raw))

/-- Witness of C3: a fresh builder (capacity 128) asked for 130 bytes grows by
the factor 3/2 to capacity `max 130 192 = 192`. -/
theorem ensure_capacity_leaf_capacity_witness :
    (ckernel_builder.construct []).m_capacity < 130 ∧
    (ckernel_builder.ensure_capacity_leaf ⟨true, fun _ => 255⟩
      (ckernel_builder.construct []) 130).ckb.m_capacity = 192 :=
  ⟨by decide,
    ((ensure_capacity_leaf_capacity ⟨true, fun _ => 255⟩
      (ckernel_builder.construct []) 130).2.1 (by decide) rfl).2.1.trans (by decide)⟩

namespace ckernel_builder

/-- A store changes no length. -/
theorem store_length (bytes : List byte) :
    ∀ (buf : List byte) (off : Nat), (store buf off bytes).length = buf.length := by
  induction bytes with
  | nil => intro buf off; rfl
  | cons b bs ih =>
    intro buf off
    simp only [store]
    rw [ih, List.length_set]

/-- A store leaves the bytes outside `[off, off + bytes.length)` alone. -/
theorem store_getElem?_outside (bytes : List byte) :
    ∀ (buf : List byte) (off i : Nat), (i < off ∨ off + bytes.length ≤ i) →
      (store buf off bytes)[i]? = buf[i]? := by
  induction bytes with
  | nil => intro buf off i _; rfl
  | cons b bs ih =>
    intro buf off i h
    simp only [store]
    have h2 : i < off + 1 ∨ off + 1 + bs.length ≤ i := by
      simp only [List.length_cons] at h
      omega
    rw [ih _ _ _ h2]
    have hne : off ≠ i := by
      simp only [List.length_cons] at h
      omega
    exact List.getElem?_set_ne hne

/-- The buffer after a client write. -/
theorem write_buffer (self : ckernel_builder) (off : Nat) (bytes : List byte)
    (h : self.m_data ≠ data_ptr.null) :
    (write self off bytes).buffer = store self.buffer off bytes := by
  unfold write buffer
  cases hd : self.m_data with
  | null => exact absurd hd h
  | static_data => rfl
  | heap block => rfl

/-- The whole-array `memset` of `init()`. -/
theorem set_whole (buf : List byte) (v : byte) (n : Nat) (h : buf.length = n) :
    set buf 0 v n = List.replicate n v := by
  unfold set
  rw [List.drop_eq_nil_of_le (by omega)]
  simp

/-- The builder `init()` leaves, given an inline array of the declared size. -/
theorem init_eq (self : ckernel_builder)
    (h : self.m_static_data.length = sizeof_m_static_data) :
    init self =
      { m_data := data_ptr.static_data
        m_capacity := sizeof_m_static_data
        m_static_data := List.replicate sizeof_m_static_data 0 } := by
  unfold init
  rw [set_whole _ _ _ h]

end ckernel_builder

/-- The invariant holds right after `init()`. -/
theorem zero_inv_init (self : ckernel_builder)
    (h : self.m_static_data.length = sizeof_m_static_data) :
    tracked.zero_inv { ckb := ckernel_builder.init self, written := [], thrown := none } := by
  rw [ckernel_builder.init_eq self h]
  refine ⟨rfl, ⟨by simp, by simp [sizeof_m_static_data], by simp [data_ptr.fits]⟩,
    by simp, by simp [ckernel_builder.buffer], ?_⟩
  intro i b hb _
  simp only [ckernel_builder.buffer] at hb
  rw [List.getElem?_replicate] at hb
  split at hb
  · exact (Option.some.inj hb).symm
  · cases hb

/-- `ensure_capacity_leaf` keeps the invariant, or throws and leaves
`m_data == NULL`. -/
theorem zero_inv_ensure_capacity_leaf (a : alloc_outcome) (t : tracked) (r : Int)
    (h : t.zero_inv) :
    tracked.zero_final
      { t with ckb := (ckernel_builder.ensure_capacity_leaf a t.ckb r).ckb
               thrown := (ckernel_builder.ensure_capacity_leaf a t.ckb r).thrown } := by
  obtain ⟨hth0, hwf, hlive, hlen, hzero⟩ := h
  by_cases hlt : t.ckb.m_capacity < r
  · cases hs : a.succeeds with
    | false =>
      rw [ckernel_builder.ensure_capacity_leaf_fails a t.ckb r hlt hs]
      exact ⟨fun h => (by cases h), fun _ => rfl⟩
    | true =>
      obtain ⟨pre, hpre, hpre2, heq⟩ :=
        ckernel_builder.ensure_capacity_leaf_grows a t.ckb r hwf hlt hs
      rw [heq]
      refine ⟨fun _ => ?_, fun h => absurd rfl h⟩
      have hc0 : 0 ≤ t.ckb.m_capacity := hwf.2.1
      have hpre3 : pre = t.ckb.buffer := by
        rw [hpre2 hlive]
        exact List.take_of_length_le (by omega)
      refine ⟨rfl, ⟨hwf.1, by simp only; omega, ?_⟩, by simp, ?_, ?_⟩
      · simp only [data_ptr.fits, List.length_append, List.length_replicate]
        omega
      · simp only [ckernel_builder.buffer, List.length_append, List.length_replicate]
        omega
      · intro i b hb hi
        simp only [ckernel_builder.buffer] at hb
        rw [hpre3, List.getElem?_append] at hb
        split at hb
        · rw [List.getElem?_eq_getElem (by assumption)] at hb
          exact hzero i b (by rw [List.getElem?_eq_getElem (by assumption)]; exact hb) hi
        · rw [List.getElem?_replicate] at hb
          split at hb
          · exact (Option.some.inj hb).symm
          · cases hb
  · rw [ckernel_builder.ensure_capacity_leaf_enough a t.ckb r (by omega)]
    exact ⟨fun _ => ⟨rfl, hwf, hlive, hlen, hzero⟩, fun h => absurd rfl h⟩

/-- Every call keeps the invariant, or throws and leaves `m_data == NULL`. -/
theorem zero_inv_step (bits p : Nat) (t : tracked) (o : op) (h : t.zero_inv) :
    (step bits p t o).zero_final := by
  cases o with
  | ensure_capacity a n => exact zero_inv_ensure_capacity_leaf a t _ h
  | ensure_capacity_leaf a n => exact zero_inv_ensure_capacity_leaf a t _ h
  | alloc_ck a sz off => exact zero_inv_ensure_capacity_leaf a t _ h
  | alloc_ck_leaf a sz off => exact zero_inv_ensure_capacity_leaf a t _ h
  | client_write off bytes =>
    obtain ⟨hth0, hwf, hlive, hlen, hzero⟩ := h
    have hbuf := ckernel_builder.write_buffer t.ckb off bytes hlive
    have hcap := ckernel_builder.write_m_capacity t.ckb off bytes
    have hlive2 : (ckernel_builder.write t.ckb off bytes).m_data ≠ data_ptr.null := by
      unfold ckernel_builder.write
      cases hd : t.ckb.m_data with
      | null => exact absurd hd hlive
      | static_data => simp [hd]
      | heap block => simp
    have hwf2 : (ckernel_builder.write t.ckb off bytes).wf := by
      obtain ⟨h1, h2, h3⟩ := hwf
      unfold ckernel_builder.write
      cases hd : t.ckb.m_data with
      | null => exact absurd hd hlive
      | static_data =>
        rw [hd] at h3
        exact ⟨by simp only [ckernel_builder.store_length]; exact h1, h2, by simp only [hd]; exact h3⟩
      | heap block =>
        rw [hd] at h3
        refine ⟨h1, h2, ?_⟩
        simp only [data_ptr.fits, ckernel_builder.store_length] at h3 ⊢
        exact h3
    refine ⟨fun hth => ?_, fun hth => ?_⟩
    · refine ⟨hth, hwf2, hlive2, ?_, ?_⟩
      · simp only [step, hbuf, hcap, ckernel_builder.store_length]
        exact hlen
      · intro i b hb hi
        simp only [step, hbuf] at hb hi
        have hout : i < off ∨ off + bytes.length ≤ i := by
          by_contra hcon
          apply hi
          simp only [List.mem_append, List.mem_map, List.mem_range]
          left
          exact ⟨i - off, by omega, by omega⟩
        rw [ckernel_builder.store_getElem?_outside bytes _ _ _ hout] at hb
        exact hzero i b hb (fun hmem => hi (List.mem_append_right _ hmem))
    · exact absurd hth0 hth
  | reset =>
    exact ⟨fun _ => zero_inv_init t.ckb h.2.1.1, fun hth => absurd rfl hth⟩

/-- A sequence of calls on a builder satisfying the invariant ends in a state
that satisfies it, or in an exception with `m_data == NULL`. -/
theorem zero_final_run_ops (bits p : Nat) (ops : List op) :
    ∀ t : tracked, t.zero_inv → (run_ops bits p ops t).zero_final := by
  induction ops with
  | nil => intro t h; exact ⟨fun _ => h, fun hth => absurd h.1 hth⟩
  | cons o os ih =>
    intro t h
    have hs := zero_inv_step bits p t o h
    simp only [run_ops]
    cases hth : (step bits p t o).thrown with
    | some e => simpa using hs
    | none => exact ih _ (hs.1 hth)

/-- A capacity that went up means the request exceeded it and the allocation
succeeded. -/
theorem ckernel_builder.grew (a : alloc_outcome) (self : ckernel_builder) (r : Int)
    (h : self.m_capacity < (ckernel_builder.ensure_capacity_leaf a self r).ckb.m_capacity) :
    self.m_capacity < r ∧ a.succeeds = true := by
  rw [ckernel_builder.ensure_capacity_leaf_m_capacity] at h
  split at h
  · assumption
  · omega

/-- C4: when `ensure_capacity_leaf` grows a live builder from capacity `c` to
a larger one, from the inline array to the heap or from one heap block to
another, the first `c` bytes of the buffer after the call are the `c` bytes
of the buffer before it, and the call runs no record constructor and no
record destructor (it has no effect at all on the outside and does not
throw). -/
theorem ensure_capacity_leaf_preserves_bytes (a : alloc_outcome) (self : ckernel_builder)
    (r : Int) (hwf : self.wf) (hlive : self.m_data ≠ data_ptr.null)
    (hgrow : self.m_capacity <
      (ckernel_builder.ensure_capacity_leaf a self r).ckb.m_capacity) :
    (self.buffer.take self.m_capacity.toNat).length = self.m_capacity.toNat ∧
    (ckernel_builder.ensure_capacity_leaf a self r).ckb.buffer.take self.m_capacity.toNat =
      self.buffer.take self.m_capacity.toNat ∧
    (∀ i : Nat, (i : Int) < self.m_capacity →
      (ckernel_builder.ensure_capacity_leaf a self r).ckb.buffer[i]? = self.buffer[i]?) ∧
    (ckernel_builder.ensure_capacity_leaf a self r).effects = [] ∧
    (ckernel_builder.ensure_capacity_leaf a self r).thrown = none := by
  obtain ⟨hlt, hs⟩ := ckernel_builder.grew a self r hgrow
  obtain ⟨pre, hpre, hpre2, heq⟩ :=
    ckernel_builder.ensure_capacity_leaf_grows a self r hwf hlt hs
  have hpre3 := hpre2 hlive
  rw [heq]
  have htake : (pre ++ List.replicate
      (max r (self.m_capacity * 3 / 2) - self.m_capacity).toNat (0 : byte)).take
        self.m_capacity.toNat = pre := by
    rw [List.take_append_of_le_length (by omega)]
    exact List.take_of_length_le (by omega)
  refine ⟨by rw [← hpre3]; exact hpre, ?_, ?_, rfl, rfl⟩
  · show List.take self.m_capacity.toNat (pre ++ List.replicate _ 0) =
      List.take self.m_capacity.toNat self.buffer
    rw [htake]
    exact hpre3
  · intro i hi
    show (pre ++ List.replicate _ 0)[i]? = self.buffer[i]?
    rw [List.getElem?_append_left (by omega), hpre3]
    exact List.getElem?_take_of_lt (by omega)

/-- Witness of C4: an inline builder holding two canary bytes is grown to 200
bytes; the canaries are read back. -/
theorem ensure_capacity_leaf_preserves_bytes_witness :
    canary_builder.wf ∧ canary_builder.m_data ≠ data_ptr.null ∧
    canary_builder.m_capacity <
      (ckernel_builder.ensure_capacity_leaf ⟨true, fun _ => 255⟩
        canary_builder 200).ckb.m_capacity ∧
    (ckernel_builder.ensure_capacity_leaf ⟨true, fun _ => 255⟩
      canary_builder 200).ckb.buffer.take canary_builder.m_capacity.toNat =
      canary_builder.buffer.take canary_builder.m_capacity.toNat :=
  ⟨by decide, by decide, by decide,
    (ensure_capacity_leaf_preserves_bytes ⟨true, fun _ => 255⟩ canary_builder 200
      (by decide) (by decide) (by decide)).2.1⟩

/-- `ensure_capacity_leaf` does not touch the inline array. -/
theorem ckernel_builder.ensure_capacity_leaf_static (a : alloc_outcome)
    (self : ckernel_builder) (r : Int) :
    (ckernel_builder.ensure_capacity_leaf a self r).ckb.m_static_data =
      self.m_static_data := by
  unfold ckernel_builder.ensure_capacity_leaf
  split
  · simp only []
    split <;> rfl
  · rfl

/-- No call changes the size of the inline array. -/
theorem step_static_length (bits p : Nat) (t : tracked) (o : op)
    (h : t.ckb.m_static_data.length = sizeof_m_static_data) :
    (step bits p t o).ckb.m_static_data.length = sizeof_m_static_data := by
  cases o with
  | ensure_capacity a n =>
    exact (congrArg List.length
      (ckernel_builder.ensure_capacity_leaf_static a t.ckb _)).trans h
  | ensure_capacity_leaf a n =>
    exact (congrArg List.length
      (ckernel_builder.ensure_capacity_leaf_static a t.ckb _)).trans h
  | alloc_ck a sz off =>
    exact (congrArg List.length
      (ckernel_builder.ensure_capacity_leaf_static a t.ckb _)).trans h
  | alloc_ck_leaf a sz off =>
    exact (congrArg List.length
      (ckernel_builder.ensure_capacity_leaf_static a t.ckb _)).trans h
  | client_write off bytes =>
    simp only [step]
    unfold ckernel_builder.write
    cases hd : t.ckb.m_data with
    | null => exact h
    | static_data =>
      simp only [ckernel_builder.store_length]
      exact h
    | heap block => exact h
  | reset =>
    simp only [step, ckernel_builder.reset]
    rw [ckernel_builder.init_eq _ h]
    simp

/-- A sequence of calls whose exceptions are caught keeps the invariant for
as long as no call has thrown since construction or the last `reset()`. -/
theorem zero_inv_run_ops_caught (bits p : Nat) (ops : List op) :
    ∀ t : tracked, t.ckb.m_static_data.length = sizeof_m_static_data →
      (t.thrown = none → t.zero_inv) →
      ((run_ops_caught bits p ops t).thrown = none →
        (run_ops_caught bits p ops t).zero_inv) := by
  induction ops with
  | nil => intro t _ h; exact h
  | cons o os ih =>
    intro t hlen hinv
    simp only [run_ops_caught]
    apply ih
    · exact step_static_length bits p t o hlen
    · intro hth
      cases hr : o.is_reset with
      | true =>
        cases o with
        | reset => exact zero_inv_init t.ckb hlen
        | ensure_capacity a n => cases hr
        | ensure_capacity_leaf a n => cases hr
        | alloc_ck a sz off => cases hr
        | alloc_ck_leaf a sz off => cases hr
        | client_write off bytes => cases hr
      | false =>
        simp only [hr, Bool.false_eq_true, if_false] at hth
        cases ht : t.thrown with
        | some e =>
          rw [ht] at hth
          cases hth
        | none =>
          rw [ht] at hth
          simp only [] at hth
          have hz := (zero_inv_step bits p t o (hinv ht)).1 hth
          simp only [hr, ht]
          exact ⟨hth, hz.2.1, hz.2.2.1, hz.2.2.2.1, hz.2.2.2.2⟩

/-- C5, as stated, fails: on a constructed builder a call of
`ensure_capacity_leaf(200)` whose allocation fails throws and leaves
`m_data == NULL` with the capacity still 128; the caller catches the
exception and calls `ensure_capacity_leaf(250)`, which succeeds. The new
block is then zeroed from offset 128 only: the byte at offset 0, which no
client has stored to, is the `0xFF` the allocator handed out. -/
theorem unwritten_byte_after_caught_failure :
    (ckernel_builder.ensure_capacity_leaf ⟨false, fun _ => 255⟩
      (ckernel_builder.construct (List.replicate 128 7)) 200).thrown = some exn.bad_alloc ∧
    (ckernel_builder.ensure_capacity_leaf ⟨false, fun _ => 255⟩
      (ckernel_builder.construct (List.replicate 128 7)) 200).ckb.m_capacity = 128 ∧
    (ckernel_builder.ensure_capacity_leaf ⟨true, fun _ => 255⟩
      (ckernel_builder.ensure_capacity_leaf ⟨false, fun _ => 255⟩
        (ckernel_builder.construct (List.replicate 128 7)) 200).ckb 250).thrown = none ∧
    (ckernel_builder.ensure_capacity_leaf ⟨true, fun _ => 255⟩
      (ckernel_builder.ensure_capacity_leaf ⟨false, fun _ => 255⟩
        (ckernel_builder.construct (List.replicate 128 7)) 200).ckb 250).ckb.buffer[0]? =
      some 255 ∧
    (run_ops_caught 64 16
      [op.ensure_capacity_leaf ⟨false, fun _ => 255⟩ 200,
        op.ensure_capacity_leaf ⟨true, fun _ => 255⟩ 250]
      (tracked.construct (List.replicate 128 7))).ckb.buffer[0]? = some 255 ∧
    (run_ops_caught 64 16
      [op.ensure_capacity_leaf ⟨false, fun _ => 255⟩ 200,
        op.ensure_capacity_leaf ⟨true, fun _ => 255⟩ 250]
      (tracked.construct (List.replicate 128 7))).written = [] := by
  decide

/-- C5, amended: after `ensure_capacity_leaf` grows the buffer from capacity
`c` to `c'`, the buffer has `c'` bytes and every byte at an offset in
`[c, c')` is zero. With the zero-filled state `init()` leaves, this gives the
invariant: in a builder reached from construction, or from `reset()` of any
builder, by `ensure_capacity`, `ensure_capacity_leaf`, `alloc_ck`,
`alloc_ck_leaf` calls, client stores and further `reset()` calls, none of
which has thrown since construction or the last `reset()`, the buffer is
there, has `m_capacity` bytes, and every byte of it that no client has stored
to since is zero. -/
theorem unwritten_bytes_are_zero (a : alloc_outcome) (self : ckernel_builder) (r : Int)
    (bits p : Nat) (ops : List op) (raw : List byte)
    (hwf : self.wf) (hraw : raw.length = sizeof_m_static_data) :
    (self.m_capacity < (ckernel_builder.ensure_capacity_leaf a self r).ckb.m_capacity →
      ((ckernel_builder.ensure_capacity_leaf a self r).ckb.buffer.length : Int) =
        (ckernel_builder.ensure_capacity_leaf a self r).ckb.m_capacity ∧
      ∀ i : Nat, self.m_capacity ≤ (i : Int) →
        (i : Int) < (ckernel_builder.ensure_capacity_leaf a self r).ckb.m_capacity →
        (ckernel_builder.ensure_capacity_leaf a self r).ckb.buffer[i]? = some 0) ∧
    ((run_ops_caught bits p ops (tracked.construct raw)).thrown = none →
      (run_ops_caught bits p ops (tracked.construct raw)).ckb.m_data ≠ data_ptr.null ∧
      ((run_ops_caught bits p ops (tracked.construct raw)).ckb.buffer.length : Int) =
        (run_ops_caught bits p ops (tracked.construct raw)).ckb.m_capacity ∧
      ∀ (i : Nat) (b : byte),
        (run_ops_caught bits p ops (tracked.construct raw)).ckb.buffer[i]? = some b →
        i ∉ (run_ops_caught bits p ops (tracked.construct raw)).written → b = 0) ∧
    (∀ (w : List Nat) (e : Option exn),
      (run_ops_caught bits p (op.reset :: ops) ⟨self, w, e⟩).thrown = none →
      (run_ops_caught bits p (op.reset :: ops) ⟨self, w, e⟩).ckb.m_data ≠ data_ptr.null ∧
      ((run_ops_caught bits p (op.reset :: ops) ⟨self, w, e⟩).ckb.buffer.length : Int) =
        (run_ops_caught bits p (op.reset :: ops) ⟨self, w, e⟩).ckb.m_capacity ∧
      ∀ (i : Nat) (b : byte),
        (run_ops_caught bits p (op.reset :: ops) ⟨self, w, e⟩).ckb.buffer[i]? = some b →
        i ∉ (run_ops_caught bits p (op.reset :: ops) ⟨self, w, e⟩).written → b = 0) := by
  have hc : (run_ops_caught bits p ops (tracked.construct raw)).thrown = none →
      (run_ops_caught bits p ops (tracked.construct raw)).zero_inv :=
    zero_inv_run_ops_caught bits p ops _
      (by
        show (ckernel_builder.init _).m_static_data.length = _
        rw [ckernel_builder.init_eq _ hraw]
        simp)
      (fun _ => zero_inv_init _ hraw)
  refine ⟨?_, fun hth => ⟨(hc hth).2.2.1, (hc hth).2.2.2.1, (hc hth).2.2.2.2⟩, ?_⟩
  · intro hgrow
    obtain ⟨hlt, hs⟩ := ckernel_builder.grew a self r hgrow
    obtain ⟨pre, hpre, _, heq⟩ :=
      ckernel_builder.ensure_capacity_leaf_grows a self r hwf hlt hs
    have hc0 : 0 ≤ self.m_capacity := hwf.2.1
    rw [heq]
    refine ⟨?_, ?_⟩
    · simp only [ckernel_builder.buffer, List.length_append, List.length_replicate]
      omega
    · intro i h1 h2
      simp only [ckernel_builder.buffer]
      rw [List.getElem?_append_right (by omega), List.getElem?_replicate]
      simp only at h2
      rw [if_pos (by omega)]
  · intro w e
    have hstep : run_ops_caught bits p (op.reset :: ops) ⟨self, w, e⟩ =
        run_ops_caught bits p ops ⟨ckernel_builder.init self, [], none⟩ := rfl
    rw [hstep]
    intro hth
    have hr := zero_inv_run_ops_caught bits p ops ⟨ckernel_builder.init self, [], none⟩
      (by
        show (ckernel_builder.init self).m_static_data.length = _
        rw [ckernel_builder.init_eq _ hwf.1]
        simp)
      (fun _ => zero_inv_init _ hwf.1) hth
    exact ⟨hr.2.2.1, hr.2.2.2.1, hr.2.2.2.2⟩

/-- Witness of C5 amended: on a fresh builder over garbage an allocation
fails, the caller resets the builder, stores one byte at offset 0 and grows
the builder to 200 bytes with an allocator that hands out `0xFF` bytes; every
byte but the one stored is zero. -/
theorem unwritten_bytes_are_zero_witness :
    (ckernel_builder.construct (List.replicate 128 7)).wf ∧
    (List.replicate 128 (7 : byte)).length = sizeof_m_static_data ∧
    (run_ops_caught 64 16
      [op.ensure_capacity_leaf ⟨false, fun _ => 255⟩ 200, op.reset,
        op.client_write 0 [170], op.ensure_capacity_leaf ⟨true, fun _ => 255⟩ 200]
      (tracked.construct (List.replicate 128 7))).thrown = none ∧
    (run_ops_caught 64 16
      [op.ensure_capacity_leaf ⟨false, fun _ => 255⟩ 200, op.reset,
        op.client_write 0 [170], op.ensure_capacity_leaf ⟨true, fun _ => 255⟩ 200]
      (tracked.construct (List.replicate 128 7))).ckb.m_capacity = 200 ∧
    (run_ops_caught 64 16
      [op.ensure_capacity_leaf ⟨false, fun _ => 255⟩ 200, op.reset,
        op.client_write 0 [170], op.ensure_capacity_leaf ⟨true, fun _ => 255⟩ 200]
      (tracked.construct (List.replicate 128 7))).written = [0] ∧
    ∀ (i : Nat) (b : byte),
      (run_ops_caught 64 16
        [op.ensure_capacity_leaf ⟨false, fun _ => 255⟩ 200, op.reset,
          op.client_write 0 [170], op.ensure_capacity_leaf ⟨true, fun _ => 255⟩ 200]
        (tracked.construct (List.replicate 128 7))).ckb.buffer[i]? = some b →
      i ∉ (run_ops_caught 64 16
        [op.ensure_capacity_leaf ⟨false, fun _ => 255⟩ 200, op.reset,
          op.client_write 0 [170], op.ensure_capacity_leaf ⟨true, fun _ => 255⟩ 200]
        (tracked.construct (List.replicate 128 7))).written → b = 0 :=
  ⟨by decide, by decide, by decide, by decide, by decide,
    ((unwritten_bytes_are_zero ⟨true, fun _ => 255⟩
      (ckernel_builder.construct (List.replicate 128 7)) 200 64 16
      [op.ensure_capacity_leaf ⟨false, fun _ => 255⟩ 200, op.reset,
        op.client_write 0 [170], op.ensure_capacity_leaf ⟨true, fun _ => 255⟩ 200]
      (List.replicate 128 7) (by decide) (by decide)).2.1 (by decide)).2.2⟩

/-! ### Allocation of records -/

/-- A call of `ensure_capacity_leaf` that returns leaves at least the
requested capacity. -/
theorem ckernel_builder.ensure_capacity_leaf_ge (a : alloc_outcome)
    (self : ckernel_builder) (r : Int)
    (h : (ckernel_builder.ensure_capacity_leaf a self r).thrown = none) :
    r ≤ (ckernel_builder.ensure_capacity_leaf a self r).ckb.m_capacity := by
  rw [ckernel_builder.ensure_capacity_leaf_thrown] at h
  rw [ckernel_builder.ensure_capacity_leaf_m_capacity]
  by_cases hlt : self.m_capacity < r
  · cases hs : a.succeeds with
    | false => simp [hlt, hs] at h
    | true => simp [hlt]
  · simp only [hlt, false_and, if_false]
    omega

/-- What `and_then` leaves when it does not throw. -/
theorem kernels.general_ck.and_then_returns (o : outcome) (k : ckernel_builder → outcome)
    (h : (kernels.general_ck.and_then o k).thrown = none) :
    o.thrown = none ∧ (k o.ckb).thrown = none ∧
    (kernels.general_ck.and_then o k).ckb = (k o.ckb).ckb := by
  unfold kernels.general_ck.and_then at h ⊢
  cases ho : o.thrown with
  | some e => simp [ho] at h
  | none =>
    simp only [ho] at h ⊢
    exact ⟨trivial, h, trivial⟩

/-- Rounding up to a multiple of 8. -/
theorem align_offset_spec (n : Nat) :
    align_offset n % 8 = 0 ∧ n ≤ align_offset n ∧ align_offset n < n + 8 := by
  unfold align_offset
  omega

/-- The child slot after a successful growth-checked allocation lies in the
buffer and holds zeros wherever no client stored. -/
theorem child_slot_zero (t : tracked) (a : alloc_outcome) (r : Int) (h : t.zero_inv)
    (hret : (ckernel_builder.ensure_capacity_leaf a t.ckb r).thrown = none)
    (i : Nat) (hi : (i : Int) < r) :
    ∃ b, (ckernel_builder.ensure_capacity_leaf a t.ckb r).ckb.buffer[i]? = some b ∧
      (i ∉ t.written → b = 0) := by
  have hz := (zero_inv_ensure_capacity_leaf a t r h).1 hret
  obtain ⟨_, _, _, hlen, hzero⟩ := hz
  have hge := ckernel_builder.ensure_capacity_leaf_ge a t.ckb r hret
  simp only at hlen hzero
  have hlt : i < (ckernel_builder.ensure_capacity_leaf a t.ckb r).ckb.buffer.length := by
    omega
  refine ⟨(ckernel_builder.ensure_capacity_leaf a t.ckb r).ckb.buffer[i], ?_, ?_⟩
  · exact List.getElem?_eq_getElem hlt
  · intro hw
    exact hzero i _ (List.getElem?_eq_getElem hlt) hw

/-- The `size_t` sum of `ensure_capacity`, converted back to `intptr_t`, is
the mathematical sum whenever an `intptr_t` can hold that. -/
theorem size_t_add_in_range (bits : Nat) (x : Int) (y : Nat) (hbits : 0 < bits)
    (hlo : intptr_min bits ≤ x + (y : Int)) (hhi : x + (y : Int) ≤ intptr_max bits) :
    size_t_to_intptr bits (size_t_add bits x y) = x + (y : Int) := by
  unfold size_t_to_intptr size_t_add
  unfold intptr_min at hlo
  unfold intptr_max at hhi
  have hpow : (2 : Int) ^ bits = 2 * 2 ^ (bits - 1) := by
    obtain ⟨k, rfl⟩ : ∃ k, bits = k + 1 := ⟨bits - 1, by omega⟩
    rw [Nat.add_sub_cancel, pow_succ]
    ring
  have hM : (0 : Int) < 2 ^ (bits - 1) := by positivity
  rw [hpow]
  generalize (2 : Int) ^ (bits - 1) = M at hlo hhi hM ⊢
  by_cases hx : 0 ≤ x + (y : Int)
  · rw [Int.emod_eq_of_lt hx (by omega), if_pos (by omega)]
  · have hmod : (x + (y : Int)) % (2 * M) = x + (y : Int) + 2 * M := by
      rw [← Int.add_mul_emod_self_left (x + (y : Int)) (2 * M) 1, mul_one]
      exact Int.emod_eq_of_lt (by omega) (by omega)
    rw [hmod, if_neg (by omega)]
    omega

/-- C6, as stated, fails. With 64-bit pointers and a 16-byte prefix,
`alloc_ck` of an 8-byte record on a fresh builder at the offset
`2^63 - 24` moves the offset to `2^63 - 16`, which an `intptr_t` holds; the
sum `offset + sizeof(ckernel_prefix)` is taken in `size_t` and converts to
`INTPTR_MIN`, so nothing is allocated and the call returns normally with the
capacity 128, far below `o + align8(sizeof(T)) + sizeof(ckernel_prefix)`,
where `ensure_capacity_leaf` of the mathematical sum throws. And on a builder
whose earlier allocation failed, `alloc_ck` at offset 0 returns normally with
`m_data == NULL`: no byte of the child prefix lies in a buffer. -/
theorem alloc_ck_sum_wraps :
    (9223372036854775784 : Int) + align_offset 8 ≤ intptr_max 64 ∧
    (ckernel_builder.alloc_ck 64 16 ⟨false, fun _ => 255⟩
      (ckernel_builder.construct (List.replicate 128 7)) 8
      9223372036854775784).out.thrown = none ∧
    (ckernel_builder.alloc_ck 64 16 ⟨false, fun _ => 255⟩
      (ckernel_builder.construct (List.replicate 128 7)) 8
      9223372036854775784).out.ckb.m_capacity = 128 ∧
    ¬ ((9223372036854775784 : Int) + align_offset 8 + (16 : Nat) ≤
      (ckernel_builder.alloc_ck 64 16 ⟨false, fun _ => 255⟩
        (ckernel_builder.construct (List.replicate 128 7)) 8
        9223372036854775784).out.ckb.m_capacity) ∧
    (ckernel_builder.ensure_capacity 64 16 ⟨false, fun _ => 255⟩
      (ckernel_builder.construct (List.replicate 128 7)) 9223372036854775792).thrown =
      none ∧
    (ckernel_builder.ensure_capacity_leaf ⟨false, fun _ => 255⟩
      (ckernel_builder.construct (List.replicate 128 7))
      (9223372036854775792 + 16)).thrown = some exn.bad_alloc ∧
    (ckernel_builder.alloc_ck 64 16 ⟨true, fun _ => 255⟩
      (ckernel_builder.ensure_capacity_leaf ⟨false, fun _ => 255⟩
        (ckernel_builder.construct (List.replicate 128 7)) 200).ckb 8 0).out.thrown = none ∧
    (ckernel_builder.alloc_ck 64 16 ⟨true, fun _ => 255⟩
      (ckernel_builder.ensure_capacity_leaf ⟨false, fun _ => 255⟩
        (ckernel_builder.construct (List.replicate 128 7)) 200).ckb 8 0).out.ckb.buffer[8]? =
      none := by
  decide

/-- C6, amended: whenever `o + align8(sizeof(T)) + sizeof(ckernel_prefix)` is
a value of `intptr_t`, after `alloc_ck<T>` or `general_ck::create<T>` with
incoming offset `o` the capacity is at least that sum; `alloc_ck_leaf` and
`create_leaf` give `o + align8(sizeof(T))`, and on a fresh builder with
`o = 120`, `sizeof(T) = 8` no more than that. `ensure_capacity(n)` is
`ensure_capacity_leaf` of the `size_t` sum `n + sizeof(ckernel_prefix)`
converted to `intptr_t`, which is `n + sizeof(ckernel_prefix)` whenever an
`intptr_t` holds that. In a builder reached from construction by calls none
of which has thrown since construction or the last `reset()`, after
`alloc_ck` or `create` at an offset `o >= 0` every byte of the child prefix
at the new offset lies inside the buffer, and is zero unless a client stored
to it. -/
theorem alloc_ck_reserves_child (bits p : Nat) (a : alloc_outcome) (self : ckernel_builder)
    (sz : Nat) (o : Int) (img : List byte) (hbits : 0 < bits) :
    (intptr_min bits ≤ o + align_offset sz + p → o + align_offset sz + p ≤ intptr_max bits →
      (ckernel_builder.alloc_ck bits p a self sz o).out.thrown = none →
      o + align_offset sz + p ≤
        (ckernel_builder.alloc_ck bits p a self sz o).out.ckb.m_capacity) ∧
    (intptr_min bits ≤ o + align_offset img.length + p →
      o + align_offset img.length + p ≤ intptr_max bits →
      (kernels.general_ck.create bits p a self o img).out.thrown = none →
      o + align_offset img.length + p ≤
        (kernels.general_ck.create bits p a self o img).out.ckb.m_capacity) ∧
    ((ckernel_builder.alloc_ck_leaf a self sz o).out.thrown = none →
      o + align_offset sz ≤ (ckernel_builder.alloc_ck_leaf a self sz o).out.ckb.m_capacity) ∧
    ((kernels.general_ck.create_leaf a self o img).out.thrown = none →
      o + align_offset img.length ≤
        (kernels.general_ck.create_leaf a self o img).out.ckb.m_capacity) ∧
    (∀ raw : List byte, 0 < p →
      (ckernel_builder.alloc_ck_leaf a (ckernel_builder.construct raw) 8 120).out.thrown = none ∧
      (ckernel_builder.alloc_ck_leaf a (ckernel_builder.construct raw) 8 120).out.ckb.m_capacity
        < 120 + align_offset 8 + p) ∧
    (∀ n : Int, ckernel_builder.ensure_capacity bits p a self n =
      ckernel_builder.ensure_capacity_leaf a self
        (size_t_to_intptr bits (size_t_add bits n p))) ∧
    (∀ n : Int, intptr_min bits ≤ n + p → n + p ≤ intptr_max bits →
      ckernel_builder.ensure_capacity bits p a self n =
        ckernel_builder.ensure_capacity_leaf a self (n + p)) ∧
    (∀ (ops : List op) (raw : List byte), raw.length = sizeof_m_static_data →
      (run_ops_caught bits p ops (tracked.construct raw)).thrown = none → 0 ≤ o →
      (o + align_offset sz + p ≤ intptr_max bits →
        (ckernel_builder.alloc_ck bits p a
          (run_ops_caught bits p ops (tracked.construct raw)).ckb sz o).out.thrown = none →
        ∀ i : Nat, o + align_offset sz ≤ i → (i : Int) < o + align_offset sz + p →
          ∃ b, (ckernel_builder.alloc_ck bits p a
              (run_ops_caught bits p ops (tracked.construct raw)).ckb sz o
              ).out.ckb.buffer[i]? = some b ∧
            (i ∉ (run_ops_caught bits p ops (tracked.construct raw)).written → b = 0)) ∧
      (o + align_offset img.length + p ≤ intptr_max bits →
        (kernels.general_ck.create bits p a
          (run_ops_caught bits p ops (tracked.construct raw)).ckb o img).out.thrown = none →
        ∀ i : Nat, o + align_offset img.length ≤ i →
          (i : Int) < o + align_offset img.length + p →
          ∃ b, (kernels.general_ck.create bits p a
              (run_ops_caught bits p ops (tracked.construct raw)).ckb o img
              ).out.ckb.buffer[i]? = some b ∧
            (i ∉ (run_ops_caught bits p ops (tracked.construct raw)).written → b = 0))) := by
  have hsum : ∀ (c : ckernel_builder) (n : Int), intptr_min bits ≤ n + p →
      n + p ≤ intptr_max bits →
      ckernel_builder.ensure_capacity bits p a c n =
        ckernel_builder.ensure_capacity_leaf a c (n + p) := by
    intro c n hlo hhi
    unfold ckernel_builder.ensure_capacity
    rw [size_t_add_in_range bits n p hbits hlo hhi]
  have hmin : intptr_min bits ≤ 0 := by
    unfold intptr_min
    have : (0 : Int) < 2 ^ (bits - 1) := by positivity
    omega
  refine ⟨?_, ?_, ?_, ?_, ?_, fun _ => rfl, hsum self, ?_⟩
  · intro hlo hhi h
    have he : (ckernel_builder.alloc_ck bits p a self sz o).out =
        ckernel_builder.ensure_capacity_leaf a self (o + align_offset sz + p) :=
      hsum self _ hlo hhi
    rw [he] at h ⊢
    exact ckernel_builder.ensure_capacity_leaf_ge a self _ h
  · intro hlo hhi h
    obtain ⟨h1, _, h3⟩ := kernels.general_ck.and_then_returns _ _ h
    have he : ckernel_builder.ensure_capacity bits p a self
          (kernels.inc_ckb_offset o img.length) =
        ckernel_builder.ensure_capacity_leaf a self (o + align_offset img.length + p) :=
      hsum self _ hlo hhi
    rw [he] at h1
    have hge := ckernel_builder.ensure_capacity_leaf_ge a self _ h1
    show _ ≤ (kernels.general_ck.and_then _ _).ckb.m_capacity
    rw [h3]
    simp only [ckernel_builder.init_record, ckernel_builder.write_m_capacity]
    rw [he]
    exact hge
  · intro h
    exact ckernel_builder.ensure_capacity_leaf_ge a self _ h
  · intro h
    obtain ⟨h1, _, h3⟩ := kernels.general_ck.and_then_returns _ _ h
    have hge := ckernel_builder.ensure_capacity_leaf_ge a self _ h1
    show _ ≤ (kernels.general_ck.and_then _ _).ckb.m_capacity
    rw [h3]
    simp only [ckernel_builder.init_record, ckernel_builder.write_m_capacity]
    exact hge
  · intro raw hp
    have h128 : (ckernel_builder.construct raw).m_capacity = 128 := rfl
    have hal : kernels.inc_ckb_offset 120 8 = 128 := by decide
    have hen := ckernel_builder.ensure_capacity_leaf_enough a
      (ckernel_builder.construct raw) 128 (by rw [h128])
    simp only [ckernel_builder.alloc_ck_leaf, hal, hen, h128]
    refine ⟨trivial, ?_⟩
    have : align_offset 8 = 8 := by decide
    rw [this]
    push_cast
    omega
  · intro ops raw hraw hth ho
    have hinv : (run_ops_caught bits p ops (tracked.construct raw)).zero_inv :=
      zero_inv_run_ops_caught bits p ops _
        (by
          show (ckernel_builder.init _).m_static_data.length = _
          rw [ckernel_builder.init_eq _ hraw]
          simp)
        (fun _ => zero_inv_init _ hraw) hth
    refine ⟨?_, ?_⟩
    · intro hhi hret i _ h2
      have he : (ckernel_builder.alloc_ck bits p a
            (run_ops_caught bits p ops (tracked.construct raw)).ckb sz o).out =
          ckernel_builder.ensure_capacity_leaf a
            (run_ops_caught bits p ops (tracked.construct raw)).ckb
            (o + align_offset sz + p) :=
        hsum _ _ (show intptr_min bits ≤ o + align_offset sz + p by omega) hhi
      rw [he] at hret ⊢
      exact child_slot_zero _ a _ hinv hret i h2
    · intro hhi hret i h1 h2
      obtain ⟨hr1, _, hr3⟩ := kernels.general_ck.and_then_returns _ _ hret
      have he : ckernel_builder.ensure_capacity bits p a
            (run_ops_caught bits p ops (tracked.construct raw)).ckb
            (kernels.inc_ckb_offset o img.length) =
          ckernel_builder.ensure_capacity_leaf a
            (run_ops_caught bits p ops (tracked.construct raw)).ckb
            (o + align_offset img.length + p) :=
        hsum _ _ (show intptr_min bits ≤ o + align_offset img.length + p by omega) hhi
      rw [he] at hr1
      obtain ⟨b, hb, hbz⟩ := child_slot_zero _ a _ hinv hr1 i h2
      refine ⟨b, ?_, hbz⟩
      have hlive : (ckernel_builder.ensure_capacity_leaf a
          (run_ops_caught bits p ops (tracked.construct raw)).ckb
          (o + align_offset img.length + p)).ckb.m_data ≠ data_ptr.null :=
        ((zero_inv_ensure_capacity_leaf a _ _ hinv).1 hr1).2.2.1
      show (kernels.general_ck.and_then _ _).ckb.buffer[i]? = some b
      rw [hr3]
      simp only [ckernel_builder.init_record]
      rw [he, ckernel_builder.write_buffer _ _ _ hlive,
        ckernel_builder.store_getElem?_outside]
      · exact hb
      · right
        have := (align_offset_spec img.length).2.1
        omega

/-- Witness of C6 amended, with 64-bit pointers and a 16-byte prefix: after a
caught allocation failure and a `reset()`, `alloc_ck` of a 24-byte record at
offset 120 returns with a capacity of at least 160. -/
theorem alloc_ck_reserves_child_witness :
    0 < 64 ∧
    intptr_min 64 ≤ (120 : Int) + align_offset 24 + (16 : Nat) ∧
    (120 : Int) + align_offset 24 + (16 : Nat) ≤ intptr_max 64 ∧
    (ckernel_builder.alloc_ck 64 16 ⟨true, fun _ => 255⟩
      (run_ops_caught 64 16 [op.ensure_capacity_leaf ⟨false, fun _ => 255⟩ 200, op.reset]
        (tracked.construct (List.replicate 128 7))).ckb 24 120).out.thrown = none ∧
    (120 : Int) + align_offset 24 + (16 : Nat) ≤
      (ckernel_builder.alloc_ck 64 16 ⟨true, fun _ => 255⟩
        (run_ops_caught 64 16 [op.ensure_capacity_leaf ⟨false, fun _ => 255⟩ 200, op.reset]
          (tracked.construct (List.replicate 128 7))).ckb 24 120).out.ckb.m_capacity :=
  ⟨by decide, by decide, by decide, by decide,
    (alloc_ck_reserves_child 64 16 ⟨true, fun _ => 255⟩
      (run_ops_caught 64 16 [op.ensure_capacity_leaf ⟨false, fun _ => 255⟩ 200, op.reset]
        (tracked.construct (List.replicate 128 7))).ckb 24 120 [] (by decide)).1
      (by decide) (by decide) (by decide)⟩

/-- C7: `alloc_ck<T>`, `alloc_ck_leaf<T>`, `create<T>` and `create_leaf<T>`
return the record at the incoming offset `o` (the create functions construct
it there) and leave the offset at `o + align8(sizeof(T))`, where
`align8(n)` is the least multiple of 8 not below `n`; an 8-aligned offset
stays 8-aligned; `get_child_ckernel()` of the record addresses
`o + align8(sizeof(T))`, the offset at which the next `create` places its
record. -/
theorem alloc_ck_offsets (bits p : Nat) (a : alloc_outcome) (self : ckernel_builder)
    (sz : Nat) (o : Int) (img : List byte) :
    ((ckernel_builder.alloc_ck bits p a self sz o).record = o ∧
      (ckernel_builder.alloc_ck bits p a self sz o).inout_ckb_offset = o + align_offset sz) ∧
    ((ckernel_builder.alloc_ck_leaf a self sz o).record = o ∧
      (ckernel_builder.alloc_ck_leaf a self sz o).inout_ckb_offset = o + align_offset sz) ∧
    ((kernels.general_ck.create bits p a self o img).record = o ∧
      (kernels.general_ck.create bits p a self o img).inout_ckb_offset =
        o + align_offset img.length ∧
      ((kernels.general_ck.create bits p a self o img).out.thrown = none →
        (kernels.general_ck.create bits p a self o img).out.effects =
          [effect.construct o img])) ∧
    ((kernels.general_ck.create_leaf a self o img).record = o ∧
      (kernels.general_ck.create_leaf a self o img).inout_ckb_offset =
        o + align_offset img.length ∧
      ((kernels.general_ck.create_leaf a self o img).out.thrown = none →
        (kernels.general_ck.create_leaf a self o img).out.effects =
          [effect.construct o img])) ∧
    (align_offset sz % 8 = 0 ∧ sz ≤ align_offset sz ∧ align_offset sz < sz + 8) ∧
    (o % 8 = 0 → (ckernel_builder.alloc_ck bits p a self sz o).inout_ckb_offset % 8 = 0) ∧
    kernels.general_ck.get_child_ckernel o sz =
      (ckernel_builder.alloc_ck bits p a self sz o).inout_ckb_offset ∧
    (∀ (a2 : alloc_outcome) (self2 : ckernel_builder) (img2 : List byte),
      (kernels.general_ck.create bits p a2 self2
        (kernels.general_ck.create bits p a self o img).inout_ckb_offset img2).record =
      kernels.general_ck.get_child_ckernel o img.length) := by
  have heff : ∀ r : Int, (kernels.general_ck.and_then
        (ckernel_builder.ensure_capacity_leaf a self r)
        (fun ckb => ckernel_builder.init_record ckb o img)).thrown = none →
      (kernels.general_ck.and_then (ckernel_builder.ensure_capacity_leaf a self r)
        (fun ckb => ckernel_builder.init_record ckb o img)).effects =
        [effect.construct o img] := by
    intro r h
    obtain ⟨h1, _, _⟩ := kernels.general_ck.and_then_returns _ _ h
    have he : (ckernel_builder.ensure_capacity_leaf a self r).effects = [] := by
      rw [ckernel_builder.ensure_capacity_leaf_thrown] at h1
      by_cases hlt : self.m_capacity < r
      · cases hs : a.succeeds with
        | false => simp [hlt, hs] at h1
        | true =>
          obtain ⟨X, hX⟩ := ckernel_builder.realloc_some a self self.m_capacity.toNat
            (max r (self.m_capacity * 3 / 2)).toNat hs
          unfold ckernel_builder.ensure_capacity_leaf
          rw [if_pos hlt]
          simp only [ckernel_builder.grown_request_eq _ _ hlt, hX]
      · rw [ckernel_builder.ensure_capacity_leaf_enough a self r (by omega)]
    unfold kernels.general_ck.and_then
    simp only [h1, he, ckernel_builder.init_record, List.nil_append]
  refine ⟨⟨rfl, rfl⟩, ⟨rfl, rfl⟩, ⟨rfl, rfl, heff _⟩, ⟨rfl, rfl, heff _⟩,
    align_offset_spec sz, ?_, rfl, fun _ _ _ => rfl⟩
  intro ho
  have h8 := (align_offset_spec sz).1
  show (o + ((align_offset sz : Nat) : Int)) % 8 = 0
  omega

/-- Witness of C7: from the 8-aligned offset 16 a 20-byte record moves the
offset to 40, again 8-aligned. -/
theorem alloc_ck_offsets_witness :
    (16 : Int) % 8 = 0 ∧
    (ckernel_builder.alloc_ck 64 16 ⟨true, fun _ => 255⟩ (ckernel_builder.construct [])
      20 16).inout_ckb_offset % 8 = 0 :=
  ⟨by decide,
    (alloc_ck_offsets 64 16 ⟨true, fun _ => 255⟩ (ckernel_builder.construct []) 20 16 []
      ).2.2.2.2.2.1 (by decide)⟩

/-! ### Initial state, swap, allocation failure -/

/-- C8: a newly constructed `ckernel_builder`, and any `ckernel_builder` after
`reset()` whatever its storage, capacity and contents were, uses its inline
array, has capacity exactly 128 and a buffer of 128 zero bytes. -/
theorem init_state_inline_zero (self : ckernel_builder) (raw : List byte)
    (hself : self.m_static_data.length = sizeof_m_static_data)
    (hraw : raw.length = sizeof_m_static_data) :
    ((ckernel_builder.construct raw).using_static_data = true ∧
      (ckernel_builder.construct raw).m_capacity = 128 ∧
      (ckernel_builder.construct raw).buffer = List.replicate 128 0) ∧
    ((ckernel_builder.reset self).thrown = none ∧
      (ckernel_builder.reset self).ckb.using_static_data = true ∧
      (ckernel_builder.reset self).ckb.m_capacity = 128 ∧
      (ckernel_builder.reset self).ckb.buffer = List.replicate 128 0) := by
  have h1 := ckernel_builder.init_eq self hself
  have h2 := ckernel_builder.init_eq ⟨data_ptr.null, 0, raw⟩ hraw
  refine ⟨?_, ?_⟩
  · unfold ckernel_builder.construct
    rw [h2]
    exact ⟨rfl, rfl, rfl⟩
  · unfold ckernel_builder.reset
    simp only [h1]
    exact ⟨trivial, rfl, rfl, rfl⟩

/-- Witness of C8: resetting a heap builder of capacity 200 that holds
canary bytes gives the empty inline state. -/
theorem init_state_inline_zero_witness :
    (ckernel_builder.ensure_capacity_leaf ⟨true, fun _ => 255⟩ canary_builder 200
      ).ckb.m_static_data.length = sizeof_m_static_data ∧
    (List.replicate 128 (7 : byte)).length = sizeof_m_static_data ∧
    (ckernel_builder.reset (ckernel_builder.ensure_capacity_leaf ⟨true, fun _ => 255⟩
      canary_builder 200).ckb).ckb.buffer = List.replicate 128 0 :=
  ⟨by decide, by decide,
    (init_state_inline_zero (ckernel_builder.ensure_capacity_leaf ⟨true, fun _ => 255⟩
      canary_builder 200).ckb (List.replicate 128 7) (by decide) (by decide)).2.2.2.2⟩

/-- C10: when the allocator fails inside `ensure_capacity_leaf` on a live
builder, the chain is destroyed once, a heap block is freed once and the
inline array is not freed, `m_data` is left null and `std::bad_alloc` is
raised; the destructor and `reset()` afterwards destroy no record and free
nothing. -/
theorem ensure_capacity_leaf_alloc_failure (a : alloc_outcome) (self : ckernel_builder)
    (r : Int) (hlive : self.m_data ≠ data_ptr.null) (hlt : self.m_capacity < r)
    (hfail : a.succeeds = false) :
    (ckernel_builder.ensure_capacity_leaf a self r).thrown = some exn.bad_alloc ∧
    (ckernel_builder.ensure_capacity_leaf a self r).ckb.m_data = data_ptr.null ∧
    (self.m_data = data_ptr.static_data →
      (ckernel_builder.ensure_capacity_leaf a self r).effects =
        [effect.destroy_chain self.m_static_data]) ∧
    (∀ block, self.m_data = data_ptr.heap block →
      (ckernel_builder.ensure_capacity_leaf a self r).effects =
        [effect.destroy_chain block, effect.std_free block]) ∧
    ckernel_builder.destruct (ckernel_builder.ensure_capacity_leaf a self r).ckb = [] ∧
    (ckernel_builder.reset (ckernel_builder.ensure_capacity_leaf a self r).ckb).effects = [] := by
  have _ := hlive
  rw [ckernel_builder.ensure_capacity_leaf_fails a self r hlt hfail]
  refine ⟨rfl, rfl, ?_, ?_, ?_, ?_⟩
  · intro hd
    simp [ckernel_builder.destroy, ckernel_builder.free, ckernel_builder.using_static_data,
      ckernel_builder.buffer, hd]
  · intro block hd
    simp [ckernel_builder.destroy, ckernel_builder.free, ckernel_builder.using_static_data,
      ckernel_builder.buffer, hd]
  · simp [ckernel_builder.destruct, ckernel_builder.destroy]
  · simp [ckernel_builder.reset, ckernel_builder.destroy]

/-- Witness of C10: a heap builder of capacity 200 fails to grow to 400; its
chain is destroyed once and its block is freed once. -/
theorem ensure_capacity_leaf_alloc_failure_witness :
    grown_builder.m_data ≠ data_ptr.null ∧ grown_builder.m_capacity < 400 ∧
    (ckernel_builder.ensure_capacity_leaf ⟨false, fun _ => 255⟩ grown_builder 400).effects =
      [effect.destroy_chain grown_builder.buffer, effect.std_free grown_builder.buffer] :=
  ⟨by decide, by decide,
    (ensure_capacity_leaf_alloc_failure ⟨false, fun _ => 255⟩ grown_builder 400
      (by decide) (by decide) rfl).2.2.2.1 grown_builder.buffer (by decide)⟩

namespace ckernel_builder

/-- The whole-array `memcpy` of `swap`. -/
theorem copy_whole (dst src : List byte) (n : Nat) (hd : dst.length = n)
    (hs : src.length = n) : copy dst src n = src := by
  unfold copy
  rw [List.drop_eq_nil_of_le (by omega), List.take_of_length_le (by omega)]
  simp

/-- The bytes behind a pointer that is not the inline array do not depend on
the inline array. -/
theorem buffer_of_not_static (x : ckernel_builder) (c : Int) (s : List byte)
    (h : ¬ x.using_static_data = true) :
    buffer { m_data := x.m_data, m_capacity := c, m_static_data := s } = x.buffer := by
  unfold buffer
  unfold using_static_data at h
  cases hd : x.m_data with
  | null => rfl
  | static_data => rw [hd] at h; exact absurd rfl h
  | heap block => rfl

/-- With 8-byte pointers `swap` exchanges capacity and buffer of two builders
whose inline arrays have the declared size and whose capacity is that size
while they use the inline array. -/
theorem swap_exchanges_of_intptr_8 (stack : Nat → byte) (self rhs : ckernel_builder)
    (h1 : self.m_static_data.length = sizeof_m_static_data)
    (h2 : rhs.m_static_data.length = sizeof_m_static_data)
    (h3 : self.using_static_data = true → self.m_capacity = sizeof_m_static_data)
    (h4 : rhs.using_static_data = true → rhs.m_capacity = sizeof_m_static_data) :
    (swap sizeof_intptr_t_64 stack self rhs).1.m_capacity = rhs.m_capacity ∧
    (swap sizeof_intptr_t_64 stack self rhs).1.buffer = rhs.buffer ∧
    (swap sizeof_intptr_t_64 stack self rhs).2.m_capacity = self.m_capacity ∧
    (swap sizeof_intptr_t_64 stack self rhs).2.buffer = self.buffer := by
  have htmp : ((List.range sizeof_m_static_data).map stack).length = sizeof_m_static_data := by
    simp
  have hc1 := copy_whole self.m_static_data rhs.m_static_data _ h1 h2
  have hc2 := copy_whole rhs.m_static_data self.m_static_data _ h2 h1
  have hc3 := copy_whole _ self.m_static_data _ htmp h1
  unfold swap
  by_cases hs : self.using_static_data = true
  · have hs2 : self.m_data = data_ptr.static_data := by
      simpa [using_static_data] using hs
    by_cases hr : rhs.using_static_data = true
    · have hr2 : rhs.m_data = data_ptr.static_data := by
        simpa [using_static_data] using hr
      rw [if_pos hs, if_pos hr]
      simp only [hc1, hc2, hc3, buffer, hs2, hr2, h3 hs, h4 hr]
      exact ⟨trivial, trivial, trivial, trivial⟩
    · rw [if_pos hs, if_neg hr]
      refine ⟨rfl, buffer_of_not_static rhs _ _ hr, ?_, ?_⟩
      · simp [sizeof_intptr_t_64, sizeof_m_static_data, h3 hs]
      · simp only [hc2, buffer, hs2]
  · by_cases hr : rhs.using_static_data = true
    · have hr2 : rhs.m_data = data_ptr.static_data := by
        simpa [using_static_data] using hr
      rw [if_neg hs, if_pos hr]
      refine ⟨?_, ?_, rfl, buffer_of_not_static self _ _ hs⟩
      · simp only [h4 hr]
      · simp only [hc1, buffer, hr2]
    · rw [if_neg hs, if_neg hr]
      exact ⟨rfl, buffer_of_not_static rhs _ _ hr, rfl, buffer_of_not_static self _ _ hs⟩

end ckernel_builder

/-- C9, on the code: with 4-byte pointers, swapping a fresh inline builder
(capacity 128) with a heap builder of capacity 200 leaves the second builder
on its 128-byte inline array with `m_capacity = 16 * sizeof(intptr_t) = 64`,
not the 128 the first builder had; swapping back does not restore it. -/
theorem swap_inline_heap_capacity_intptr_4 :
    canary_builder.using_static_data = true ∧ canary_builder.m_capacity = 128 ∧
    grown_builder.using_static_data = false ∧ grown_builder.m_capacity = 200 ∧
    (ckernel_builder.swap sizeof_intptr_t_32 zero_stack canary_builder grown_builder
      ).2.using_static_data = true ∧
    (ckernel_builder.swap sizeof_intptr_t_32 zero_stack canary_builder grown_builder
      ).2.buffer = canary_builder.buffer ∧
    (ckernel_builder.swap sizeof_intptr_t_32 zero_stack canary_builder grown_builder
      ).2.m_capacity = 64 ∧
    (ckernel_builder.swap sizeof_intptr_t_32 zero_stack grown_builder canary_builder
      ).1.m_capacity = 128 ∧
    (ckernel_builder.swap sizeof_intptr_t_32 zero_stack
      (ckernel_builder.swap sizeof_intptr_t_32 zero_stack grown_builder canary_builder).1
      (ckernel_builder.swap sizeof_intptr_t_32 zero_stack grown_builder canary_builder).2
      ).2.m_capacity = 64 :=
  ⟨by decide, by decide, by decide, by decide, by decide, by decide, by decide, by decide,
    by decide⟩

/-! ### Destruction order -/

/-- A pointer whose bytes are all zero is the null pointer. -/
theorem read_pointer_zero (buf : List byte) (size : Nat) :
    ∀ off : Nat, (∀ i, i < size → buf.getD (off + i) 0 = 0) →
      read_pointer buf off size = 0 := by
  induction size with
  | zero => intro off _; rfl
  | succ n ih =>
    intro off h
    have h0 : buf.getD off 0 = 0 := by simpa using h 0 (by omega)
    have hrest : read_pointer buf (off + 1) n = 0 := by
      apply ih
      intro i hi
      have := h (i + 1) (by omega)
      rwa [show off + 1 + i = off + (i + 1) by omega]
    simp only [read_pointer, h0, hrest]
    rfl

/-- The events of `base_ckernel_builder::destroy()` on a live builder: the
chain first, then the release of a heap block. -/
theorem destroy_events (code : code_table) (ps fuel : Nat) (self : ckernel_builder)
    (hlive : self.m_data ≠ data_ptr.null) (chain : List destruct_event)
    (hchain : ckernel_destroy code ps self.buffer fuel 0 = some chain) :
    effects_events code ps fuel (ckernel_builder.destroy self) =
      some (chain ++ if self.using_static_data = true then []
        else [destruct_event.buffer_freed]) := by
  unfold ckernel_builder.destroy ckernel_builder.free
  rw [if_pos hlive]
  by_cases hs : self.using_static_data = true
  · simp [hs, effects_events, effect.events, hchain]
  · simp [hs, effects_events, effect.events, hchain]

/-- The events of destroying a compound root, given those of its child. -/
theorem ckernel_destroy_compound (code : code_table) (ps fuel : Nat) (buf : List byte)
    (T : self_type) (n : Nat)
    (hT : T = self_type.left_compound_kernel n ∨ T = self_type.right_compound_kernel n)
    (hroot : destructor_at code ps buf 0 = some T) :
    ckernel_destroy code ps buf (fuel + 1) 0 =
      match ckernel_destroy code ps buf fuel (kernels.general_ck.get_child_ckernel 0 n) with
      | none => none
      | some children =>
        some (destruct_event.destructor_call 0 T :: children ++
          [destruct_event.destructor_body 0 T]) := by
  rcases hT with rfl | rfl
  · simp only [ckernel_destroy, hroot, kernels.general_ck.destruct,
      kernels.general_ck.destruct_children]
  · simp only [ckernel_destroy, hroot, kernels.general_ck.destruct,
      kernels.general_ck.destruct_children]

/-- C11: destroying, or resetting, a live builder whose root record is a
compound kernel (left or right) of size `n`. When the child slot at
`align8(n)` holds a constructed kernel without children of its own, the
root's destructor function is called once, then the child's, then the child's
destructor body runs, then the root's, and only then a heap buffer is freed.
When the destructor pointer of the child slot is zero-filled, the child is
skipped. This holds for every bound `fuel >= 2` on the nesting depth. -/
theorem destroy_compound_chain (code : code_table) (ps fuel : Nat) (self : ckernel_builder)
    (T : self_type) (n k : Nat) (hfuel : 2 ≤ fuel)
    (hlive : self.m_data ≠ data_ptr.null)
    (hT : T = self_type.left_compound_kernel n ∨ T = self_type.right_compound_kernel n)
    (hroot : destructor_at code ps self.buffer 0 = some T) :
    (destructor_at code ps self.buffer (kernels.general_ck.get_child_ckernel 0 n) =
        some (self_type.leaf k) →
      effects_events code ps fuel (ckernel_builder.destruct self) =
        some ([destruct_event.destructor_call 0 T,
            destruct_event.destructor_call (align_offset n) (self_type.leaf k),
            destruct_event.destructor_body (align_offset n) (self_type.leaf k),
            destruct_event.destructor_body 0 T] ++
          if self.using_static_data = true then [] else [destruct_event.buffer_freed]) ∧
      effects_events code ps fuel (ckernel_builder.reset self).effects =
        effects_events code ps fuel (ckernel_builder.destruct self)) ∧
    ((∀ i, i < ps → self.buffer.getD (align_offset n + ps + i) 0 = 0) →
      effects_events code ps fuel (ckernel_builder.destruct self) =
        some ([destruct_event.destructor_call 0 T, destruct_event.destructor_body 0 T] ++
          if self.using_static_data = true then [] else [destruct_event.buffer_freed]) ∧
      effects_events code ps fuel (ckernel_builder.reset self).effects =
        effects_events code ps fuel (ckernel_builder.destruct self)) := by
  obtain ⟨f, rfl⟩ : ∃ f, fuel = f + 2 := ⟨fuel - 2, by omega⟩
  have hc : kernels.general_ck.get_child_ckernel (0 : Int) n = ((align_offset n : Nat) : Int) := by
    simp [kernels.general_ck.get_child_ckernel, kernels.general_ck.get_child_ckernel_at,
      base_get_child_ckernel]
  have hcomp := ckernel_destroy_compound code ps (f + 1) self.buffer T n hT hroot
  refine ⟨fun hchild => ⟨?_, rfl⟩, fun hzero => ⟨?_, rfl⟩⟩
  · have hchildev : ckernel_destroy code ps self.buffer (f + 1)
        (kernels.general_ck.get_child_ckernel 0 n) =
        some [destruct_event.destructor_call (align_offset n) (self_type.leaf k),
          destruct_event.destructor_body (align_offset n) (self_type.leaf k)] := by
      rw [hc] at hchild ⊢
      simp only [ckernel_destroy, hchild, kernels.general_ck.destruct,
        kernels.general_ck.destruct_children]
      rfl
    rw [hchildev] at hcomp
    unfold ckernel_builder.destruct
    rw [destroy_events code ps (f + 2) self hlive _ hcomp]
    rfl
  · have hnull : destructor_at code ps self.buffer
        (kernels.general_ck.get_child_ckernel 0 n) = none := by
      unfold destructor_at
      rw [hc]
      have hz := read_pointer_zero self.buffer ps (align_offset n + ps) hzero
      simp only [Int.toNat_ofNat, hz, if_true]
    have hchildev : ckernel_destroy code ps self.buffer (f + 1)
        (kernels.general_ck.get_child_ckernel 0 n) = some [] := by
      simp only [ckernel_destroy, hnull]
    rw [hchildev] at hcomp
    unfold ckernel_builder.destruct
    rw [destroy_events code ps (f + 2) self hlive _ hcomp]
    rfl

/-- Witness of C11: a heap builder with a left compound root and a leaf
child, with 8-byte pointers; the child's destructor runs inside the root's,
and the block is freed last. -/
theorem destroy_compound_chain_witness :
    (2 : Nat) ≤ 5 ∧ compound_chain_builder.m_data ≠ data_ptr.null ∧
    destructor_at sample_code 8 compound_chain_builder.buffer 0 =
      some (self_type.left_compound_kernel 16) ∧
    destructor_at sample_code 8 compound_chain_builder.buffer
      (kernels.general_ck.get_child_ckernel 0 16) = some (self_type.leaf 24) ∧
    effects_events sample_code 8 5 (ckernel_builder.destruct compound_chain_builder) =
      some [destruct_event.destructor_call 0 (self_type.left_compound_kernel 16),
        destruct_event.destructor_call 16 (self_type.leaf 24),
        destruct_event.destructor_body 16 (self_type.leaf 24),
        destruct_event.destructor_body 0 (self_type.left_compound_kernel 16),
        destruct_event.buffer_freed] :=
  ⟨by decide, by decide, by decide, by decide,
    ((destroy_compound_chain sample_code 8 5 compound_chain_builder
      (self_type.left_compound_kernel 16) 16 24 (by decide) (by decide) (Or.inl rfl)
      (by decide)).1 (by decide)).1.trans (by decide)⟩

/-! ### Compound kernels -/

/-- C12: `left_compound_kernel` passes the destination as the first operand of
its binary child, so `single(dst, src)` performs `dst := child(dst, src[0])`;
`right_compound_kernel` passes it as the second, `dst := child(src[0], dst)`.
In strided mode each kernel hands the child the same operands, with their
strides, in the same order. -/
theorem compound_kernel_operands {α : Type} (child : child_ckernel α) (f : α → α → α)
    (m : memory α) (dst dst_stride : Int) (src src_stride : Nat → Int) (count : Nat) :
    (nd.functional.left_compound_kernel.single child m dst src =
        child.single m dst (array_of [dst, src 0]) ∧
      nd.functional.left_compound_kernel.single (binary_child f) m dst src =
        m.store dst (f (m dst) (m (src 0)))) ∧
    (nd.functional.right_compound_kernel.single child m dst src =
        child.single m dst (array_of [src 0, dst]) ∧
      nd.functional.right_compound_kernel.single (binary_child f) m dst src =
        m.store dst (f (m (src 0)) (m dst))) ∧
    nd.functional.left_compound_kernel.strided child m dst dst_stride src src_stride count =
      child.strided m dst dst_stride (array_of [dst, src 0])
        (array_of [dst_stride, src_stride 0]) count ∧
    nd.functional.right_compound_kernel.strided child m dst dst_stride src src_stride count =
      child.strided m dst dst_stride (array_of [src 0, dst])
        (array_of [src_stride 0, dst_stride]) count :=
  ⟨⟨rfl, rfl⟩, ⟨rfl, rfl⟩, rfl, rfl⟩

/-- C13, as stated, fails: the recurrence documented on `left_compound_kernel`
over `[10, 3, 2]` with subtraction does not yield 9, and neither does the
kernel run backward over the sequence. -/
theorem left_compound_recurrence_not_9 :
    left_compound_recurrence (fun x y : Int => x - y) [10, 3, 2] ≠ some 9 ∧
    fold_backward (nd.functional.left_compound_kernel.strided
      (binary_child (fun x y : Int => x - y))) [10, 3, 2] ≠ 9 := by
  decide

/-- C13, amended: folding subtraction over `[10, 3, 2]` with the recurrence
`dst = a[n-1]`, then `dst = dst - a[n-1-(i+1)]` walking backward, which is
documented on `left_compound_kernel` and is what the kernel computes, yields
`-11 = (2 - 3) - 10`. -/
theorem left_compound_recurrence_value :
    left_compound_recurrence (fun x y : Int => x - y) [10, 3, 2] = some (-11) ∧
    fold_backward (nd.functional.left_compound_kernel.strided
      (binary_child (fun x y : Int => x - y))) [10, 3, 2] = -11 ∧
    (-11 : Int) = (2 - 3) - 10 := by
  decide

/-- Two loops whose steps agree on every memory and index agree. -/
theorem sequential_calls_congr {α : Type} (s1 s2 : expr_single_t α)
    (dst ds : Int) (src1 ss1 src2 ss2 : Nat → Int)
    (h : ∀ (m : memory α) (i : Nat),
      s1 m (dst + i * ds) (fun j => src1 j + i * ss1 j) =
      s2 m (dst + i * ds) (fun j => src2 j + i * ss2 j)) (m : memory α) (count : Nat) :
    sequential_calls s1 m dst ds src1 ss1 count =
      sequential_calls s2 m dst ds src2 ss2 count := by
  unfold sequential_calls
  have hfun : (fun (m : memory α) (i : Nat) =>
      s1 m (dst + i * ds) (fun j => src1 j + i * ss1 j)) =
      (fun (m : memory α) (i : Nat) =>
        s2 m (dst + i * ds) (fun j => src2 j + i * ss2 j)) := by
    funext m i
    exact h m i
  rw [hfun]

/-- C14: `right_compound_kernel` with the binary child `f` is
`left_compound_kernel` with the child `flip f`, in single and in strided
mode; so the two kernels agree for a commutative child, and they differ for
subtraction folded over `[10, 3, 2]` in the same visiting order, backward and
forward. -/
theorem right_compound_is_flipped_left {α : Type} (f : α → α → α) (m : memory α)
    (dst dst_stride : Int) (src src_stride : Nat → Int) (count : Nat) :
    nd.functional.right_compound_kernel.single (binary_child f) m dst src =
      nd.functional.left_compound_kernel.single (binary_child (flip f)) m dst src ∧
    nd.functional.right_compound_kernel.strided (binary_child f) m dst dst_stride src
        src_stride count =
      nd.functional.left_compound_kernel.strided (binary_child (flip f)) m dst dst_stride src
        src_stride count ∧
    ((∀ x y, f x y = f y x) →
      nd.functional.right_compound_kernel.single (binary_child f) m dst src =
        nd.functional.left_compound_kernel.single (binary_child f) m dst src ∧
      nd.functional.right_compound_kernel.strided (binary_child f) m dst dst_stride src
          src_stride count =
        nd.functional.left_compound_kernel.strided (binary_child f) m dst dst_stride src
          src_stride count) ∧
    fold_backward (nd.functional.left_compound_kernel.strided
        (binary_child (fun x y : Int => x - y))) [10, 3, 2] ≠
      fold_backward (nd.functional.right_compound_kernel.strided
        (binary_child (fun x y : Int => x - y))) [10, 3, 2] ∧
    fold_forward (nd.functional.left_compound_kernel.strided
        (binary_child (fun x y : Int => x - y))) [10, 3, 2] ≠
      fold_forward (nd.functional.right_compound_kernel.strided
        (binary_child (fun x y : Int => x - y))) [10, 3, 2] := by
  have hstr : ∀ g : α → α → α, (∀ x y, g x y = f y x) →
      nd.functional.right_compound_kernel.strided (binary_child f) m dst dst_stride src
          src_stride count =
        nd.functional.left_compound_kernel.strided (binary_child g) m dst dst_stride src
          src_stride count := by
    intro g hg
    show sequential_calls (binary_single f) m dst dst_stride _ _ count =
      sequential_calls (binary_single g) m dst dst_stride _ _ count
    apply sequential_calls_congr
    intro m2 i
    simp only [binary_single, array_of, List.getD_cons_zero, List.getD_cons_succ, hg]
  refine ⟨rfl, hstr (flip f) (fun _ _ => rfl), ?_, by decide, by decide⟩
  intro hcomm
  refine ⟨?_, hstr f hcomm⟩
  show m.store dst (f (m (src 0)) (m dst)) = m.store dst (f (m dst) (m (src 0)))
  rw [hcomm]

/-- Witness of C14: addition is commutative, so both kernels leave the same
memory. -/
theorem right_compound_is_flipped_left_witness :
    (∀ x y : Int, x + y = y + x) ∧
    nd.functional.right_compound_kernel.single (binary_child (fun x y : Int => x + y))
        (memory.of_list [10, 3, 2]) 0 (array_of [1]) =
      nd.functional.left_compound_kernel.single (binary_child (fun x y : Int => x + y))
        (memory.of_list [10, 3, 2]) 0 (array_of [1]) :=
  ⟨Int.add_comm,
    ((right_compound_is_flipped_left (fun x y : Int => x + y) (memory.of_list [10, 3, 2])
      0 0 (array_of [1]) (array_of [1]) 1).2.2.1 Int.add_comm).1⟩

/-- A loop of stores to one address `dst`: the final `dst` is the fold over
the other operands, each read when it is visited (an operand at `dst` itself
is the current `dst`), and no other address changes. -/
theorem foldl_store_fold {α : Type} (g : α → α → α) (m : memory α) (dst : Int)
    (addr : Nat → Int) (count : Nat) :
    ((List.range count).foldl
        (fun (m : memory α) (i : Nat) => m.store dst (g (m dst) (m (addr i)))) m) dst =
      (List.range count).foldl
        (fun acc i => g acc (if addr i = dst then acc else m (addr i))) (m dst) ∧
    ∀ q, q ≠ dst →
      ((List.range count).foldl
        (fun (m : memory α) (i : Nat) => m.store dst (g (m dst) (m (addr i)))) m) q = m q := by
  induction count with
  | zero => exact ⟨rfl, fun _ _ => rfl⟩
  | succ k ih =>
    obtain ⟨ih1, ih2⟩ := ih
    rw [List.range_succ, List.foldl_append, List.foldl_append]
    simp only [List.foldl_cons, List.foldl_nil]
    constructor
    · simp only [memory.store, if_true]
      by_cases hk : addr k = dst
      · rw [if_pos hk, hk, ih1]
      · rw [if_neg hk, ih1, ih2 _ hk]
    · intro q hq
      simp only [memory.store, if_neg hq]
      exact ih2 q hq

/-- A fold whose step ignores the aliasing case when no operand is at `dst`. -/
theorem foldl_no_alias {α : Type} (g : α → α → α) (m : memory α) (dst : Int)
    (addr : Nat → Int) (count : Nat) (hne : ∀ i, i < count → addr i ≠ dst) (a : α) :
    (List.range count).foldl
        (fun acc i => g acc (if addr i = dst then acc else m (addr i))) a =
      (List.range count).foldl (fun acc i => g acc (m (addr i))) a := by
  induction count with
  | zero => rfl
  | succ k ih =>
    rw [List.range_succ, List.foldl_append, List.foldl_append, ih (fun i hi => hne i (by omega))]
    simp only [List.foldl_cons, List.foldl_nil]
    rw [if_neg (hne k (by omega))]

/-- Advancing a two-element pointer array by `i` strides. -/
theorem array_of_advance (a b sa sb i : Int) :
    (fun j : Nat => array_of [a, b] j + i * array_of [sa, sb] j) =
      array_of [a + i * sa, b + i * sb] := by
  funext j
  match j with
  | 0 => simp [array_of]
  | 1 => simp [array_of]
  | n + 2 => simp [array_of]

/-- C15: when the child's strided function is `count` sequential calls of the
child's single function at pointers advanced by the strides, the strided
function of `left_compound_kernel` and of `right_compound_kernel` is `count`
sequential calls of the kernel's own single function at
`(dst + i*dst_stride, src[0] + i*src_stride[0])`. With `dst_stride = 0` and a
binary child `f` the final `dst` is the fold of `f` over the `count` source
elements in visiting order, seeded with the initial `dst`: `dst := f(dst, x)`
for the left kernel, `dst := f(x, dst)` for the right kernel, where a source
element is read when it is visited (one at `dst` itself is the current
`dst`); when no source element is at `dst` these are the elements of the
initial memory. -/
theorem compound_strided_is_sequential {α : Type} (child : child_ckernel α)
    (f : α → α → α) (m : memory α) (dst dst_stride : Int) (src src_stride : Nat → Int)
    (count : Nat) :
    (child.strided = sequential_calls child.single →
      nd.functional.left_compound_kernel.strided child m dst dst_stride src src_stride count =
        sequential_calls (nd.functional.left_compound_kernel.single child) m dst dst_stride
          src src_stride count ∧
      nd.functional.right_compound_kernel.strided child m dst dst_stride src src_stride count =
        sequential_calls (nd.functional.right_compound_kernel.single child) m dst dst_stride
          src src_stride count) ∧
    ((nd.functional.left_compound_kernel.strided (binary_child f) m dst 0 src src_stride
          count) dst =
        (List.range count).foldl
          (fun acc (i : Nat) => f acc
            (if src 0 + (i : Int) * src_stride 0 = dst then acc
              else m (src 0 + (i : Int) * src_stride 0))) (m dst) ∧
      (nd.functional.right_compound_kernel.strided (binary_child f) m dst 0 src src_stride
          count) dst =
        (List.range count).foldl
          (fun acc (i : Nat) => f
            (if src 0 + (i : Int) * src_stride 0 = dst then acc
              else m (src 0 + (i : Int) * src_stride 0)) acc) (m dst)) ∧
    ((∀ i : Nat, i < count → src 0 + (i : Int) * src_stride 0 ≠ dst) →
      (nd.functional.left_compound_kernel.strided (binary_child f) m dst 0 src src_stride
          count) dst =
        (List.range count).foldl
          (fun acc (i : Nat) => f acc (m (src 0 + (i : Int) * src_stride 0))) (m dst) ∧
      (nd.functional.right_compound_kernel.strided (binary_child f) m dst 0 src src_stride
          count) dst =
        (List.range count).foldl
          (fun acc (i : Nat) => f (m (src 0 + (i : Int) * src_stride 0)) acc) (m dst)) := by
  have hleft : (fun (m : memory α) (i : Nat) =>
      binary_single f m (dst + (i : Int) * 0)
        (fun j => array_of [dst, src 0] j + (i : Int) * array_of [0, src_stride 0] j)) =
      (fun (m : memory α) (i : Nat) =>
        m.store dst (f (m dst) (m (src 0 + (i : Int) * src_stride 0)))) := by
    funext m2 i
    simp [binary_single, array_of]
  have hright : (fun (m : memory α) (i : Nat) =>
      binary_single f m (dst + (i : Int) * 0)
        (fun j => array_of [src 0, dst] j + (i : Int) * array_of [src_stride 0, 0] j)) =
      (fun (m : memory α) (i : Nat) =>
        m.store dst (flip f (m dst) (m (src 0 + (i : Int) * src_stride 0)))) := by
    funext m2 i
    simp [binary_single, array_of, flip]
  have hl : (nd.functional.left_compound_kernel.strided (binary_child f) m dst 0 src
      src_stride count) dst =
      (List.range count).foldl
        (fun acc (i : Nat) => f acc
          (if src 0 + (i : Int) * src_stride 0 = dst then acc
            else m (src 0 + (i : Int) * src_stride 0))) (m dst) := by
    show (List.range count).foldl _ m dst = _
    rw [hleft]
    exact (foldl_store_fold f m dst (fun i => src 0 + (i : Int) * src_stride 0) count).1
  have hr : (nd.functional.right_compound_kernel.strided (binary_child f) m dst 0 src
      src_stride count) dst =
      (List.range count).foldl
        (fun acc (i : Nat) => f
          (if src 0 + (i : Int) * src_stride 0 = dst then acc
            else m (src 0 + (i : Int) * src_stride 0)) acc) (m dst) := by
    show (List.range count).foldl _ m dst = _
    rw [hright]
    exact (foldl_store_fold (flip f) m dst (fun i => src 0 + (i : Int) * src_stride 0)
      count).1
  refine ⟨?_, ⟨hl, hr⟩, ?_⟩
  · intro h
    constructor
    · show child.strided m dst dst_stride _ _ count = _
      rw [h]
      apply sequential_calls_congr
      intro m2 i
      show child.single m2 _ _ = child.single m2 _ (array_of [_, _])
      rw [array_of_advance]
    · show child.strided m dst dst_stride _ _ count = _
      rw [h]
      apply sequential_calls_congr
      intro m2 i
      show child.single m2 _ _ = child.single m2 _ (array_of [_, _])
      rw [array_of_advance]
  · intro hne
    constructor
    · rw [hl]
      exact foldl_no_alias f m dst (fun i => src 0 + (i : Int) * src_stride 0) count hne _
    · rw [hr]
      exact foldl_no_alias (flip f) m dst (fun i => src 0 + (i : Int) * src_stride 0) count
        hne _

/-- Witness of C15: the binary child for subtraction has a sequential strided
function, and the left kernel run backward over `[10, 3, 2]` from the seed 2
folds `(2 - 3) - 10`. -/
theorem compound_strided_is_sequential_witness :
    (binary_child (fun x y : Int => x - y)).strided =
      sequential_calls (binary_child (fun x y : Int => x - y)).single ∧
    nd.functional.left_compound_kernel.strided (binary_child (fun x y : Int => x - y))
        ((memory.of_list [10, 3, 2]).store 3 2) 3 0 (array_of [1]) (array_of [-1]) 2 =
      sequential_calls (nd.functional.left_compound_kernel.single
          (binary_child (fun x y : Int => x - y)))
        ((memory.of_list [10, 3, 2]).store 3 2) 3 0 (array_of [1]) (array_of [-1]) 2 :=
  ⟨rfl,
    ((compound_strided_is_sequential (binary_child (fun x y : Int => x - y))
      (fun x y : Int => x - y) ((memory.of_list [10, 3, 2]).store 3 2) 3 0
      (array_of [1]) (array_of [-1]) 2).1 rfl).1⟩

/-! ### Dispatch callables -/

namespace dispatcher

end dispatcher

/-- C17, as stated, fails: in the sample registry the id 3 is a sub-kind of
the kind 2; with one overload, registered under the kind-level key 2,
specializing with the id 3, under which no overload was registered, raises
nothing and returns the callable of the key 2. -/
theorem specialize_unregistered_returns_kind :
    is_a sample_infos 3 2 = true ∧
    (nd.min_dispatch_callable.overload (⟨⟨[]⟩⟩ : nd.min_dispatch_callable String) ⟨0, 0⟩ 1
      (fun _ => ⟨2, 0⟩) "kind").m_dispatcher.pairs = [(2, "kind")] ∧
    nd.min_dispatch_callable.specialize sample_infos
      (nd.min_dispatch_callable.overload ⟨⟨[]⟩⟩ ⟨0, 0⟩ 1 (fun _ => ⟨2, 0⟩) "kind")
      ⟨0, 0⟩ 1 (fun _ => ⟨3, 0⟩) = Except.ok "kind" ∧
    nd.uniform_dispatch_callable.specialize sample_infos
      (nd.uniform_dispatch_callable.overload ⟨⟨[]⟩⟩ ⟨2, 0⟩ 1 (fun _ => ⟨0, 0⟩) "kind")
      ⟨3, 0⟩ 1 (fun _ => ⟨0, 0⟩) = Except.ok "kind" := by
  decide

/-- C17, amended: specializing a dispatch callable with a designated type id
that matches no registered key, neither a key equal to the id nor a
kind-level key the id is a sub-kind of, raises a `NoOverloadError` naming the
attempted id; and a callable that is returned is always one registered under
a key the id matches, never a default callable or another key's. -/
theorem specialize_no_match_raises {callable : Type} (infos : List id_info)
    (dmin : nd.min_dispatch_callable callable) (duni : nd.uniform_dispatch_callable callable)
    (dst : ndt.type) (nsrc : Int) (src : Nat → ndt.type) :
    ((∀ p ∈ dmin.m_dispatcher.pairs, is_a infos (src 0).get_id p.1 = false) →
      nd.min_dispatch_callable.specialize infos dmin dst nsrc src =
        Except.error { attempted := (src 0).get_id }) ∧
    ((∀ p ∈ duni.m_dispatcher.pairs, is_a infos dst.get_id p.1 = false) →
      nd.uniform_dispatch_callable.specialize infos duni dst nsrc src =
        Except.error { attempted := dst.get_id }) ∧
    (∀ c, nd.min_dispatch_callable.specialize infos dmin dst nsrc src = Except.ok c →
      ∃ p ∈ dmin.m_dispatcher.pairs, p.2 = c ∧ is_a infos (src 0).get_id p.1 = true) ∧
    (∀ c, nd.uniform_dispatch_callable.specialize infos duni dst nsrc src = Except.ok c →
      ∃ p ∈ duni.m_dispatcher.pairs, p.2 = c ∧ is_a infos dst.get_id p.1 = true) := by
  have hmiss : ∀ (d : dispatcher callable) (id : Nat),
      (∀ p ∈ d.pairs, is_a infos id p.1 = false) →
      d.call infos id = Except.error { attempted := id } := by
    intro d id h
    have h1 : d.pairs.find? (fun p => p.1 == id) = none := by
      rw [List.find?_eq_none]
      intro p hp he
      have hk : p.1 = id := by simpa using he
      have := h p hp
      simp [is_a, hk] at this
    have h2 : d.pairs.find? (fun p => is_a infos id p.1) = none := by
      rw [List.find?_eq_none]
      intro p hp he
      rw [h p hp] at he
      cases he
    simp only [dispatcher.call, h1, h2]
  have hhit : ∀ (d : dispatcher callable) (id : Nat) (c : callable),
      d.call infos id = Except.ok c →
      ∃ p ∈ d.pairs, p.2 = c ∧ is_a infos id p.1 = true := by
    intro d id c h
    unfold dispatcher.call at h
    cases h1 : d.pairs.find? (fun p => p.1 == id) with
    | some p =>
      simp only [h1] at h
      have hp := List.find?_some (p := fun q : Nat × callable => q.1 == id) h1
      have hk : p.1 = id := by simpa using hp
      refine ⟨p, List.mem_of_find?_eq_some h1, Except.ok.inj h, ?_⟩
      simp [is_a, hk]
    | none =>
      simp only [h1] at h
      cases h2 : d.pairs.find? (fun p => is_a infos id p.1) with
      | some p =>
        simp only [h2] at h
        exact ⟨p, List.mem_of_find?_eq_some h2, Except.ok.inj h,
          List.find?_some (p := fun q : Nat × callable => is_a infos id q.1) h2⟩
      | none =>
        simp only [h2] at h
        cases h
  exact ⟨hmiss _ _, hmiss _ _, hhit _ _, hhit _ _⟩

/-- Witness of C17 amended: with overloads under the ids 3 and 2 only,
specializing with the id 1, which is neither of them nor a sub-kind of
either, raises the error naming 1. -/
theorem specialize_no_match_raises_witness :
    (∀ p ∈ (⟨⟨[(3, "a"), (2, "b")]⟩⟩ : nd.min_dispatch_callable String).m_dispatcher.pairs,
      is_a sample_infos 1 p.1 = false) ∧
    nd.min_dispatch_callable.specialize sample_infos
      (⟨⟨[(3, "a"), (2, "b")]⟩⟩ : nd.min_dispatch_callable String) ⟨0, 0⟩ 1
      (fun _ => ⟨1, 0⟩) = Except.error { attempted := 1 } :=
  ⟨by decide,
    (specialize_no_match_raises sample_infos
      (⟨⟨[(3, "a"), (2, "b")]⟩⟩ : nd.min_dispatch_callable String) ⟨⟨[]⟩⟩ ⟨0, 0⟩ 1
      (fun _ => ⟨1, 0⟩)).1 (by decide)⟩

/-! ### Type registry -/

/-- The `push_back` loop of `new_id` copies the base's list behind the base. -/
theorem push_back_loop (l init : List Nat) :
    l.foldl (fun base_ids id => base_ids ++ [id]) init = init ++ l := by
  induction l generalizing init with
  | nil => simp
  | cons a rest ih =>
    simp only [List.foldl_cons]
    rw [ih]
    simp

/-- The result of `new_id` for a registered base. -/
theorem new_id_eq (infos : List id_info) (base_id : Nat) (base_info : id_info)
    (h : infos[base_id]? = some base_info) :
    new_id infos base_id =
      some (infos.length,
        infos ++ [{ id := infos.length, base_ids := base_id :: base_info.base_ids }]) := by
  unfold new_id
  simp only [h, push_back_loop]
  rfl

/-- A sequence of `new_id` calls whose bases are registered when they are
used returns consecutive ids, starting at the size of the table. -/
theorem new_ids_consecutive (bases : List Nat) :
    ∀ infos : List id_info,
      (∀ (i : Nat) (h : i < bases.length), bases[i] < infos.length + i) →
      ∃ final, new_ids infos bases = some (List.range' infos.length bases.length, final) ∧
        final.length = infos.length + bases.length ∧
        final.take infos.length = infos := by
  induction bases with
  | nil =>
    intro infos _
    exact ⟨infos, rfl, by simp, by simp⟩
  | cons b rest ih =>
    intro infos h
    have hb : b < infos.length := by simpa using h 0 (by simp)
    have hget : infos[b]? = some infos[b] := List.getElem?_eq_getElem hb
    have hrest : ∀ (i : Nat) (hi : i < rest.length),
        rest[i] < (infos ++ [id_info.mk infos.length (b :: infos[b].base_ids)]).length + i := by
      intro i hi
      have := h (i + 1) (by simp; omega)
      simp only [List.getElem_cons_succ] at this
      simp only [List.length_append, List.length_singleton]
      omega
    obtain ⟨final, hf1, hf2, hf3⟩ := ih _ hrest
    refine ⟨final, ?_, ?_, ?_⟩
    · simp only [new_ids, new_id_eq infos b _ hget, hf1, List.length_append,
        List.length_singleton, List.length_cons, List.range'_succ, List.length_nil,
        Nat.zero_add]
    · rw [hf2]
      simp only [List.length_append, List.length_cons, List.length_nil]
      omega
    · have := congrArg (List.take infos.length) hf3
      simp only [List.take_take, List.length_append, List.length_singleton] at this
      rw [min_eq_left (by omega)] at this
      rw [this, List.take_append_of_le_length (le_refl _), List.take_length]

/-- C18: `new_id(base)` on a table of size `n` with `base < n` returns `n` and
appends exactly one entry, whose id is `n` and whose ancestor list is `base`
followed by the ancestor list recorded for `base`, in order; every existing
entry stays as it is. Starting from the initial two-entry table, a sequence
of such calls returns the ids 2, 3, 4, ... consecutively. -/
theorem new_id_appends (infos : List id_info) (base_id any_kind_id : Nat)
    (bases : List Nat) (hbase : base_id < infos.length) :
    (∃ base_info, infos[base_id]? = some base_info ∧
      new_id infos base_id =
        some (infos.length,
          infos ++ [{ id := infos.length, base_ids := base_id :: base_info.base_ids }])) ∧
    (∀ (id : Nat) (after : List id_info), new_id infos base_id = some (id, after) →
      id = infos.length ∧ after.length = infos.length + 1 ∧
      ∀ i, i < infos.length → after[i]? = infos[i]?) ∧
    (detail.infos any_kind_id).length = 2 ∧
    ((∀ (i : Nat) (h : i < bases.length), bases[i] < 2 + i) →
      ∃ final, new_ids (detail.infos any_kind_id) bases =
        some (List.range' 2 bases.length, final)) := by
  have hget : infos[base_id]? = some infos[base_id] := List.getElem?_eq_getElem hbase
  have heq := new_id_eq infos base_id _ hget
  refine ⟨⟨_, hget, heq⟩, ?_, rfl, ?_⟩
  · intro id after h
    rw [heq] at h
    obtain ⟨rfl, rfl⟩ := Prod.mk.inj (Option.some.inj h)
    refine ⟨rfl, by simp, ?_⟩
    intro i hi
    exact List.getElem?_append_left hi
  · intro h
    obtain ⟨final, hf, _, _⟩ := new_ids_consecutive bases (detail.infos any_kind_id) h
    exact ⟨final, hf⟩

/-- Witness of C18: on the initial table, `new_id(any_kind_id)` with
`any_kind_id = 1` returns 2 and appends the entry `(2, [1])`. -/
theorem new_id_appends_witness :
    (1 : Nat) < (detail.infos 1).length ∧
    new_id (detail.infos 1) 1 =
      some (2, detail.infos 1 ++ [{ id := 2, base_ids := [1] }]) := by
  refine ⟨by decide, ?_⟩
  obtain ⟨base_info, h1, h2⟩ := (new_id_appends (detail.infos 1) 1 1 [] (by decide)).1
  rw [h2]
  have : base_info = { id := 1, base_ids := [] } := by
    have h3 : (detail.infos 1)[1]? = some { id := 1, base_ids := [] } := by decide
    rw [h3] at h1
    exact (Option.some.inj h1).symm
  rw [this]
  rfl

/-! ### Pointer dtype -/

/-- C19: constructing `pointer_dtype(target)` fails if and only if the
target's kind is `expression_kind` and its type id is not `pointer_type_id`.
On success the pointer dtype has type id `pointer_type_id`, data size and
alignment `sizeof(void *)`, the number of uniform dimensions of its target,
and the target itself; so it is a valid target again (pointer to pointer),
while every other expression-kind target is rejected. -/
theorem pointer_dtype_make_iff (builtin_kinds : type_id_t → dtype_kind_t)
    (sizeof_void_ptr : Nat) (target : dtype) :
    (raises (pointer_dtype.make builtin_kinds sizeof_void_ptr target) = true ↔
      (target.get_kind builtin_kinds = dtype_kind_t.expression_kind ∧
        target.get_type_id ≠ type_id_t.pointer_type_id)) ∧
    (∀ p, pointer_dtype.make builtin_kinds sizeof_void_ptr target = Except.ok p →
      p.base.m_type_id = type_id_t.pointer_type_id ∧
      p.base.m_data_size = sizeof_void_ptr ∧ p.base.m_alignment = sizeof_void_ptr ∧
      p.to_dtype.get_undim = target.get_undim ∧ p.m_target_dtype = target ∧
      raises (pointer_dtype.make builtin_kinds sizeof_void_ptr p.to_dtype) = false) ∧
    (target.get_kind builtin_kinds = dtype_kind_t.expression_kind →
      target.get_type_id ≠ type_id_t.pointer_type_id →
      pointer_dtype.make builtin_kinds sizeof_void_ptr target =
        Except.error (runtime_error.pointer_target_is_expression target)) := by
  by_cases h : target.get_kind builtin_kinds = dtype_kind_t.expression_kind ∧
      target.get_type_id ≠ type_id_t.pointer_type_id
  · have hm : pointer_dtype.make builtin_kinds sizeof_void_ptr target =
        Except.error (runtime_error.pointer_target_is_expression target) := by
      unfold pointer_dtype.make
      simp only [if_pos h]
    refine ⟨?_, ?_, fun _ _ => hm⟩
    · rw [hm]
      exact ⟨fun _ => h, fun _ => rfl⟩
    · intro p hp
      rw [hm] at hp
      cases hp
  · have hm : pointer_dtype.make builtin_kinds sizeof_void_ptr target =
        Except.ok
          { base :=
              { m_type_id := type_id_t.pointer_type_id
                m_kind := dtype_kind_t.expression_kind
                m_data_size := sizeof_void_ptr
                m_alignment := sizeof_void_ptr
                m_undim := target.get_undim }
            m_target_dtype := target } := by
      unfold pointer_dtype.make
      simp only [if_neg h]
    refine ⟨?_, ?_, fun h1 h2 => absurd ⟨h1, h2⟩ h⟩
    · rw [hm]
      exact ⟨fun hr => (by cases hr), fun hc => absurd hc h⟩
    · intro p hp
      rw [hm] at hp
      cases hp
      refine ⟨rfl, rfl, rfl, rfl, rfl, ?_⟩
      unfold pointer_dtype.make
      simp [pointer_dtype.to_dtype, dtype.get_type_id, raises]

/-- Witness of C19: an extended dtype of expression kind that is not a
pointer is rejected as a target. -/
theorem pointer_dtype_make_iff_witness :
    (dtype.extended ⟨type_id_t.other_type_id 40, dtype_kind_t.expression_kind, 4, 4, 0⟩ 0
      ).get_kind sample_builtin_kinds = dtype_kind_t.expression_kind ∧
    (dtype.extended ⟨type_id_t.other_type_id 40, dtype_kind_t.expression_kind, 4, 4, 0⟩ 0
      ).get_type_id ≠ type_id_t.pointer_type_id ∧
    pointer_dtype.make sample_builtin_kinds 8
      (dtype.extended ⟨type_id_t.other_type_id 40, dtype_kind_t.expression_kind, 4, 4, 0⟩ 0) =
      Except.error (runtime_error.pointer_target_is_expression
        (dtype.extended ⟨type_id_t.other_type_id 40, dtype_kind_t.expression_kind, 4, 4, 0⟩
          0)) :=
  ⟨by decide, by decide,
    (pointer_dtype_make_iff sample_builtin_kinds 8
      (dtype.extended ⟨type_id_t.other_type_id 40, dtype_kind_t.expression_kind, 4, 4, 0⟩
        0)).2.2 (by decide) (by decide)⟩

/-- C20: for every target type `T`, `get_canonical_dtype()` of `pointer<T>`
returns exactly `T`; for `pointer<int32>` it is `int32`. -/
theorem pointer_canonical_is_target (builtin_kinds : type_id_t → dtype_kind_t)
    (sizeof_void_ptr : Nat) (T : dtype) (p : pointer_dtype)
    (hp : pointer_dtype.make builtin_kinds sizeof_void_ptr T = Except.ok p)
    (hint : builtin_kinds type_id_t.int32_type_id ≠ dtype_kind_t.expression_kind) :
    p.get_canonical_dtype = T ∧
    ∃ q, pointer_dtype.make builtin_kinds sizeof_void_ptr
        (dtype.builtin type_id_t.int32_type_id) = Except.ok q ∧
      q.get_canonical_dtype = dtype.builtin type_id_t.int32_type_id := by
  have hcan : ∀ (T2 : dtype) (p2 : pointer_dtype),
      pointer_dtype.make builtin_kinds sizeof_void_ptr T2 = Except.ok p2 →
      p2.get_canonical_dtype = T2 := by
    intro T2 p2 h
    unfold pointer_dtype.make at h
    split at h
    · cases h
    · cases h
      rfl
  refine ⟨hcan T p hp, ?_⟩
  have hmk : ∃ q, pointer_dtype.make builtin_kinds sizeof_void_ptr
      (dtype.builtin type_id_t.int32_type_id) = Except.ok q := by
    unfold pointer_dtype.make
    have hk : ¬ ((dtype.builtin type_id_t.int32_type_id).get_kind builtin_kinds =
        dtype_kind_t.expression_kind ∧
        (dtype.builtin type_id_t.int32_type_id).get_type_id ≠ type_id_t.pointer_type_id) :=
      fun h => hint h.1
    simp only [if_neg hk]
    exact ⟨_, rfl⟩
  obtain ⟨q, hq⟩ := hmk
  exact ⟨q, hq, hcan _ q hq⟩

/-- Witness of C20: the canonical dtype of `pointer<pointer<int32>>` is
`pointer<int32>`, its target. -/
theorem pointer_canonical_is_target_witness :
    pointer_dtype.make sample_builtin_kinds 8
        (dtype.pointer ⟨type_id_t.pointer_type_id, dtype_kind_t.expression_kind, 8, 8, 0⟩
          (dtype.builtin type_id_t.int32_type_id)) =
      Except.ok ⟨⟨type_id_t.pointer_type_id, dtype_kind_t.expression_kind, 8, 8, 0⟩,
        dtype.pointer ⟨type_id_t.pointer_type_id, dtype_kind_t.expression_kind, 8, 8, 0⟩
          (dtype.builtin type_id_t.int32_type_id)⟩ ∧
    sample_builtin_kinds type_id_t.int32_type_id ≠ dtype_kind_t.expression_kind ∧
    pointer_dtype.get_canonical_dtype
        ⟨⟨type_id_t.pointer_type_id, dtype_kind_t.expression_kind, 8, 8, 0⟩,
          dtype.pointer ⟨type_id_t.pointer_type_id, dtype_kind_t.expression_kind, 8, 8, 0⟩
            (dtype.builtin type_id_t.int32_type_id)⟩ =
      dtype.pointer ⟨type_id_t.pointer_type_id, dtype_kind_t.expression_kind, 8, 8, 0⟩
        (dtype.builtin type_id_t.int32_type_id) :=
  ⟨by decide, by decide,
    (pointer_canonical_is_target sample_builtin_kinds 8
      (dtype.pointer ⟨type_id_t.pointer_type_id, dtype_kind_t.expression_kind, 8, 8, 0⟩
        (dtype.builtin type_id_t.int32_type_id))
      ⟨⟨type_id_t.pointer_type_id, dtype_kind_t.expression_kind, 8, 8, 0⟩,
        dtype.pointer ⟨type_id_t.pointer_type_id, dtype_kind_t.expression_kind, 8, 8, 0⟩
          (dtype.builtin type_id_t.int32_type_id)⟩ (by decide) (by decide)).1⟩


/-! ### irange -/

/-- C28: for all integers `start`, `finish`, `step`, the three-argument
constructor is total and the accessors return exactly those values;
`irange(idx)` has start = finish = `idx` and step 0; the default `irange()`
has start `INTPTR_MIN`, finish `INTPTR_MAX` and step 1. -/
theorem irange_constructors_store (bits : Nat) (start finish step idx : Int) :
    (irange.make_range start finish step).start = start ∧
    (irange.make_range start finish step).finish = finish ∧
    (irange.make_range start finish step).step = step ∧
    (irange.make_index idx).start = idx ∧
    (irange.make_index idx).finish = idx ∧
    (irange.make_index idx).step = 0 ∧
    (irange.make bits).start = intptr_min bits ∧
    (irange.make bits).finish = intptr_max bits ∧
    (irange.make bits).step = 1 ∧
    (irange.make 64).start = -9223372036854775808 ∧
    (irange.make 64).finish = 9223372036854775807 ∧
    (irange.make 32).start = -2147483648 ∧
    (irange.make 32).finish = 2147483647 :=
  ⟨rfl, rfl, rfl, rfl, rfl, rfl, rfl, rfl, rfl, by decide, by decide, by decide, by decide⟩

/-- C29: the fluent notations build the documented ranges. With `a + 1` and
`a - 1` representable, `(a <= irange()) < b` is `irange(a, b, 1)`,
`(a < irange()) < b` is `irange(a + 1, b, 1)` and `(a <= irange() / s) < b` is
`irange(a, b, s)`; on any range `i`, `operator/` changes only the step, the
right-hand `<` and `>` only the finish, the left-hand comparisons only the
start. `2 <= irange() < 10` is (2, 10, 1), `1 < irange() < 5` is (2, 5, 1),
and `3 <= irange() / 2 < 10` is (3, 10, 2) with the indices 3, 5, 7, 9. -/
theorem irange_fluent_ranges (bits : Nat) (a b s : Int) (i : irange)
    (hup : a + 1 ≤ intptr_max bits) (hdown : intptr_min bits ≤ a - 1) :
    (irange.le_left a (irange.make bits)).lt b = irange.make_range a b 1 ∧
    (irange.lt_left bits a (irange.make bits)).map (fun r => r.lt b) =
      some (irange.make_range (a + 1) b 1) ∧
    (irange.le_left a ((irange.make bits).div s)).lt b = irange.make_range a b s ∧
    i.div s = { i with m_step := s } ∧
    i.lt b = { i with m_finish := b } ∧
    i.gt b = { i with m_finish := b } ∧
    irange.le_left a i = { i with m_start := a } ∧
    irange.ge_left a i = { i with m_start := a } ∧
    irange.lt_left bits a i = some { i with m_start := a + 1 } ∧
    irange.gt_left bits a i = some { i with m_start := a - 1 } ∧
    (irange.le_left 2 (irange.make bits)).lt 10 = irange.make_range 2 10 1 ∧
    (irange.lt_left 64 1 (irange.make 64)).map (fun r => r.lt 5) =
      some (irange.make_range 2 5 1) ∧
    (irange.le_left 3 ((irange.make bits).div 2)).lt 10 = irange.make_range 3 10 2 ∧
    (irange.make_range 3 10 2).indices = [3, 5, 7, 9] := by
  refine ⟨rfl, ?_, rfl, rfl, rfl, rfl, rfl, rfl, ?_, ?_, rfl, by decide, rfl, by decide⟩
  · simp only [irange.lt_left, if_pos hup, Option.map_some']
    rfl
  · simp only [irange.lt_left, if_pos hup]
    rfl
  · simp only [irange.gt_left, if_pos hdown]
    rfl

/-- Witness of C29 at `a = 1`, `b = 5`, `s = 2` on a 64-bit `intptr_t`. -/
theorem irange_fluent_ranges_witness :
    (1 : Int) + 1 ≤ intptr_max 64 ∧ intptr_min 64 ≤ (1 : Int) - 1 ∧
    (irange.le_left 1 (irange.make 64)).lt 5 = irange.make_range 1 5 1 ∧
    (irange.lt_left 64 1 (irange.make 64)).map (fun r => r.lt 5) =
      some (irange.make_range (1 + 1) 5 1) ∧
    (irange.le_left 1 ((irange.make 64).div 2)).lt 5 = irange.make_range 1 5 2 :=
  ⟨by decide, by decide,
    (irange_fluent_ranges 64 1 5 2 (irange.make 64) (by decide) (by decide)).1,
    (irange_fluent_ranges 64 1 5 2 (irange.make 64) (by decide) (by decide)).2.1,
    (irange_fluent_ranges 64 1 5 2 (irange.make 64) (by decide) (by decide)).2.2.1⟩

/-! ### is_valid_perm -/

/-- The loop of `is_valid_perm`, started at `i` with the flags of the entries
before `i` set, returns whether all entries are in `[0, size)` and pairwise
different. -/
theorem is_valid_perm_loop_spec (size : Nat) (perm : Nat → Int)
    (hsize : (size : Int) ≤ 2147483648)
    (hint : ∀ i, i < size → -2147483648 ≤ perm i ∧ perm i < 2147483648) :
    ∀ (remaining i : Nat) (flags : List Int), i + remaining = size →
      flags.length = size →
      (∀ k, k < size → ∃ f, flags[k]? = some f ∧
        (f ≠ 0 ↔ ∃ j, j < i ∧ perm j = (k : Int))) →
      (∀ j, j < i → 0 ≤ perm j ∧ perm j < (size : Int)) →
      (∀ j j2, j < j2 → j2 < i → perm j ≠ perm j2) →
      ∃ b, is_valid_perm_loop size perm remaining i flags = some b ∧
        (b = true ↔ (∀ j, j < size → 0 ≤ perm j ∧ perm j < (size : Int)) ∧
          (∀ j j2, j < j2 → j2 < size → perm j ≠ perm j2)) := by
  intro remaining
  induction remaining with
  | zero =>
    intro i flags hi _ _ hrange hdist
    have : i = size := by omega
    subst this
    exact ⟨true, rfl, fun _ => ⟨hrange, hdist⟩, fun _ => rfl⟩
  | succ n ih =>
    intro i flags hi hlen hflags hrange hdist
    have hilt : i < size := by omega
    obtain ⟨hlo, hhi⟩ := hint i hilt
    unfold is_valid_perm_loop
    simp only []
    by_cases h1 : to_unsigned_int (perm i) ≥ size
    · rw [if_pos h1]
      refine ⟨false, rfl, ?_⟩
      constructor
      · intro h; cases h
      · intro ⟨hr, _⟩
        exfalso
        obtain ⟨h0, hs⟩ := hr i hilt
        unfold to_unsigned_int at h1
        omega
    · rw [if_neg h1]
      have hnn : ¬ perm i < 0 := by
        intro hneg
        unfold to_unsigned_int at h1
        omega
      rw [if_neg hnn]
      have hvlt : (perm i).toNat < size := by
        unfold to_unsigned_int at h1
        omega
      have hveq : ((perm i).toNat : Int) = perm i := by omega
      obtain ⟨f, hf, hfiff⟩ := hflags (perm i).toNat hvlt
      rw [hf]
      simp only []
      by_cases h2 : f ≠ 0
      · rw [if_pos h2]
        refine ⟨false, rfl, ?_⟩
        constructor
        · intro h; cases h
        · intro ⟨_, hd⟩
          exfalso
          obtain ⟨j, hj, hpj⟩ := hfiff.1 h2
          exact hd j i hj hilt (by rw [hpj, hveq])
      · rw [if_neg h2]
        have hnot : ¬ ∃ j, j < i ∧ perm j = ((perm i).toNat : Int) :=
          fun hex => h2 (hfiff.2 hex)
        apply ih (i + 1) (flags.set (perm i).toNat 1) (by omega)
          (by rw [List.length_set]; exact hlen)
        · intro k hk
          by_cases hkv : (perm i).toNat = k
          · subst hkv
            refine ⟨1, ?_, ?_⟩
            · rw [List.getElem?_set_self (by omega)]
            · constructor
              · intro _
                exact ⟨i, by omega, hveq.symm⟩
              · intro _
                decide
          · obtain ⟨g, hg, hgiff⟩ := hflags k hk
            refine ⟨g, ?_, ?_⟩
            · rw [List.getElem?_set_ne hkv]
              exact hg
            · rw [hgiff]
              constructor
              · rintro ⟨j, hj, hpj⟩
                exact ⟨j, by omega, hpj⟩
              · rintro ⟨j, hj, hpj⟩
                have hji : j ≠ i := by
                  intro hji
                  subst hji
                  apply hkv
                  omega
                exact ⟨j, by omega, hpj⟩
        · intro j hj
          by_cases hji : j = i
          · subst hji
            omega
          · exact hrange j (by omega)
        · intro j j2 hjj hj2
          by_cases hji : j2 = i
          · subst hji
            intro heq
            exact hnot ⟨j, hjj, by rw [heq, hveq]⟩
          · exact hdist j j2 hjj (by omega)

/-- A sequence of `size` entries in `[0, size)` that are pairwise different
contains every value of `[0, size)` exactly once, and conversely. -/
theorem in_range_distinct_iff_each_once (size : Nat) (perm : Nat → Int) :
    ((∀ j, j < size → 0 ≤ perm j ∧ perm j < (size : Int)) ∧
      (∀ j j2, j < j2 → j2 < size → perm j ≠ perm j2)) ↔
    ∀ k : Nat, k < size → ∃! i : Nat, i < size ∧ perm i = (k : Int) := by
  constructor
  · rintro ⟨hr, hd⟩
    have hinj : ∀ i j, i < size → j < size → perm i = perm j → i = j := by
      intro i j hi hj heq
      rcases Nat.lt_trichotomy i j with h | h | h
      · exact absurd heq (hd i j h hj)
      · exact h
      · exact absurd heq.symm (hd j i h hi)
    let f : Fin size → Fin size := fun i =>
      ⟨(perm i.1).toNat, by have := hr i.1 i.2; omega⟩
    have hf : Function.Injective f := by
      intro a b hab
      have h1 : (perm a.1).toNat = (perm b.1).toNat := congrArg Fin.val hab
      have ha := hr a.1 a.2
      have hb := hr b.1 b.2
      exact Fin.ext (hinj a.1 b.1 a.2 b.2 (by omega))
    have hs : Function.Surjective f := Finite.injective_iff_surjective.mp hf
    intro k hk
    obtain ⟨i, hi⟩ := hs ⟨k, hk⟩
    have h1 : (perm i.1).toNat = k := congrArg Fin.val hi
    have hri := hr i.1 i.2
    have hpi : perm i.1 = (k : Int) := by omega
    refine ⟨i.1, ⟨i.2, hpi⟩, ?_⟩
    rintro y ⟨hy, hpy⟩
    exact hinj y i.1 hy i.2 (by rw [hpy, hpi])
  · intro hP
    have hex : ∀ k : Fin size, ∃ i : Fin size, perm i.1 = (k.1 : Int) := by
      intro k
      obtain ⟨i, ⟨hi, hpi⟩, _⟩ := hP k.1 k.2
      exact ⟨⟨i, hi⟩, hpi⟩
    choose g hg using hex
    have hginj : Function.Injective g := by
      intro a b hab
      have h1 := hg a
      have h2 := hg b
      rw [hab] at h1
      exact Fin.ext (by omega)
    have hgs : Function.Surjective g := Finite.injective_iff_surjective.mp hginj
    have hr : ∀ j, j < size → 0 ≤ perm j ∧ perm j < (size : Int) := by
      intro j hj
      obtain ⟨k, hk⟩ := hgs ⟨j, hj⟩
      have h1 := hg k
      rw [hk] at h1
      have := k.2
      simp only [] at h1
      omega
    refine ⟨hr, ?_⟩
    intro j j2 hjj hj2 heq
    have hj : j < size := by omega
    obtain ⟨h0, hs⟩ := hr j hj
    obtain ⟨i, _, huniq⟩ := hP (perm j).toNat (by omega)
    have e1 : j = i := huniq j ⟨hj, by omega⟩
    have e2 : j2 = i := huniq j2 ⟨hj2, by omega⟩
    omega

/-- C30: for a permutation array of at most 2^31 `int` entries,
`is_valid_perm(size, perm)` returns a value, which is true if and only if
`perm[0..size)` contains every value of `[0, size)` exactly once; it is false
when an entry is negative, is at least `size`, or is repeated. -/
theorem is_valid_perm_iff_permutation (size : Nat) (perm : Nat → Int)
    (hsize : (size : Int) ≤ 2147483648)
    (hint : ∀ i, i < size → -2147483648 ≤ perm i ∧ perm i < 2147483648) :
    ∃ b, is_valid_perm size perm = some b ∧
      (b = true ↔ ∀ k : Nat, k < size → ∃! i : Nat, i < size ∧ perm i = (k : Int)) ∧
      ((∃ i, i < size ∧ (perm i < 0 ∨ (size : Int) ≤ perm i)) → b = false) ∧
      ((∃ i j, i < j ∧ j < size ∧ perm i = perm j) → b = false) := by
  obtain ⟨b, hb, hiff⟩ := is_valid_perm_loop_spec size perm hsize hint size 0
    (List.replicate size 0) (by omega) (by simp)
    (by
      intro k hk
      refine ⟨0, ?_, ?_⟩
      · rw [List.getElem?_replicate, if_pos hk]
      · constructor
        · intro h; exact absurd rfl h
        · rintro ⟨j, hj, _⟩; omega)
    (by intro j hj; omega) (by intro j j2 _ hj2; omega)
  refine ⟨b, hb, ?_, ?_, ?_⟩
  · rw [hiff]
    exact in_range_distinct_iff_each_once size perm
  · rintro ⟨i, hi, hbad⟩
    cases b
    · rfl
    · exfalso
      have := (hiff.1 rfl).1 i hi
      omega
  · rintro ⟨i, j, hij, hj, heq⟩
    cases b
    · rfl
    · exact absurd heq ((hiff.1 rfl).2 i j hij hj)

/-- C30 on the arrays `{2, 0, 1}`, a permutation, and `{0, -1, 1}`,
`{0, 3, 1}`, `{1, 0, 1}`, which are not. -/
theorem is_valid_perm_iff_permutation_witness :
    ((3 : Nat) : Int) ≤ 2147483648 ∧
    (∀ i, i < 3 → -2147483648 ≤ array_of [2, 0, 1] i ∧ array_of [2, 0, 1] i < 2147483648) ∧
    (∀ k : Nat, k < 3 → ∃! i : Nat, i < 3 ∧ array_of [2, 0, 1] i = (k : Int)) ∧
    is_valid_perm 3 (array_of [2, 0, 1]) = some true ∧
    is_valid_perm 3 (array_of [0, -1, 1]) = some false ∧
    is_valid_perm 3 (array_of [0, 3, 1]) = some false ∧
    is_valid_perm 3 (array_of [1, 0, 1]) = some false := by
  have hb : ∀ i, i < 3 →
      -2147483648 ≤ array_of [2, 0, 1] i ∧ array_of [2, 0, 1] i < 2147483648 := by
    intro i hi
    interval_cases i <;> decide
  obtain ⟨b, hb1, hb2, _, _⟩ :=
    is_valid_perm_iff_permutation 3 (array_of [2, 0, 1]) (by decide) hb
  have hbt : b = true := by
    have h : is_valid_perm 3 (array_of [2, 0, 1]) = some true := by decide
    rw [h] at hb1
    exact (Option.some.inj hb1).symm
  exact ⟨by decide, hb, hb2.1 hbt, by decide, by decide, by decide, by decide⟩

/-! ### dnd dtype: constructors and the type string -/

/-- No search over `0 .. count` finds a match when the predicate holds
nowhere below `count`. -/
theorem find_range_none (p : Nat → Bool) (count : Nat) (hp : ∀ j, j < count → p j = false) :
    (List.range count).find? p = none := by
  rw [List.find?_eq_none]
  intro x hx
  rw [List.mem_range] at hx
  rw [hp x hx]
  exact Bool.false_ne_true

/-- The first-match search over `0 .. count` finds `id` when the predicate
holds at `id < count` and at no smaller index. -/
theorem find_range_first (p : Nat → Bool) (count id : Nat) (hid : id < count)
    (hp : p id = true) (hfirst : ∀ j, j < id → p j = false) :
    (List.range count).find? p = some id := by
  induction count with
  | zero => omega
  | succ n ih =>
    rw [List.range_succ, List.find?_append]
    by_cases h : id < n
    · rw [ih h]
      rfl
    · have hn : id = n := by omega
      subst hn
      rw [find_range_none p id hfirst, Option.none_or, List.find?_cons, hp]

/-- C27: for every builtin fixed-size scalar type id, `dtype(id)` has that
type id, the matching kind, no extended data (it is builtin), and alignment
and itemsize both equal to the size of the C type. -/
theorem dtype_basic_constructor (hpp : dnd.dtype_hpp) :
    dnd.dtype.make hpp dnd.bool_type_id =
      Except.ok ⟨dnd.bool_type_id, dtype_kind_t.bool_kind, 1, 1, none⟩ ∧
    dnd.dtype.make hpp dnd.int8_type_id =
      Except.ok ⟨dnd.int8_type_id, dtype_kind_t.int_kind, 1, 1, none⟩ ∧
    dnd.dtype.make hpp dnd.int16_type_id =
      Except.ok ⟨dnd.int16_type_id, dtype_kind_t.int_kind, 2, 2, none⟩ ∧
    dnd.dtype.make hpp dnd.int32_type_id =
      Except.ok ⟨dnd.int32_type_id, dtype_kind_t.int_kind, 4, 4, none⟩ ∧
    dnd.dtype.make hpp dnd.int64_type_id =
      Except.ok ⟨dnd.int64_type_id, dtype_kind_t.int_kind, 8, 8, none⟩ ∧
    dnd.dtype.make hpp dnd.uint8_type_id =
      Except.ok ⟨dnd.uint8_type_id, dtype_kind_t.uint_kind, 1, 1, none⟩ ∧
    dnd.dtype.make hpp dnd.uint16_type_id =
      Except.ok ⟨dnd.uint16_type_id, dtype_kind_t.uint_kind, 2, 2, none⟩ ∧
    dnd.dtype.make hpp dnd.uint32_type_id =
      Except.ok ⟨dnd.uint32_type_id, dtype_kind_t.uint_kind, 4, 4, none⟩ ∧
    dnd.dtype.make hpp dnd.uint64_type_id =
      Except.ok ⟨dnd.uint64_type_id, dtype_kind_t.uint_kind, 8, 8, none⟩ ∧
    dnd.dtype.make hpp dnd.float32_type_id =
      Except.ok ⟨dnd.float32_type_id, dtype_kind_t.real_kind, 4, 4, none⟩ ∧
    dnd.dtype.make hpp dnd.float64_type_id =
      Except.ok ⟨dnd.float64_type_id, dtype_kind_t.real_kind, 8, 8, none⟩ :=
  ⟨rfl, rfl, rfl, rfl, rfl, rfl, rfl, rfl, rfl, rfl, rfl⟩

/-- The string constructor on the name in row `id` of `type_id_names`, when no
earlier row has the same name and `id` is below `builtin_type_id_count`. -/
theorem dnd.dtype.of_string_name (hpp : dnd.dtype_hpp) (id : Nat) (rep : String)
    (hid : id < hpp.builtin_type_id_count)
    (hname : dnd.type_id_names.getD id "" = rep)
    (hfirst : ∀ j, j < id → dnd.type_id_names.getD j "" ≠ rep) :
    dnd.dtype.of_string hpp rep =
      Except.ok
        { m_type_id := (id : Int)
          m_kind := (dnd.info_row hpp id).kind
          m_alignment := (dnd.info_row hpp id).alignment
          m_itemsize := (dnd.info_row hpp id).itemsize
          m_data := none } := by
  unfold dnd.dtype.of_string
  rw [find_range_first _ hpp.builtin_type_id_count id hid]
  · exact decide_eq_true hname.symm
  · intro j hj
    exact decide_eq_false (fun h => hfirst j hj h.symm)

/-- The round trip through the type string for a dtype `d` that prints as the
name in row `id` of `type_id_names` and holds the values of row `id` of
`basic_type_id_info`. -/
theorem dnd.dtype.round_trip_row (hpp : dnd.dtype_hpp) (extended_print : Nat → String)
    (id : Nat) (name : String) (d : dnd.dtype)
    (hid : id < hpp.builtin_type_id_count)
    (hmake : dnd.dtype.make hpp (id : Int) = Except.ok d)
    (hprint : dnd.dtype.print hpp extended_print d = name)
    (hname : dnd.type_id_names.getD id "" = name)
    (hfirst : ∀ j, j < id → dnd.type_id_names.getD j "" ≠ name)
    (hd : d = { m_type_id := (id : Int)
                m_kind := (dnd.info_row hpp id).kind
                m_alignment := (dnd.info_row hpp id).alignment
                m_itemsize := (dnd.info_row hpp id).itemsize
                m_data := none }) :
    ∃ d, dnd.dtype.make hpp (id : Int) = Except.ok d ∧ d.m_type_id = (id : Int) ∧
      dnd.dtype.of_string hpp (dnd.dtype.print hpp extended_print d) = Except.ok d := by
  refine ⟨d, hmake, ?_, ?_⟩
  · rw [hd]
  · rw [hprint, dnd.dtype.of_string_name hpp id name hid hname hfirst, hd]

/-- The round trip through the type string for the thirteen scalar ids, when
they are among the ids that the string constructor searches. -/
theorem dnd.dtype.scalar_round_trip (hpp : dnd.dtype_hpp) (extended_print : Nat → String)
    (id : Nat) (hcount : 13 ≤ hpp.builtin_type_id_count) (hid : id ≤ 12) :
    ∃ d, dnd.dtype.make hpp (id : Int) = Except.ok d ∧ d.m_type_id = (id : Int) ∧
      dnd.dtype.of_string hpp (dnd.dtype.print hpp extended_print d) = Except.ok d := by
  interval_cases id
  · exact dnd.dtype.round_trip_row hpp extended_print 0 "bool" _ (by omega) rfl rfl
      (by decide) (by decide) rfl
  · exact dnd.dtype.round_trip_row hpp extended_print 1 "int8" _ (by omega) rfl rfl
      (by decide) (by decide) rfl
  · exact dnd.dtype.round_trip_row hpp extended_print 2 "int16" _ (by omega) rfl rfl
      (by decide) (by decide) rfl
  · exact dnd.dtype.round_trip_row hpp extended_print 3 "int32" _ (by omega) rfl rfl
      (by decide) (by decide) rfl
  · exact dnd.dtype.round_trip_row hpp extended_print 4 "int64" _ (by omega) rfl rfl
      (by decide) (by decide) rfl
  · exact dnd.dtype.round_trip_row hpp extended_print 5 "uint8" _ (by omega) rfl rfl
      (by decide) (by decide) rfl
  · exact dnd.dtype.round_trip_row hpp extended_print 6 "uint16" _ (by omega) rfl rfl
      (by decide) (by decide) rfl
  · exact dnd.dtype.round_trip_row hpp extended_print 7 "uint32" _ (by omega) rfl rfl
      (by decide) (by decide) rfl
  · exact dnd.dtype.round_trip_row hpp extended_print 8 "uint64" _ (by omega) rfl rfl
      (by decide) (by decide) rfl
  · exact dnd.dtype.round_trip_row hpp extended_print 9 "float32" _ (by omega) rfl rfl
      (by decide) (by decide) rfl
  · exact dnd.dtype.round_trip_row hpp extended_print 10 "float64" _ (by omega) rfl rfl
      (by decide) (by decide) rfl
  · exact dnd.dtype.round_trip_row hpp extended_print 11 "complex<float32>" _ (by omega) rfl rfl
      (by decide) (by decide) rfl
  · exact dnd.dtype.round_trip_row hpp extended_print 12 "complex<float64>" _ (by omega) rfl rfl
      (by decide) (by decide) rfl

/-- C25: with the thirteen scalar ids among the builtin ids, for every scalar
type id (`bool` to `complex<float64>`) the string constructor applied to the
text that `operator<<` prints for `dtype(id)` succeeds and yields a dtype with
the same type id, kind, alignment and itemsize: the same dtype. -/
theorem scalar_type_string_round_trip (hpp : dnd.dtype_hpp) (extended_print : Nat → String)
    (id : Nat) (hcount : 13 ≤ hpp.builtin_type_id_count) (hid : id ≤ 12) :
    ∃ d d2, dnd.dtype.make hpp (id : Int) = Except.ok d ∧
      dnd.dtype.of_string hpp (dnd.dtype.print hpp extended_print d) = Except.ok d2 ∧
      d.m_type_id = (id : Int) ∧ d2.m_type_id = d.m_type_id ∧ d2.m_kind = d.m_kind ∧
      d2.m_alignment = d.m_alignment ∧ d2.m_itemsize = d.m_itemsize ∧ d2 = d := by
  obtain ⟨d, hmake, htype, hround⟩ :=
    dnd.dtype.scalar_round_trip hpp extended_print id hcount hid
  exact ⟨d, d, hmake, hround, htype, rfl, rfl, rfl, rfl, rfl⟩

/-- Witness of C25 at `int32_type_id` with thirteen builtin ids. -/
theorem scalar_type_string_round_trip_witness :
    13 ≤ dnd.sample_hpp.builtin_type_id_count ∧ (3 : Nat) ≤ 12 ∧
    ∃ d d2, dnd.dtype.make dnd.sample_hpp ((3 : Nat) : Int) = Except.ok d ∧
      dnd.dtype.of_string dnd.sample_hpp (dnd.dtype.print dnd.sample_hpp (fun _ => "") d) =
        Except.ok d2 ∧
      d.m_type_id = ((3 : Nat) : Int) ∧ d2.m_type_id = d.m_type_id ∧ d2.m_kind = d.m_kind ∧
      d2.m_alignment = d.m_alignment ∧ d2.m_itemsize = d.m_itemsize ∧ d2 = d :=
  ⟨by decide, by decide,
    scalar_type_string_round_trip dnd.sample_hpp (fun _ => "") 3 (by decide) (by decide)⟩

/-- Every row of `type_id_names`, and the empty string read past its
initializer, either does not start with `u` or has no `<`, and has no
comma. -/
theorem dnd.type_id_names_shape (j : Nat) :
    ¬ ((dnd.type_id_names.getD j "").data.head? = some 'u' ∧
        '<' ∈ (dnd.type_id_names.getD j "").data) ∧
    ',' ∉ (dnd.type_id_names.getD j "").data := by
  have hall : ∀ name ∈ dnd.type_id_names,
      ¬ (name.data.head? = some 'u' ∧ '<' ∈ name.data) ∧ ',' ∉ name.data := by
    decide
  rw [List.getD_eq_getElem?_getD]
  cases h : dnd.type_id_names[j]? with
  | none => decide
  | some name => exact hall name (List.mem_iff_getElem?.mpr ⟨j, h⟩)

/-- The string constructor rejects every text that starts with `u` and has a
`<`, and every text that has a comma. -/
theorem dnd.dtype.of_string_rejects (hpp : dnd.dtype_hpp) (rep : String)
    (h : (rep.data.head? = some 'u' ∧ '<' ∈ rep.data) ∨ ',' ∈ rep.data) :
    dnd.dtype.of_string hpp rep =
      Except.error (dnd.exception.runtime_error ("invalid type string \"" ++ rep ++ "\"")) := by
  unfold dnd.dtype.of_string
  rw [find_range_none]
  intro j _
  apply decide_eq_false
  intro heq
  have hs := dnd.type_id_names_shape j
  rw [← heq] at hs
  rcases h with h | h
  · exact hs.1 h
  · exact hs.2 h

/-- C26, as stated, fails: `dtype(utf8_type_id, 5)` is a builtin dtype that
prints as `utf8<5>`, and the string constructor, which only compares its
argument with the rows of `type_id_names`, throws on that text, with 13 and
with all 64 rows searched. -/
theorem utf8_sized_string_is_rejected :
    dnd.dtype.make_sized dnd.sample_hpp dnd.utf8_type_id 5 =
      Except.ok ⟨dnd.utf8_type_id, dtype_kind_t.string_kind, 1, 5, none⟩ ∧
    dnd.dtype.print dnd.sample_hpp (fun _ => "")
      ⟨dnd.utf8_type_id, dtype_kind_t.string_kind, 1, 5, none⟩ = "utf8<5>" ∧
    dnd.dtype.of_string dnd.sample_hpp "utf8<5>" =
      Except.error (dnd.exception.runtime_error "invalid type string \"utf8<5>\"") ∧
    dnd.dtype.of_string { dnd.sample_hpp with builtin_type_id_count := 64 } "utf8<5>" =
      Except.error (dnd.exception.runtime_error "invalid type string \"utf8<5>\"") := by
  decide

/-- C26, amended: the round trip through the type string is exact for the
builtin dtypes whose printed text is a row of `type_id_names` among the ids
searched, the scalar ids and `utf8` with itemsize 0; for `utf8` with a
non-zero itemsize `N`, printed `utf8<N>`, and for a dtype with
`bytes_type_id`, printed `bytes<size,align>`, the string constructor throws
`std::runtime_error`. -/
theorem type_string_round_trip_named_only (hpp : dnd.dtype_hpp)
    (extended_print : Nat → String) (N : Int) (d : dnd.dtype)
    (hN : N ≠ 0) (hd : d.m_type_id = hpp.bytes_type_id)
    (hbytes : hpp.bytes_type_id < 0 ∨ 13 < hpp.bytes_type_id) :
    (13 ≤ hpp.builtin_type_id_count → ∀ id : Nat, id ≤ 12 →
      ∃ d0, dnd.dtype.make hpp (id : Int) = Except.ok d0 ∧ d0.m_type_id = (id : Int) ∧
        dnd.dtype.of_string hpp (dnd.dtype.print hpp extended_print d0) = Except.ok d0) ∧
    (14 ≤ hpp.builtin_type_id_count →
      dnd.dtype.of_string hpp (dnd.dtype.print hpp extended_print
        ⟨dnd.utf8_type_id, dtype_kind_t.string_kind, 1, 0, none⟩) =
        Except.ok ⟨dnd.utf8_type_id, dtype_kind_t.string_kind, 1, 0, none⟩) ∧
    dnd.dtype.make_sized hpp dnd.utf8_type_id N =
      Except.ok ⟨dnd.utf8_type_id, dtype_kind_t.string_kind, 1, N, none⟩ ∧
    dnd.dtype.print hpp extended_print
      ⟨dnd.utf8_type_id, dtype_kind_t.string_kind, 1, N, none⟩ =
      "utf8<" ++ toString N ++ ">" ∧
    dnd.dtype.of_string hpp (dnd.dtype.print hpp extended_print
      ⟨dnd.utf8_type_id, dtype_kind_t.string_kind, 1, N, none⟩) =
      Except.error (dnd.exception.runtime_error
        ("invalid type string \"" ++ ("utf8<" ++ toString N ++ ">") ++ "\"")) ∧
    dnd.dtype.print hpp extended_print d =
      "bytes<" ++ toString d.m_itemsize ++ "," ++ toString d.m_alignment ++ ">" ∧
    dnd.dtype.of_string hpp (dnd.dtype.print hpp extended_print d) =
      Except.error (dnd.exception.runtime_error
        ("invalid type string \"" ++
          ("bytes<" ++ toString d.m_itemsize ++ "," ++ toString d.m_alignment ++ ">") ++
          "\"")) := by
  have hprintN : dnd.dtype.print hpp extended_print
      ⟨dnd.utf8_type_id, dtype_kind_t.string_kind, 1, N, none⟩ =
      "utf8<" ++ toString N ++ ">" := by
    unfold dnd.dtype.print
    simp only []
    repeat rw [if_neg (by decide)]
    rw [if_pos trivial, if_neg hN]
  have hprintd : dnd.dtype.print hpp extended_print d =
      "bytes<" ++ toString d.m_itemsize ++ "," ++ toString d.m_alignment ++ ">" := by
    unfold dnd.dtype.print
    rw [hd]
    simp only [dnd.bool_type_id, dnd.int8_type_id, dnd.int16_type_id, dnd.int32_type_id,
      dnd.int64_type_id, dnd.uint8_type_id, dnd.uint16_type_id, dnd.uint32_type_id,
      dnd.uint64_type_id, dnd.float32_type_id, dnd.float64_type_id,
      dnd.complex_float32_type_id, dnd.complex_float64_type_id, dnd.utf8_type_id]
    repeat rw [if_neg (by omega)]
    rw [if_pos trivial]
  refine ⟨?_, ?_, ?_, hprintN, ?_, hprintd, ?_⟩
  · intro h13 id hid
    exact dnd.dtype.scalar_round_trip hpp extended_print id h13 hid
  · intro h14
    exact (dnd.dtype.of_string_name hpp 13 "utf8" (by omega) (by decide) (by decide)).trans rfl
  · unfold dnd.dtype.make_sized
    have hm : dnd.dtype.make hpp dnd.utf8_type_id =
        Except.ok ⟨dnd.utf8_type_id, dtype_kind_t.string_kind, 1, 0, none⟩ := rfl
    rw [hm]
    simp only []
    rw [if_neg (by decide)]
  · rw [hprintN]
    apply dnd.dtype.of_string_rejects
    left
    simp only [String.data_append]
    exact ⟨rfl, by simp⟩
  · rw [hprintd]
    apply dnd.dtype.of_string_rejects
    right
    simp only [String.data_append]
    simp

/-- Witness of the amended C26 with `N = 5` and a 16-byte `bytes` dtype. -/
theorem type_string_round_trip_named_only_witness :
    (5 : Int) ≠ 0 ∧
    (⟨14, dtype_kind_t.other_kind 0, 1, 16, none⟩ : dnd.dtype).m_type_id =
      dnd.sample_hpp.bytes_type_id ∧
    (dnd.sample_hpp.bytes_type_id < 0 ∨ 13 < dnd.sample_hpp.bytes_type_id) ∧
    dnd.dtype.of_string dnd.sample_hpp (dnd.dtype.print dnd.sample_hpp (fun _ => "")
      ⟨dnd.utf8_type_id, dtype_kind_t.string_kind, 1, 5, none⟩) =
      Except.error (dnd.exception.runtime_error
        ("invalid type string \"" ++ ("utf8<" ++ toString (5 : Int) ++ ">") ++ "\"")) :=
  ⟨by decide, rfl, by decide,
    (type_string_round_trip_named_only dnd.sample_hpp (fun _ => "") 5
      ⟨14, dtype_kind_t.other_kind 0, 1, 16, none⟩ (by decide) rfl (by decide)).2.2.2.2.1⟩

/-! ### Pointer dtype: indexing, metadata, equality -/

/-- With no indices on a leading dimension, indexing a dtype is indexing the
dtype under all its leading pointers. -/
theorem dtype.apply_linear_index_strips (builtin_kinds : type_id_t → dtype_kind_t)
    (sizeof_void_ptr : Nat) (same_object : dtype → dtype → Bool)
    (extended_eq : base_dtype → Nat → dtype → Bool)
    (leaf : dtype → Int → List irange → Int → dtype → Bool → Except index_exception dtype)
    (current_i : Int) (root_dt : dtype) (d : dtype) :
    dtype.apply_linear_index builtin_kinds sizeof_void_ptr same_object extended_eq leaf
      d 0 [] current_i root_dt true = leaf d.strip_pointers 0 [] current_i root_dt true ∧
    d.strip_pointers.is_pointer = false := by
  induction d with
  | builtin type_id => exact ⟨rfl, rfl⟩
  | extended base payload => exact ⟨rfl, rfl⟩
  | pointer base target ih =>
    refine ⟨?_, ih.2⟩
    unfold dtype.apply_linear_index
    rw [if_pos rfl, if_pos rfl]
    exact ih.1

/-- C21: on a leading dimension the type-level `apply_linear_index` of
`pointer<T>` never keeps the pointer: with zero indices it returns what `T`
returns for zero indices, which is `int32` for `pointer<int32>` and the result
of the dtype under all the leading pointers for nested pointers; with `n > 0`
indices it returns exactly what `T` returns for them. Off a leading dimension,
with zero indices, it returns the pointer dtype itself. -/
theorem pointer_apply_linear_index_leading (builtin_kinds : type_id_t → dtype_kind_t)
    (sizeof_void_ptr : Nat) (same_object : dtype → dtype → Bool)
    (extended_eq : base_dtype → Nat → dtype → Bool)
    (leaf : dtype → Int → List irange → Int → dtype → Bool → Except index_exception dtype)
    (base : base_dtype) (T : dtype) (nindices : Int) (indices : List irange)
    (current_i : Int) (root_dt : dtype)
    (hn : 0 < nindices)
    (hint32 : leaf (dtype.builtin type_id_t.int32_type_id) 0 [] current_i root_dt true =
      Except.ok (dtype.builtin type_id_t.int32_type_id)) :
    dtype.apply_linear_index builtin_kinds sizeof_void_ptr same_object extended_eq leaf
      (dtype.pointer base T) 0 indices current_i root_dt true =
      dtype.apply_linear_index builtin_kinds sizeof_void_ptr same_object extended_eq leaf
        T 0 [] current_i root_dt true ∧
    dtype.apply_linear_index builtin_kinds sizeof_void_ptr same_object extended_eq leaf
      (dtype.pointer base (dtype.builtin type_id_t.int32_type_id)) 0 indices current_i
      root_dt true = Except.ok (dtype.builtin type_id_t.int32_type_id) ∧
    dtype.apply_linear_index builtin_kinds sizeof_void_ptr same_object extended_eq leaf
      (dtype.pointer base T) 0 indices current_i root_dt true =
      leaf (dtype.pointer base T).strip_pointers 0 [] current_i root_dt true ∧
    (dtype.pointer base T).strip_pointers.is_pointer = false ∧
    dtype.apply_linear_index builtin_kinds sizeof_void_ptr same_object extended_eq leaf
      (dtype.pointer base T) nindices indices current_i root_dt true =
      dtype.apply_linear_index builtin_kinds sizeof_void_ptr same_object extended_eq leaf
        T nindices indices current_i root_dt true ∧
    dtype.apply_linear_index builtin_kinds sizeof_void_ptr same_object extended_eq leaf
      (dtype.pointer base T) 0 indices current_i root_dt false =
      Except.ok (dtype.pointer base T) := by
  have hzero : ∀ T2 : dtype,
      dtype.apply_linear_index builtin_kinds sizeof_void_ptr same_object extended_eq leaf
        (dtype.pointer base T2) 0 indices current_i root_dt true =
      dtype.apply_linear_index builtin_kinds sizeof_void_ptr same_object extended_eq leaf
        T2 0 [] current_i root_dt true := by
    intro T2
    conv_lhs => unfold dtype.apply_linear_index
    rw [if_pos rfl, if_pos rfl]
  refine ⟨hzero T, ?_, ?_, ?_, ?_, ?_⟩
  · rw [hzero]
    exact hint32
  · rw [hzero]
    exact (dtype.apply_linear_index_strips builtin_kinds sizeof_void_ptr same_object
      extended_eq leaf current_i root_dt T).1
  · exact (dtype.apply_linear_index_strips builtin_kinds sizeof_void_ptr same_object
      extended_eq leaf current_i root_dt T).2
  · conv_lhs => unfold dtype.apply_linear_index
    rw [if_neg (by omega)]
    cases dtype.apply_linear_index builtin_kinds sizeof_void_ptr same_object extended_eq
      leaf T nindices indices current_i root_dt true with
    | error e => rfl
    | ok dt => rfl
  · conv_lhs => unfold dtype.apply_linear_index
    rw [if_pos rfl]
    rfl

/-- Witness of C21 on `pointer<pointer<int32>>` with two indices. -/
theorem pointer_apply_linear_index_leading_witness :
    (0 : Int) < 2 ∧
    sample_leaf_apply_linear_index (dtype.builtin type_id_t.int32_type_id) 0 [] 0
      (dtype.builtin type_id_t.int32_type_id) true =
      Except.ok (dtype.builtin type_id_t.int32_type_id) ∧
    dtype.apply_linear_index sample_builtin_kinds 8 (fun _ _ => false) (fun _ _ _ => false)
      sample_leaf_apply_linear_index
      (dtype.pointer sample_pointer_base
        (dtype.pointer sample_pointer_base (dtype.builtin type_id_t.int32_type_id)))
      0 [irange.make_index 1, irange.make_index 2] 0
      (dtype.builtin type_id_t.int32_type_id) true =
      sample_leaf_apply_linear_index (dtype.builtin type_id_t.int32_type_id) 0 [] 0
        (dtype.builtin type_id_t.int32_type_id) true :=
  ⟨by decide, rfl,
    (pointer_apply_linear_index_leading sample_builtin_kinds 8 (fun _ _ => false)
      (fun _ _ _ => false) sample_leaf_apply_linear_index sample_pointer_base
      (dtype.pointer sample_pointer_base (dtype.builtin type_id_t.int32_type_id)) 2
      [irange.make_index 1, irange.make_index 2] 0 (dtype.builtin type_id_t.int32_type_id)
      (by decide) rfl).2.2.1⟩

/-- C22: `metadata_copy_construct` of `pointer<T>`, on a source record `s` and
a separate destination record, with the block it refers to in the memory:
the destination gets the `blockref` of the source when that is not null and
`embedded_reference` when it is, and the offset of the source; the use count
of that block goes up by exactly one and no other block changes; the source
record and every record but the destination are unchanged; and the function
goes on with the same call on `T`, on the records right after the two pointer
records, which does nothing when `T` is builtin. -/
theorem pointer_metadata_copy_construct (sizeof_metadata : Int)
    (extended_copy_construct :
      base_dtype → Nat → metadata_memory → Int → Int → Int → Option metadata_memory)
    (base : base_dtype) (T : dtype) (mem : metadata_memory)
    (dst_metadata src_metadata embedded_reference : Int)
    (s g : pointer_dtype_metadata) (b : memory_block_data)
    (hsrc : mem.records src_metadata = some s)
    (hdst : mem.records dst_metadata = some g)
    (hne : dst_metadata ≠ src_metadata)
    (hblock : mem.blocks (if s.blockref ≠ 0 then s.blockref else embedded_reference) =
      some b) :
    ∃ mem3 : metadata_memory,
      dtype.metadata_copy_construct sizeof_metadata extended_copy_construct
        (dtype.pointer base T) mem dst_metadata src_metadata embedded_reference =
        dtype.metadata_copy_construct sizeof_metadata extended_copy_construct T mem3
          (dst_metadata + sizeof_metadata) (src_metadata + sizeof_metadata)
          embedded_reference ∧
      (∀ type_id, T = dtype.builtin type_id →
        dtype.metadata_copy_construct sizeof_metadata extended_copy_construct
          (dtype.pointer base T) mem dst_metadata src_metadata embedded_reference =
          some mem3) ∧
      mem3.records dst_metadata =
        some ⟨if s.blockref ≠ 0 then s.blockref else embedded_reference, s.offset⟩ ∧
      mem3.records src_metadata = some s ∧
      (∀ a, a ≠ dst_metadata → mem3.records a = mem.records a) ∧
      mem3.blocks (if s.blockref ≠ 0 then s.blockref else embedded_reference) =
        some { b with m_use_count := b.m_use_count + 1 } ∧
      (∀ a, a ≠ (if s.blockref ≠ 0 then s.blockref else embedded_reference) →
        mem3.blocks a = mem.blocks a) := by
  generalize hc : (if s.blockref ≠ 0 then s.blockref else embedded_reference) = chosen
    at hblock
  let mem3 : metadata_memory :=
    { blocks := fun a =>
        if a = chosen then some { b with m_use_count := b.m_use_count + 1 } else mem.blocks a
      records := fun a =>
        if a = dst_metadata then some ⟨chosen, s.offset⟩ else mem.records a }
  have hrun : dtype.metadata_copy_construct sizeof_metadata extended_copy_construct
      (dtype.pointer base T) mem dst_metadata src_metadata embedded_reference =
      dtype.metadata_copy_construct sizeof_metadata extended_copy_construct T mem3
        (dst_metadata + sizeof_metadata) (src_metadata + sizeof_metadata)
        embedded_reference := by
    conv_lhs => unfold dtype.metadata_copy_construct
    simp only [hsrc, hc, metadata_memory.set_blockref, hdst, if_pos, memory_block_incref,
      hblock, if_neg hne.symm, metadata_memory.set_offset]
    congr 1
    show metadata_memory.mk _ _ = metadata_memory.mk _ _
    congr 1
    funext a
    by_cases ha : a = dst_metadata
    · simp only [ha, if_pos]
    · simp only [if_neg ha]
  refine ⟨mem3, hrun, ?_, ?_, ?_, ?_, ?_, ?_⟩
  · intro type_id hT
    rw [hrun, hT]
    rfl
  · show (if dst_metadata = dst_metadata then _ else _) = _
    rw [if_pos rfl]
  · show (if src_metadata = dst_metadata then _ else _) = _
    rw [if_neg hne.symm, hsrc]
  · intro a ha
    show (if a = dst_metadata then _ else _) = _
    rw [if_neg ha]
  · show (if chosen = chosen then _ else _) = _
    rw [if_pos rfl]
  · intro a ha
    show (if a = chosen then _ else _) = _
    rw [if_neg ha]

/-- Witness of C22: copying the record at 4096, whose `blockref` is null, to
the record at 4112 with the block at 8192 as `embedded_reference` stores
`(8192, 24)` and raises the use count of the block from 1 to 2. -/
theorem pointer_metadata_copy_construct_witness :
    sample_metadata_memory.records 4096 = some ⟨0, 24⟩ ∧
    sample_metadata_memory.records 4112 = some ⟨8192, 0⟩ ∧
    (4112 : Int) ≠ 4096 ∧
    sample_metadata_memory.blocks 8192 =
      some ⟨1, memory_block_type_t.pod_memory_block_type⟩ ∧
    ∃ mem3 : metadata_memory,
      dtype.metadata_copy_construct 16 (fun _ _ _ _ _ _ => none)
        (dtype.pointer sample_pointer_base (dtype.builtin type_id_t.int32_type_id))
        sample_metadata_memory 4112 4096 8192 = some mem3 ∧
      mem3.records 4112 = some ⟨8192, 24⟩ ∧
      mem3.records 4096 = some ⟨0, 24⟩ ∧
      mem3.blocks 8192 = some ⟨2, memory_block_type_t.pod_memory_block_type⟩ := by
  obtain ⟨mem3, _, hb, hd, hs, _, hblk, _⟩ :=
    pointer_metadata_copy_construct 16 (fun _ _ _ _ _ _ => none) sample_pointer_base
      (dtype.builtin type_id_t.int32_type_id) sample_metadata_memory 4112 4096 8192
      ⟨0, 24⟩ ⟨8192, 0⟩ ⟨1, memory_block_type_t.pod_memory_block_type⟩ rfl rfl (by decide) rfl
  exact ⟨rfl, rfl, by decide, rfl, mem3, hb _ rfl, hd, hs, hblk⟩

/-- C23, on the code: `is_unique_data_owner` does not read the record at
`metadata`. For the record at 4096, whose `blockref` is null, and for the
record at 4112, whose block has use count 1 and is a POD block, the claim
gives true; the code takes the first `char` of the record, 0 in both, as the
address of the record and reads `md->blockref` at the null address, which has
no defined result. -/
theorem is_unique_data_owner_reads_null :
    sample_metadata_memory.records 4096 = some ⟨0, 24⟩ ∧
    first_char_little_endian ⟨0, 24⟩ = 0 ∧
    sample_metadata_memory.records 0 = none ∧
    pointer_dtype.is_unique_data_owner first_char_little_endian sample_metadata_memory
      4096 = none ∧
    sample_metadata_memory.records 4112 = some ⟨8192, 0⟩ ∧
    sample_metadata_memory.blocks 8192 =
      some ⟨1, memory_block_type_t.pod_memory_block_type⟩ ∧
    first_char_little_endian ⟨8192, 0⟩ = 0 ∧
    pointer_dtype.is_unique_data_owner first_char_little_endian sample_metadata_memory
      4112 = none := by
  decide

/-- Under `==` a constructed pointer-era dtype is equal to exactly the dtypes
of the same shape, when the objects of the other classes compare so. -/
theorem dtype.eq_iff_same_dtype (sizeof_void_ptr : Nat) (same_object : dtype → dtype → Bool)
    (extended_eq : base_dtype → Nat → dtype → Bool)
    (hsame : ∀ a b, same_object a b = true → a = b)
    (hext : ∀ base payload rhs,
      extended_eq base payload rhs = true ↔ rhs = dtype.extended base payload)
    (a : dtype) :
    ∀ b : dtype, a.constructed sizeof_void_ptr → b.constructed sizeof_void_ptr →
      (dtype.eq same_object extended_eq a b = true ↔ a = b) := by
  induction a with
  | builtin type_id =>
    intro b _ _
    cases b with
    | builtin r => simp [dtype.eq]
    | pointer rbase rtarget => simp [dtype.eq]
    | extended rbase rpayload => simp [dtype.eq]
  | extended base payload =>
    intro b _ _
    cases b with
    | builtin r => simp [dtype.eq]
    | pointer rbase rtarget =>
      simp only [dtype.eq]
      rw [hext]
      exact eq_comm
    | extended rbase rpayload =>
      simp only [dtype.eq]
      rw [hext]
      exact eq_comm
  | pointer base target ih =>
    intro b ha hb
    cases b with
    | builtin r => simp [dtype.eq]
    | extended rbase rpayload =>
      have hns : same_object (dtype.pointer base target) (dtype.extended rbase rpayload) =
          false := by
        cases h : same_object (dtype.pointer base target) (dtype.extended rbase rpayload)
        · rfl
        · exact absurd (hsame _ _ h) (by simp)
      simp [dtype.eq, hns]
    | pointer rbase rtarget =>
      obtain ⟨hbase, hta⟩ := ha
      obtain ⟨hrbase, htb⟩ := hb
      have hid : rbase.m_type_id = type_id_t.pointer_type_id := by rw [hrbase]
      unfold dtype.eq
      simp only []
      constructor
      · intro h
        by_cases hs : same_object (dtype.pointer base target) (dtype.pointer rbase rtarget) =
            true
        · exact hsame _ _ hs
        · rw [if_neg hs, if_neg (by simp [hid])] at h
          have ht : target = rtarget := (ih rtarget hta htb).1 h
          subst ht
          rw [hbase, hrbase]
      · intro h
        by_cases hs : same_object (dtype.pointer base target) (dtype.pointer rbase rtarget) =
            true
        · rw [if_pos hs]
        · rw [if_neg hs, if_neg (by simp [hid])]
          have ht : target = rtarget := by
            injection h
          exact (ih rtarget hta htb).2 ht

mutual

/-- Under `==` a tuple-era type is equal to exactly the types of the same
shape, when the objects of the other classes compare so. -/
theorem types.type.eq_iff_same_type (same_object : types.type → types.type → Bool)
    (other_eq : types.type_id_t → Nat → types.type → Bool)
    (hsame : ∀ a b, same_object a b = true → a = b)
    (hother : ∀ type_id payload rhs,
      other_eq type_id payload rhs = true ↔ rhs = types.type.other type_id payload) :
    ∀ a b : types.type, (types.type.eq same_object other_eq a b = true ↔ a = b)
  | types.type.builtin _, types.type.builtin _ => by simp [types.type.eq]
  | types.type.builtin _, types.type.tuple _ _ => by simp [types.type.eq]
  | types.type.builtin _, types.type.other _ _ => by simp [types.type.eq]
  | types.type.other _ _, types.type.builtin _ => by simp [types.type.eq]
  | types.type.other _ _, types.type.tuple _ _ => by
    simp only [types.type.eq]
    rw [hother]
    exact eq_comm
  | types.type.other _ _, types.type.other _ _ => by
    simp only [types.type.eq]
    rw [hother]
    exact eq_comm
  | types.type.tuple _ _, types.type.builtin _ => by simp [types.type.eq]
  | types.type.tuple al fs, types.type.other ri rp => by
    have hns : same_object (types.type.tuple al fs) (types.type.other ri rp) = false := by
      cases h : same_object (types.type.tuple al fs) (types.type.other ri rp)
      · rfl
      · exact absurd (hsame _ _ h) (by simp)
    simp [types.type.eq, hns]
  | types.type.tuple al fs, types.type.tuple ral rfs => by
    have ih := types.type.equals_exact_iff_same same_object other_eq hsame hother fs rfs
    unfold types.type.eq
    simp only []
    constructor
    · intro h
      by_cases hs : same_object (types.type.tuple al fs) (types.type.tuple ral rfs) = true
      · exact hsame _ _ hs
      · rw [if_neg hs, if_neg (by simp [types.type.get_type_id])] at h
        rw [Bool.and_eq_true, decide_eq_true_eq] at h
        rw [h.1, ih.1 h.2]
    · intro h
      by_cases hs : same_object (types.type.tuple al fs) (types.type.tuple ral rfs) = true
      · rw [if_pos hs]
      · rw [if_neg hs, if_neg (by simp [types.type.get_type_id])]
        injection h with h1 h2
        rw [Bool.and_eq_true, decide_eq_true_eq]
        exact ⟨h1, ih.2 h2⟩

/-- Two arrays of types are exactly equal if and only if they are the same
sequence of shapes. -/
theorem types.type.equals_exact_iff_same (same_object : types.type → types.type → Bool)
    (other_eq : types.type_id_t → Nat → types.type → Bool)
    (hsame : ∀ a b, same_object a b = true → a = b)
    (hother : ∀ type_id payload rhs,
      other_eq type_id payload rhs = true ↔ rhs = types.type.other type_id payload) :
    ∀ as bs : List types.type,
      (types.type.equals_exact same_object other_eq as bs = true ↔ as = bs)
  | [], [] => by simp [types.type.equals_exact]
  | [], _ :: _ => by simp [types.type.equals_exact]
  | _ :: _, [] => by simp [types.type.equals_exact]
  | a :: as, b :: bs => by
    have h1 := types.type.eq_iff_same_type same_object other_eq hsame hother a b
    have h2 := types.type.equals_exact_iff_same same_object other_eq hsame hother as bs
    unfold types.type.equals_exact
    rw [Bool.and_eq_true, h1, h2]
    constructor
    · rintro ⟨rfl, rfl⟩
      rfl
    · intro h
      injection h with ha hb
      exact ⟨ha, hb⟩

end

/-- C24: equality of pointer dtypes and of tuple types is structural. A
pointer dtype equals `rhs` if and only if `rhs` is the same object or a
pointer dtype whose target is `==` its own; a tuple type equals `rhs` if and
only if `rhs` is the same object or a tuple type with the same data alignment
and an exactly equal sequence of field types. With the objects of the other
classes compared by their members, `==` holds exactly between types of the
same shape, whether or not they are the same object, and so is reflexive,
symmetric and transitive. -/
theorem composite_equality_is_structural (sizeof_void_ptr : Nat)
    (same_object : dtype → dtype → Bool) (extended_eq : base_dtype → Nat → dtype → Bool)
    (same_type : types.type → types.type → Bool)
    (other_eq : types.type_id_t → Nat → types.type → Bool)
    (hsame : ∀ a b, same_object a b = true → a = b)
    (hext : ∀ base payload rhs,
      extended_eq base payload rhs = true ↔ rhs = dtype.extended base payload)
    (hsame_type : ∀ a b, same_type a b = true → a = b)
    (hother : ∀ type_id payload rhs,
      other_eq type_id payload rhs = true ↔ rhs = types.type.other type_id payload) :
    (∀ base target rhs,
      dtype.eq same_object extended_eq (dtype.pointer base target) rhs = true ↔
        (same_object (dtype.pointer base target) rhs = true ∨
          ∃ rbase rtarget, rhs = dtype.pointer rbase rtarget ∧
            rbase.m_type_id = type_id_t.pointer_type_id ∧
            dtype.eq same_object extended_eq target rtarget = true)) ∧
    (∀ data_alignment field_types rhs,
      types.type.eq same_type other_eq (types.type.tuple data_alignment field_types) rhs =
          true ↔
        (same_type (types.type.tuple data_alignment field_types) rhs = true ∨
          ∃ ralignment rfield_types, rhs = types.type.tuple ralignment rfield_types ∧
            data_alignment = ralignment ∧
            types.type.equals_exact same_type other_eq field_types rfield_types = true)) ∧
    (∀ as bs, types.type.equals_exact same_type other_eq as bs = true ↔ as = bs) ∧
    (∀ a b, a.constructed sizeof_void_ptr → b.constructed sizeof_void_ptr →
      (dtype.eq same_object extended_eq a b = true ↔ a = b)) ∧
    (∀ a b, types.type.eq same_type other_eq a b = true ↔ a = b) ∧
    (∀ a, a.constructed sizeof_void_ptr → dtype.eq same_object extended_eq a a = true) ∧
    (∀ a b, a.constructed sizeof_void_ptr → b.constructed sizeof_void_ptr →
      dtype.eq same_object extended_eq a b = true →
      dtype.eq same_object extended_eq b a = true) ∧
    (∀ a b c, a.constructed sizeof_void_ptr → b.constructed sizeof_void_ptr →
      c.constructed sizeof_void_ptr →
      dtype.eq same_object extended_eq a b = true →
      dtype.eq same_object extended_eq b c = true →
      dtype.eq same_object extended_eq a c = true) ∧
    (∀ a, types.type.eq same_type other_eq a a = true) ∧
    (∀ a b, types.type.eq same_type other_eq a b = true →
      types.type.eq same_type other_eq b a = true) ∧
    (∀ a b c, types.type.eq same_type other_eq a b = true →
      types.type.eq same_type other_eq b c = true →
      types.type.eq same_type other_eq a c = true) := by
  have hp := dtype.eq_iff_same_dtype sizeof_void_ptr same_object extended_eq hsame hext
  have ht := types.type.eq_iff_same_type same_type other_eq hsame_type hother
  refine ⟨?_, ?_, types.type.equals_exact_iff_same same_type other_eq hsame_type hother,
    fun a b => hp a b, ht, ?_, ?_, ?_, ?_, ?_, ?_⟩
  · intro base target rhs
    cases rhs with
    | builtin r =>
      have hns : same_object (dtype.pointer base target) (dtype.builtin r) = false := by
        cases h : same_object (dtype.pointer base target) (dtype.builtin r)
        · rfl
        · exact absurd (hsame _ _ h) (by simp)
      simp [dtype.eq, hns]
    | extended rbase rpayload =>
      by_cases hs : same_object (dtype.pointer base target) (dtype.extended rbase rpayload) =
          true
      · simp [dtype.eq, hs]
      · simp [dtype.eq, hs]
    | pointer rbase rtarget =>
      by_cases hs : same_object (dtype.pointer base target) (dtype.pointer rbase rtarget) =
          true
      · simp [dtype.eq, hs]
      · by_cases hid : rbase.m_type_id = type_id_t.pointer_type_id
        · simp only [dtype.eq, hs, hid, if_false, ne_eq, not_true_eq_false, false_or,
            Bool.false_eq_true]
          constructor
          · intro h
            exact ⟨rbase, rtarget, rfl, hid, h⟩
          · rintro ⟨rb, rt, heq, _, h⟩
            injection heq with h1 h2
            rw [h2]
            exact h
        · simp [dtype.eq, hs, hid]
  · intro al fs rhs
    cases rhs with
    | builtin r =>
      have hns : same_type (types.type.tuple al fs) (types.type.builtin r) = false := by
        cases h : same_type (types.type.tuple al fs) (types.type.builtin r)
        · rfl
        · exact absurd (hsame_type _ _ h) (by simp)
      simp [types.type.eq, hns]
    | other ri rp =>
      by_cases hs : same_type (types.type.tuple al fs) (types.type.other ri rp) = true
      · simp [types.type.eq, hs]
      · simp [types.type.eq, hs]
    | tuple ral rfs =>
      by_cases hs : same_type (types.type.tuple al fs) (types.type.tuple ral rfs) = true
      · simp [types.type.eq, hs]
      · simp only [types.type.eq, hs, types.type.get_type_id, if_false, ne_eq,
          not_true_eq_false, false_or, Bool.false_eq_true, Bool.and_eq_true,
          decide_eq_true_eq]
        constructor
        · rintro ⟨h1, h2⟩
          exact ⟨ral, rfs, rfl, h1, h2⟩
        · rintro ⟨ra, rf, heq, h1, h2⟩
          injection heq with e1 e2
          rw [e1, e2]
          exact ⟨h1, h2⟩
  · intro a ha
    exact (hp a a ha ha).2 rfl
  · intro a b ha hb h
    exact (hp b a hb ha).2 ((hp a b ha hb).1 h).symm
  · intro a b c ha hb hc h1 h2
    exact (hp a c ha hc).2 (((hp a b ha hb).1 h1).trans ((hp b c hb hc).1 h2))
  · intro a
    exact (ht a a).2 rfl
  · intro a b h
    exact (ht b a).2 ((ht a b).1 h).symm
  · intro a b c h1 h2
    exact (ht a c).2 (((ht a b).1 h1).trans ((ht b c).1 h2))

/-- Witness of C24: with two separately constructed objects on each side,
never the same object, `pointer<pointer<int32>>` equals `pointer<pointer<int32>>`
and the tuple of alignment 4 with the fields `(id 1, ())` equals the tuple of
the same shape. -/
theorem composite_equality_is_structural_witness :
    (∀ a b : dtype, (fun _ _ => false) a b = true → a = b) ∧
    (∀ base payload rhs,
      sample_extended_eq base payload rhs = true ↔ rhs = dtype.extended base payload) ∧
    (∀ a b : types.type, (fun _ _ => false) a b = true → a = b) ∧
    (∀ type_id payload rhs,
      sample_other_eq type_id payload rhs = true ↔ rhs = types.type.other type_id payload) ∧
    dtype.eq (fun _ _ => false) sample_extended_eq
      (dtype.pointer sample_pointer_base
        (dtype.pointer sample_pointer_base (dtype.builtin type_id_t.int32_type_id)))
      (dtype.pointer sample_pointer_base
        (dtype.pointer sample_pointer_base (dtype.builtin type_id_t.int32_type_id))) = true ∧
    types.type.eq (fun _ _ => false) sample_other_eq
      (types.type.tuple 4
        [types.type.builtin (types.type_id_t.other_type_id 1), types.type.tuple 1 []])
      (types.type.tuple 4
        [types.type.builtin (types.type_id_t.other_type_id 1), types.type.tuple 1 []]) =
      true := by
  have h1 : ∀ a b : dtype, (fun _ _ => false) a b = true → a = b := by
    intro a b h
    cases h
  have h2 : ∀ base payload rhs,
      sample_extended_eq base payload rhs = true ↔ rhs = dtype.extended base payload := by
    intro base payload rhs
    unfold sample_extended_eq
    exact decide_eq_true_iff
  have h3 : ∀ a b : types.type, (fun _ _ => false) a b = true → a = b := by
    intro a b h
    cases h
  have h4 : ∀ type_id payload rhs,
      sample_other_eq type_id payload rhs = true ↔
        rhs = types.type.other type_id payload := by
    intro type_id payload rhs
    cases rhs with
    | builtin r => simp [sample_other_eq]
    | tuple al fs => simp [sample_other_eq]
    | other ri rp =>
      simp only [sample_other_eq, decide_eq_true_eq, types.type.other.injEq]
      constructor
      · rintro ⟨rfl, rfl⟩
        exact ⟨rfl, rfl⟩
      · rintro ⟨rfl, rfl⟩
        exact ⟨rfl, rfl⟩
  have h := composite_equality_is_structural 8 (fun _ _ => false) sample_extended_eq
    (fun _ _ => false) sample_other_eq h1 h2 h3 h4
  exact ⟨h1, h2, h3, h4,
    h.2.2.2.2.2.1 _ ⟨rfl, ⟨rfl, trivial⟩⟩, h.2.2.2.2.2.2.2.2.1 _⟩

/-! ### The C API of the builder -/

/-- C31: the C API function `ckernel_builder_ensure_capacity_leaf` leaves the
builder in exactly the state of the member `ensure_capacity_leaf`, with the
same calls made, and returns 0 where the member returns normally and -1 where
it throws `std::bad_alloc`; `ckernel_builder_ensure_capacity(ckb, r)` is
`ckernel_builder_ensure_capacity_leaf(ckb, r + sizeof(ckernel_prefix))`, the
sum being the `size_t` sum of the C expression, which is the mathematical
sum whenever an `intptr_t` holds that; and it stands to the member
`ensure_capacity` as the leaf function to the member `ensure_capacity_leaf`,
for every request. -/
theorem c_api_ensure_capacity_refines (bits sizeof_ckernel_pfx : Nat) (a : alloc_outcome)
    (ckb : ckernel_builder) (requested_capacity : Int) :
    (ckernel_builder_ensure_capacity_leaf a ckb requested_capacity).ckb =
      (ckb.ensure_capacity_leaf a requested_capacity).ckb ∧
    (ckernel_builder_ensure_capacity_leaf a ckb requested_capacity).effects =
      (ckb.ensure_capacity_leaf a requested_capacity).effects ∧
    ((ckernel_builder_ensure_capacity_leaf a ckb requested_capacity).returned = 0 ↔
      (ckb.ensure_capacity_leaf a requested_capacity).thrown = none) ∧
    ((ckernel_builder_ensure_capacity_leaf a ckb requested_capacity).returned = -1 ↔
      (ckb.ensure_capacity_leaf a requested_capacity).thrown = some exn.bad_alloc) ∧
    ckernel_builder_ensure_capacity bits sizeof_ckernel_pfx a ckb requested_capacity =
      ckernel_builder_ensure_capacity_leaf a ckb
        (size_t_to_intptr bits (size_t_add bits requested_capacity sizeof_ckernel_pfx)) ∧
    (0 < bits → intptr_min bits ≤ requested_capacity + (sizeof_ckernel_pfx : Int) →
      requested_capacity + (sizeof_ckernel_pfx : Int) ≤ intptr_max bits →
      ckernel_builder_ensure_capacity bits sizeof_ckernel_pfx a ckb requested_capacity =
        ckernel_builder_ensure_capacity_leaf a ckb
          (requested_capacity + (sizeof_ckernel_pfx : Int))) ∧
    (ckernel_builder_ensure_capacity bits sizeof_ckernel_pfx a ckb requested_capacity).ckb =
      (ckb.ensure_capacity bits sizeof_ckernel_pfx a requested_capacity).ckb ∧
    (ckernel_builder_ensure_capacity bits sizeof_ckernel_pfx a ckb
        requested_capacity).effects =
      (ckb.ensure_capacity bits sizeof_ckernel_pfx a requested_capacity).effects ∧
    ((ckernel_builder_ensure_capacity bits sizeof_ckernel_pfx a ckb
        requested_capacity).returned = 0 ↔
      (ckb.ensure_capacity bits sizeof_ckernel_pfx a requested_capacity).thrown = none) ∧
    ((ckernel_builder_ensure_capacity bits sizeof_ckernel_pfx a ckb
        requested_capacity).returned = -1 ↔
      (ckb.ensure_capacity bits sizeof_ckernel_pfx a requested_capacity).thrown =
        some exn.bad_alloc) := by
  have key : ∀ r : Int,
      (ckernel_builder_ensure_capacity_leaf a ckb r).ckb =
        (ckb.ensure_capacity_leaf a r).ckb ∧
      (ckernel_builder_ensure_capacity_leaf a ckb r).effects =
        (ckb.ensure_capacity_leaf a r).effects ∧
      ((ckernel_builder_ensure_capacity_leaf a ckb r).returned = 0 ↔
        (ckb.ensure_capacity_leaf a r).thrown = none) ∧
      ((ckernel_builder_ensure_capacity_leaf a ckb r).returned = -1 ↔
        (ckb.ensure_capacity_leaf a r).thrown = some exn.bad_alloc) := by
    intro r
    unfold ckernel_builder_ensure_capacity_leaf ckernel_builder.ensure_capacity_leaf
      ckernel_builder.realloc
    by_cases hlt : ckb.m_capacity < r
    · simp only [if_pos hlt]
      by_cases hs : ckb.using_static_data = true
      · simp only [hs, if_true]
        cases ckernel_builder.alloc a
            (if r < (ckb.m_capacity * 3).tdiv 2 then (ckb.m_capacity * 3).tdiv 2
              else r).toNat with
        | none => simp
        | some new_data => simp
      · simp only [hs]
        cases ckernel_builder.std_realloc a ckb.buffer
            (if r < (ckb.m_capacity * 3).tdiv 2 then (ckb.m_capacity * 3).tdiv 2
              else r).toNat with
        | none => simp
        | some new_data => simp
    · simp only [if_neg hlt]
      simp
  refine ⟨(key _).1, (key _).2.1, (key _).2.2.1, (key _).2.2.2, rfl, ?_,
    (key (size_t_to_intptr bits
      (size_t_add bits requested_capacity sizeof_ckernel_pfx))).1,
    (key (size_t_to_intptr bits
      (size_t_add bits requested_capacity sizeof_ckernel_pfx))).2.1,
    (key (size_t_to_intptr bits
      (size_t_add bits requested_capacity sizeof_ckernel_pfx))).2.2.1,
    (key (size_t_to_intptr bits
      (size_t_add bits requested_capacity sizeof_ckernel_pfx))).2.2.2⟩
  intro hbits hlo hhi
  unfold ckernel_builder_ensure_capacity
  rw [size_t_add_in_range bits requested_capacity sizeof_ckernel_pfx hbits hlo hhi]

/-- Witness of C31 with 64-bit pointers and a 16-byte prefix: on a fresh
builder `ckernel_builder_ensure_capacity(ckb, 150)` is
`ckernel_builder_ensure_capacity_leaf(ckb, 166)`, which grows the builder to
192 bytes and returns 0. -/
theorem c_api_ensure_capacity_refines_witness :
    0 < 64 ∧ intptr_min 64 ≤ (150 : Int) + ((16 : Nat) : Int) ∧
    (150 : Int) + ((16 : Nat) : Int) ≤ intptr_max 64 ∧
    ckernel_builder_ensure_capacity 64 16 ⟨true, fun _ => 255⟩
      (ckernel_builder.construct (List.replicate 128 7)) 150 =
      ckernel_builder_ensure_capacity_leaf ⟨true, fun _ => 255⟩
        (ckernel_builder.construct (List.replicate 128 7)) (150 + ((16 : Nat) : Int)) ∧
    (ckernel_builder_ensure_capacity 64 16 ⟨true, fun _ => 255⟩
      (ckernel_builder.construct (List.replicate 128 7)) 150).ckb.m_capacity = 192 ∧
    (ckernel_builder_ensure_capacity 64 16 ⟨true, fun _ => 255⟩
      (ckernel_builder.construct (List.replicate 128 7)) 150).returned = 0 :=
  ⟨by decide, by decide, by decide,
    (c_api_ensure_capacity_refines 64 16 ⟨true, fun _ => 255⟩
      (ckernel_builder.construct (List.replicate 128 7)) 150).2.2.2.2.2.1
      (by decide) (by decide) (by decide),
    by decide, by decide⟩

/-! ### The registry: order of the ancestor lists -/

/-- The initial table has ordered ancestor lists: both are empty. -/
theorem ancestors_ordered_infos (any_kind_id : Nat) :
    ancestors_ordered (detail.infos any_kind_id) := by
  intro n info h
  have hb : info.base_ids = [] := by
    unfold detail.infos at h
    match n, h with
    | 0, h =>
      simp only [List.getElem?_cons_zero, Option.some.injEq] at h
      rw [← h]
    | 1, h =>
      simp only [List.getElem?_cons_succ, List.getElem?_cons_zero, Option.some.injEq] at h
      rw [← h]
    | n + 2, h => simp at h
  rw [hb]
  exact ⟨List.Pairwise.nil, fun a ha => by cases ha⟩

/-- One `new_id` call keeps the ancestor lists ordered. -/
theorem ancestors_ordered_new_id (infos : List id_info) (base_id id : Nat)
    (infos2 : List id_info) (hinv : ancestors_ordered infos)
    (h : new_id infos base_id = some (id, infos2)) : ancestors_ordered infos2 := by
  cases hb : infos[base_id]? with
  | none =>
    unfold new_id at h
    rw [hb] at h
    cases h
  | some base_info =>
    rw [new_id_eq infos base_id base_info hb] at h
    injection h with h
    injection h with _ h2
    subst h2
    have hblt : base_id < infos.length := by
      rcases Nat.lt_or_ge base_id infos.length with hlt | hge
      · exact hlt
      · rw [List.getElem?_eq_none hge] at hb
        cases hb
    obtain ⟨hbpair, hbmem⟩ := hinv base_id base_info hb
    intro n info hn
    rcases Nat.lt_or_ge n infos.length with hlt | hge
    · rw [List.getElem?_append_left hlt] at hn
      obtain ⟨hp, hm⟩ := hinv n info hn
      refine ⟨hp, ?_⟩
      intro a ha
      obtain ⟨han, hsub⟩ := hm a ha
      refine ⟨han, ?_⟩
      intro info_a hia
      rw [List.getElem?_append_left (by omega)] at hia
      exact hsub info_a hia
    · rw [List.getElem?_append_right hge] at hn
      have hn0 : n - infos.length = 0 := by
        rcases Nat.eq_zero_or_pos (n - infos.length) with h0 | hpos
        · exact h0
        · rw [List.getElem?_eq_none (by simp only [List.length_singleton]; omega)] at hn
          cases hn
      rw [hn0] at hn
      simp only [List.getElem?_cons_zero, Option.some.injEq] at hn
      subst hn
      have hnlen : n = infos.length := by omega
      subst hnlen
      refine ⟨?_, ?_⟩
      · show (base_id :: base_info.base_ids).Pairwise (fun a b => b < a)
        rw [List.pairwise_cons]
        exact ⟨fun x hx => (hbmem x hx).1, hbpair⟩
      · intro a ha
        have ha2 : a = base_id ∨ a ∈ base_info.base_ids := by
          simpa using ha
        rcases ha2 with rfl | ha3
        · refine ⟨hblt, ?_⟩
          intro info_a hia x hx
          rw [List.getElem?_append_left hblt, hb] at hia
          injection hia with hia
          subst hia
          exact List.mem_cons_of_mem _ hx
        · obtain ⟨hab, hsub⟩ := hbmem a ha3
          refine ⟨by omega, ?_⟩
          intro info_a hia x hx
          rw [List.getElem?_append_left (by omega)] at hia
          exact List.mem_cons_of_mem _ (hsub info_a hia x hx)

/-- A sequence of `new_id` calls keeps the ancestor lists ordered. -/
theorem ancestors_ordered_new_ids (bases : List Nat) :
    ∀ (infos : List id_info) (ids : List Nat) (final : List id_info),
      ancestors_ordered infos → new_ids infos bases = some (ids, final) →
      ancestors_ordered final := by
  induction bases with
  | nil =>
    intro infos ids final hinv h
    unfold new_ids at h
    injection h with h
    injection h with _ h2
    rw [← h2]
    exact hinv
  | cons b rest ih =>
    intro infos ids final hinv h
    unfold new_ids at h
    cases h1 : new_id infos b with
    | none =>
      rw [h1] at h
      cases h
    | some r =>
      obtain ⟨id, infos2⟩ := r
      rw [h1] at h
      simp only [] at h
      cases h2 : new_ids infos2 rest with
      | none =>
        rw [h2] at h
        cases h
      | some r2 =>
        obtain ⟨ids2, infos3⟩ := r2
        rw [h2] at h
        simp only [] at h
        injection h with h
        injection h with _ h4
        subst h4
        exact ih infos2 ids2 infos3 (ancestors_ordered_new_id infos b id infos2 hinv h1) h2

/-- The meaning of `is_a`. -/
theorem is_a_iff (infos : List id_info) (id candidate_base : Nat) :
    is_a infos id candidate_base = true ↔
      candidate_base = id ∨
        ∃ info, infos[id]? = some info ∧ candidate_base ∈ info.base_ids := by
  unfold is_a
  cases h : infos[id]? with
  | none => simp
  | some info => simp

/-- C32: in every table reached from the initial one by `new_id` calls with
registered bases, the ancestor list of each id is strictly decreasing, every
ancestor is smaller than the id, and the list contains the ancestor list of
each of its members; hence `is_a` is reflexive, transitive and
antisymmetric. -/
theorem registry_is_a_ordering (any_kind_id : Nat) (bases ids : List Nat)
    (infos : List id_info)
    (h : new_ids (detail.infos any_kind_id) bases = some (ids, infos)) :
    (∀ (n : Nat) (info : id_info), infos[n]? = some info →
      info.base_ids.Pairwise (fun a b => b < a) ∧
      ∀ a, a ∈ info.base_ids →
        a < n ∧ ∀ info_a : id_info, infos[a]? = some info_a →
          ∀ x, x ∈ info_a.base_ids → x ∈ info.base_ids) ∧
    (∀ a, is_a infos a a = true) ∧
    (∀ a b c, is_a infos a b = true → is_a infos b c = true → is_a infos a c = true) ∧
    (∀ a b, is_a infos a b = true → is_a infos b a = true → a = b) := by
  have hinv : ancestors_ordered infos :=
    ancestors_ordered_new_ids bases (detail.infos any_kind_id) ids infos
      (ancestors_ordered_infos any_kind_id) h
  refine ⟨hinv, ?_, ?_, ?_⟩
  · intro a
    exact (is_a_iff infos a a).2 (Or.inl rfl)
  · intro a b c hab hbc
    rw [is_a_iff] at hab hbc ⊢
    rcases hab with rfl | ⟨ia, hia, hbia⟩
    · exact hbc
    · rcases hbc with rfl | ⟨ib, hib, hcib⟩
      · exact Or.inr ⟨ia, hia, hbia⟩
      · exact Or.inr ⟨ia, hia, ((hinv a ia hia).2 b hbia).2 ib hib c hcib⟩
  · intro a b hab hba
    rw [is_a_iff] at hab hba
    rcases hab with rfl | ⟨ia, hia, hbia⟩
    · rfl
    · rcases hba with rfl | ⟨ib, hib, haib⟩
      · rfl
      · have h1 := ((hinv a ia hia).2 b hbia).1
        have h2 := ((hinv b ib hib).2 a haib).1
        omega

/-- Witness of C32: the table after `new_id(1)`, `new_id(2)` on the initial
table with `any_kind_id = 1`. -/
theorem registry_is_a_ordering_witness :
    new_ids (detail.infos 1) [1, 2] = some ([2, 3], sample_infos) ∧
    (∀ a b, is_a sample_infos a b = true → is_a sample_infos b a = true → a = b) :=
  ⟨by decide, (registry_is_a_ordering 1 [1, 2] [2, 3] sample_infos (by decide)).2.2.2⟩

/-! ### Pointer dtype: type-level and data-level indexing in lock-step -/

/-- The non-leading data-level pass on `pointer<T>`: with a source record `md`,
storage for the output record elsewhere and the block of `md` in the memory,
it copies the record, takes a reference, and goes on with the pass of `T` on
the target of `result_dtype`, right after the two records. -/
theorem dtype.apply_linear_index_data_step (sizeof_metadata : Int)
    (pointer_at : Int → Option Int)
    (extended_apply :
      base_dtype → Nat → metadata_memory → Int → List irange → Int → dtype → Int → Int →
        Int → dtype → Bool → Option Int → Option Int → Option index_data_result)
    (base : base_dtype) (T : dtype) (mem : metadata_memory) (nindices : Int)
    (indices : List irange) (metadata : Int) (result_dtype : dtype)
    (out_metadata embedded_reference current_i : Int) (root_dt : dtype)
    (inout_data inout_dataref : Option Int)
    (md g : pointer_dtype_metadata) (b : memory_block_data)
    (hsrc : mem.records metadata = some md)
    (hdst : mem.records out_metadata = some g)
    (hne : out_metadata ≠ metadata)
    (hblock : mem.blocks md.blockref = some b) :
    dtype.apply_linear_index_data sizeof_metadata pointer_at extended_apply
      (dtype.pointer base T) mem nindices indices metadata result_dtype out_metadata
      embedded_reference current_i root_dt false inout_data inout_dataref =
    if T.is_builtin then
      some { mem := mem.with_copy out_metadata md b, returned := 0,
             inout_data := inout_data, inout_dataref := inout_dataref }
    else
      match result_dtype with
      | dtype.pointer _ pdt_target_dtype =>
        match dtype.apply_linear_index_data sizeof_metadata pointer_at extended_apply T
            (mem.with_copy out_metadata md b) nindices indices
            (metadata + sizeof_metadata) pdt_target_dtype
            (out_metadata + sizeof_metadata) embedded_reference current_i root_dt false
            none none with
        | none => none
        | some r =>
          match r.mem.records out_metadata with
          | none => none
          | some out_md2 =>
            match r.mem.set_offset out_metadata (out_md2.offset + r.returned) with
            | none => none
            | some mem4 =>
              some { mem := mem4, returned := 0, inout_data := inout_data,
                     inout_dataref := inout_dataref }
      | _ => none := by
  have h1 : mem.set_blockref out_metadata md.blockref =
      some { mem with
        records := fun a =>
          if a = out_metadata then some { g with blockref := md.blockref }
          else mem.records a } := by
    unfold metadata_memory.set_blockref
    rw [hdst]
  have h3 : (metadata_memory.mk
        (fun a =>
          if a = md.blockref then some { b with m_use_count := b.m_use_count + 1 }
          else mem.blocks a)
        (fun a =>
          if a = out_metadata then some { g with blockref := md.blockref }
          else mem.records a)).set_offset out_metadata md.offset =
      some (mem.with_copy out_metadata md b) := by
    unfold metadata_memory.set_offset metadata_memory.with_copy
    simp only [if_pos]
    congr 1
    congr 1
    funext a
    by_cases ha : a = out_metadata
    · simp only [ha, if_pos]
    · simp only [if_neg ha]
  conv_lhs => unfold dtype.apply_linear_index_data
  simp only [Bool.false_eq_true, if_false, hsrc, h1, if_pos, memory_block_incref, hblock,
    if_neg hne.symm, h3]

/-- The record addresses of a dtype do not lie before the start of its
metadata. -/
theorem dtype.record_addresses_ge (sizeof_metadata : Int) (hS : 0 ≤ sizeof_metadata)
    (d : dtype) : ∀ (x a : Int), a ∈ dtype.record_addresses sizeof_metadata d x → x ≤ a := by
  induction d with
  | builtin type_id =>
    intro x a h
    cases h
  | extended base payload =>
    intro x a h
    cases h
  | pointer base target ih =>
    intro x a h
    unfold dtype.record_addresses at h
    rcases List.mem_cons.1 h with rfl | h2
    · exact le_refl _
    · have := ih _ _ h2
      omega

/-- The metadata of a chain of pointers over a builtin dtype is its pointer
records. -/
theorem dtype.get_metadata_size_chain (sizeof_metadata : Nat)
    (extended_metadata_size : base_dtype → Nat → Nat) (d : dtype) :
    ∀ x : Int, d.strip_pointers.is_builtin = true →
      d.get_metadata_size sizeof_metadata extended_metadata_size =
        sizeof_metadata * (dtype.record_addresses (sizeof_metadata : Int) d x).length := by
  induction d with
  | builtin type_id =>
    intro x _
    rfl
  | extended base payload =>
    intro x h
    cases h
  | pointer base target ih =>
    intro x h
    have ht := ih (x + (sizeof_metadata : Int)) h
    unfold dtype.get_metadata_size dtype.record_addresses
    rw [List.length_cons]
    by_cases hb : target.is_builtin = true
    · rw [if_pos hb]
      cases target with
      | builtin r =>
        simp [dtype.record_addresses]
      | pointer b2 t2 => cases hb
      | extended b2 p2 => cases hb
    · rw [if_neg hb, ht]
      ring

/-- The non-leading data-level pass on a chain of pointers over a builtin
dtype, with the dtype itself as result: it succeeds, returns 0, copies each
pointer record of the source to the record at the same place of the output,
and changes no other record. -/
theorem dtype.apply_linear_index_data_chain (sizeof_metadata : Int)
    (hS : 0 < sizeof_metadata) (pointer_at : Int → Option Int)
    (extended_apply :
      base_dtype → Nat → metadata_memory → Int → List irange → Int → dtype → Int → Int →
        Int → dtype → Bool → Option Int → Option Int → Option index_data_result)
    (nindices : Int) (indices : List irange) (embedded_reference current_i : Int)
    (root_dt : dtype) (p : dtype) :
    p.strip_pointers.is_builtin = true →
    ∀ (mem : metadata_memory) (metadata out_metadata : Int),
      (∀ a, a ∈ dtype.record_addresses sizeof_metadata p metadata →
        ∃ md b, mem.records a = some md ∧ mem.blocks md.blockref = some b) →
      (∀ a, a ∈ dtype.record_addresses sizeof_metadata p out_metadata →
        ∃ g, mem.records a = some g) →
      (∀ a, a ∈ dtype.record_addresses sizeof_metadata p metadata →
        a ∉ dtype.record_addresses sizeof_metadata p out_metadata) →
      ∃ res, dtype.apply_linear_index_data sizeof_metadata pointer_at extended_apply p mem
          nindices indices metadata p out_metadata embedded_reference current_i root_dt
          false none none = some res ∧
        res.returned = 0 ∧
        (∀ pair, pair ∈ List.zip (dtype.record_addresses sizeof_metadata p metadata)
            (dtype.record_addresses sizeof_metadata p out_metadata) →
          res.mem.records pair.2 = mem.records pair.1) ∧
        (∀ a, a ∉ dtype.record_addresses sizeof_metadata p out_metadata →
          res.mem.records a = mem.records a) := by
  induction p with
  | builtin type_id =>
    intro _ mem metadata out_metadata _ _ _
    refine ⟨⟨mem, 0, none, none⟩, rfl, rfl, ?_, fun _ _ => rfl⟩
    intro pair hp
    cases hp
  | extended base payload =>
    intro h
    cases h
  | pointer base t ih =>
    intro hchain mem metadata out_metadata hsrc hdst hdisj
    have hchain_t : t.strip_pointers.is_builtin = true := hchain
    have haddr : ∀ x, dtype.record_addresses sizeof_metadata (dtype.pointer base t) x =
        x :: dtype.record_addresses sizeof_metadata t (x + sizeof_metadata) := by
      intro x
      rfl
    rw [haddr] at hsrc hdisj
    rw [haddr] at hdst hdisj
    rw [haddr, haddr]
    obtain ⟨md, b, hmd, hb⟩ := hsrc metadata (List.mem_cons_self _ _)
    obtain ⟨g, hg⟩ := hdst out_metadata (List.mem_cons_self _ _)
    have hne : out_metadata ≠ metadata := by
      intro h
      exact hdisj metadata (List.mem_cons_self _ _) (by rw [h]; exact List.mem_cons_self _ _)
    have hout_tail : ∀ a, a ∈ dtype.record_addresses sizeof_metadata t
        (out_metadata + sizeof_metadata) → a ≠ out_metadata := by
      intro a ha
      have := dtype.record_addresses_ge sizeof_metadata (le_of_lt hS) t _ _ ha
      omega
    have hsrc_tail : ∀ a, a ∈ dtype.record_addresses sizeof_metadata t
        (metadata + sizeof_metadata) → a ≠ out_metadata := by
      intro a ha h
      exact hdisj a (List.mem_cons_of_mem _ ha) (by rw [h]; exact List.mem_cons_self _ _)
    have hmd_eta : (⟨md.blockref, md.offset⟩ : pointer_dtype_metadata) = md := by
      cases md
      rfl
    have hcopy_out : (mem.with_copy out_metadata md b).records out_metadata = some md := by
      show (if out_metadata = out_metadata then _ else _) = _
      rw [if_pos rfl, hmd_eta]
    have hcopy_other : ∀ a, a ≠ out_metadata →
        (mem.with_copy out_metadata md b).records a = mem.records a := by
      intro a ha
      show (if a = out_metadata then _ else _) = _
      rw [if_neg ha]
    rw [dtype.apply_linear_index_data_step sizeof_metadata pointer_at extended_apply base t
      mem nindices indices metadata (dtype.pointer base t) out_metadata embedded_reference
      current_i root_dt none none md g b hmd hg hne hb]
    by_cases hbt : t.is_builtin = true
    · rw [if_pos hbt]
      have ht_nil : ∀ x, dtype.record_addresses sizeof_metadata t x = [] := by
        intro x
        cases t with
        | builtin r => rfl
        | pointer b2 t2 => cases hbt
        | extended b2 p2 => cases hbt
      refine ⟨_, rfl, rfl, ?_, ?_⟩
      · intro pair hp
        rw [ht_nil, ht_nil] at hp
        simp only [List.zip_cons_cons, List.zip_nil_right, List.mem_singleton] at hp
        subst hp
        rw [hcopy_out, hmd]
      · intro a ha
        exact hcopy_other a (fun h => ha (by rw [h]; exact List.mem_cons_self _ _))
    · rw [if_neg hbt]
      simp only []
      obtain ⟨res2, hres2, hret2, hzip2, hother2⟩ :=
        ih hchain_t (mem.with_copy out_metadata md b) (metadata + sizeof_metadata)
          (out_metadata + sizeof_metadata)
          (by
            intro a ha
            obtain ⟨md2, b2, h1, h2⟩ := hsrc a (List.mem_cons_of_mem _ ha)
            refine ⟨md2, ?_⟩
            by_cases hsame : md2.blockref = md.blockref
            · refine ⟨{ b with m_use_count := b.m_use_count + 1 }, ?_, ?_⟩
              · rw [hcopy_other a (hsrc_tail a ha), h1]
              · show (if md2.blockref = md.blockref then _ else _) = _
                rw [if_pos hsame]
            · refine ⟨b2, ?_, ?_⟩
              · rw [hcopy_other a (hsrc_tail a ha), h1]
              · show (if md2.blockref = md.blockref then _ else _) = _
                rw [if_neg hsame, h2])
          (by
            intro a ha
            obtain ⟨g2, h1⟩ := hdst a (List.mem_cons_of_mem _ ha)
            exact ⟨g2, by rw [hcopy_other a (hout_tail a ha), h1]⟩)
          (by
            intro a ha h
            exact hdisj a (List.mem_cons_of_mem _ ha) (List.mem_cons_of_mem _ h))
      rw [hres2]
      simp only []
      have hout2 : res2.mem.records out_metadata = some md := by
        rw [hother2 out_metadata (fun h => hout_tail _ h rfl), hcopy_out]
      rw [hout2]
      simp only []
      unfold metadata_memory.set_offset
      rw [hout2]
      refine ⟨_, rfl, rfl, ?_, ?_⟩
      · intro pair hp
        simp only [List.zip_cons_cons] at hp
        rcases List.mem_cons.1 hp with rfl | hp2
        · show (if out_metadata = out_metadata then _ else _) = _
          rw [if_pos rfl, hret2, hmd]
          cases md
          simp
        · have hmem := List.of_mem_zip hp2
          show (if pair.2 = out_metadata then _ else _) = _
          rw [if_neg (hout_tail _ hmem.2), hzip2 pair hp2,
            hcopy_other _ (hsrc_tail _ hmem.1)]
      · intro a ha
        have ha1 : a ≠ out_metadata := fun h => ha (by rw [h]; exact List.mem_cons_self _ _)
        have ha2 : a ∉ dtype.record_addresses sizeof_metadata t
            (out_metadata + sizeof_metadata) := fun h => ha (List.mem_cons_of_mem _ h)
        show (if a = out_metadata then _ else _) = _
        rw [if_neg ha1, hother2 a ha2, hcopy_other a ha1]

/-- A pointer dtype that the constructor returns has the type id
`pointer_type_id` and the target it was given. -/
theorem pointer_dtype.make_members (builtin_kinds : type_id_t → dtype_kind_t)
    (sizeof_void_ptr : Nat) (target_dtype : dtype) (p : pointer_dtype)
    (h : pointer_dtype.make builtin_kinds sizeof_void_ptr target_dtype = Except.ok p) :
    p.base.m_type_id = type_id_t.pointer_type_id ∧ p.m_target_dtype = target_dtype := by
  unfold pointer_dtype.make at h
  simp only [] at h
  split at h
  · cases h
  · injection h with h
    rw [← h]
    exact ⟨rfl, rfl⟩

/-- The type-level `apply_linear_index` of `pointer<T>` off a leading
dimension, when it returns: the pointer dtype itself for no indices; for some
indices a pointer dtype whose target is the indexed type `dt` of `T`, or is `T`
itself when `dt == T`. -/
theorem dtype.apply_linear_index_non_leading (builtin_kinds : type_id_t → dtype_kind_t)
    (sizeof_void_ptr : Nat) (same_object : dtype → dtype → Bool)
    (extended_eq : base_dtype → Nat → dtype → Bool)
    (leaf : dtype → Int → List irange → Int → dtype → Bool → Except index_exception dtype)
    (base : base_dtype) (T : dtype) (nindices : Int) (indices : List irange)
    (current_i : Int) (root_dt : dtype) (r : dtype)
    (h : dtype.apply_linear_index builtin_kinds sizeof_void_ptr same_object extended_eq leaf
      (dtype.pointer base T) nindices indices current_i root_dt false = Except.ok r) :
    ∃ rb rt, r = dtype.pointer rb rt ∧
      (nindices = 0 → rb = base ∧ rt = T) ∧
      (nindices ≠ 0 →
        ∃ dt, dtype.apply_linear_index builtin_kinds sizeof_void_ptr same_object
            extended_eq leaf T nindices indices current_i root_dt false = Except.ok dt ∧
          ((rb = base ∧ rt = T ∧ dtype.eq same_object extended_eq dt T = true) ∨
            (rb.m_type_id = type_id_t.pointer_type_id ∧ rt = dt ∧
              dtype.eq same_object extended_eq dt T = false))) := by
  unfold dtype.apply_linear_index at h
  by_cases hn : nindices = 0
  · rw [if_pos hn] at h
    simp only [Bool.false_eq_true, if_false] at h
    injection h with h
    exact ⟨base, T, h.symm, fun _ => ⟨rfl, rfl⟩, fun h2 => absurd hn h2⟩
  · rw [if_neg hn] at h
    cases hT : dtype.apply_linear_index builtin_kinds sizeof_void_ptr same_object
        extended_eq leaf T nindices indices current_i root_dt false with
    | error e =>
      rw [hT] at h
      cases h
    | ok dt =>
      rw [hT] at h
      simp only [Bool.false_eq_true, if_false] at h
      by_cases heq : dtype.eq same_object extended_eq dt T = true
      · rw [if_pos heq] at h
        injection h with h
        exact ⟨base, T, h.symm, fun h2 => absurd h2 hn,
          fun _ => ⟨dt, rfl, Or.inl ⟨rfl, rfl, heq⟩⟩⟩
      · rw [if_neg heq] at h
        cases hm : pointer_dtype.make builtin_kinds sizeof_void_ptr dt with
        | error e =>
          rw [hm] at h
          cases h
        | ok p =>
          rw [hm] at h
          simp only [] at h
          injection h with h
          obtain ⟨hid, htarget⟩ :=
            pointer_dtype.make_members builtin_kinds sizeof_void_ptr dt p hm
          refine ⟨p.base, p.m_target_dtype, h.symm, fun h2 => absurd h2 hn,
            fun _ => ⟨dt, rfl, Or.inr ⟨hid, htarget, ?_⟩⟩⟩
          cases hb : dtype.eq same_object extended_eq dt T
          · rfl
          · exact absurd hb heq

/-- The metadata of a pointer dtype: one pointer record and the metadata of
the target. -/
theorem dtype.get_metadata_size_pointer (sizeof_metadata : Nat)
    (extended_metadata_size : base_dtype → Nat → Nat) (rb : base_dtype) (rt : dtype) :
    (dtype.pointer rb rt).get_metadata_size sizeof_metadata extended_metadata_size =
      sizeof_metadata + rt.get_metadata_size sizeof_metadata extended_metadata_size := by
  conv_lhs => unfold dtype.get_metadata_size
  cases rt with
  | builtin r => simp [dtype.is_builtin, dtype.get_metadata_size]
  | pointer b2 t2 => simp [dtype.is_builtin]
  | extended b2 p2 => simp [dtype.is_builtin]

/-- The type-level `apply_linear_index` of `pointer<T>` off a leading
dimension returns whenever that of `T` does and the constructor accepts the
indexed type. -/
theorem dtype.apply_linear_index_pointer_returns (builtin_kinds : type_id_t → dtype_kind_t)
    (sizeof_void_ptr : Nat) (same_object : dtype → dtype → Bool)
    (extended_eq : base_dtype → Nat → dtype → Bool)
    (leaf : dtype → Int → List irange → Int → dtype → Bool → Except index_exception dtype)
    (base : base_dtype) (T : dtype) (nindices : Int) (indices : List irange)
    (current_i : Int) (root_dt : dtype) (dt : dtype)
    (hT : nindices ≠ 0 →
      dtype.apply_linear_index builtin_kinds sizeof_void_ptr same_object extended_eq leaf
        T nindices indices current_i root_dt false = Except.ok dt)
    (hacc : nindices ≠ 0 → dtype.eq same_object extended_eq dt T = false →
      ¬ (dt.get_kind builtin_kinds = dtype_kind_t.expression_kind ∧
        dt.get_type_id ≠ type_id_t.pointer_type_id)) :
    dtype.apply_linear_index builtin_kinds sizeof_void_ptr same_object extended_eq leaf
      (dtype.pointer base T) nindices indices current_i root_dt false =
      Except.ok
        (if nindices = 0 ∨ dtype.eq same_object extended_eq dt T = true then
          dtype.pointer base T
        else
          dtype.pointer
            { m_type_id := type_id_t.pointer_type_id
              m_kind := dtype_kind_t.expression_kind
              m_data_size := sizeof_void_ptr
              m_alignment := sizeof_void_ptr
              m_undim := dt.get_undim } dt) := by
  conv_lhs => unfold dtype.apply_linear_index
  by_cases hn : nindices = 0
  · rw [if_pos hn, if_pos (Or.inl hn)]
    rfl
  · rw [if_neg hn, hT hn]
    simp only [Bool.false_eq_true, if_false]
    by_cases heq : dtype.eq same_object extended_eq dt T = true
    · rw [if_pos heq, if_pos (Or.inr heq)]
    · have heq2 : dtype.eq same_object extended_eq dt T = false := by
        cases hb : dtype.eq same_object extended_eq dt T
        · rfl
        · exact absurd hb heq
      rw [if_neg heq, if_neg (by rintro (h | h); exact hn h; exact heq h)]
      unfold pointer_dtype.make
      simp only []
      rw [if_neg (hacc hn heq2)]
      rfl

/-- What the pass of `pointer<T>` is handed is a pointer dtype, and its target
is what the pass of `T` can be handed. -/
theorem dtype.admissible_result_pointer (builtin_kinds : type_id_t → dtype_kind_t)
    (sizeof_void_ptr : Nat) (same_object : dtype → dtype → Bool)
    (extended_eq : base_dtype → Nat → dtype → Bool)
    (leaf : dtype → Int → List irange → Int → dtype → Bool → Except index_exception dtype)
    (nindices : Int) (indices : List irange) (current_i : Int) (root_dt : dtype)
    (hsame : ∀ a b, same_object a b = true → a = b)
    (base : base_dtype) (T rt : dtype)
    (h : dtype.admissible_result builtin_kinds sizeof_void_ptr same_object extended_eq leaf
      nindices indices current_i root_dt (dtype.pointer base T) rt) :
    ∃ rb rtT, rt = dtype.pointer rb rtT ∧
      dtype.admissible_result builtin_kinds sizeof_void_ptr same_object extended_eq leaf
        nindices indices current_i root_dt T rtT := by
  unfold dtype.admissible_result at h ⊢
  by_cases hn : nindices = 0
  · rw [if_pos hn] at h
    exact ⟨base, T, h, by rw [if_pos hn]⟩
  · rw [if_neg hn] at h
    obtain ⟨dtP, hP, hrt⟩ := h
    obtain ⟨rb0, rt0, hdtP, _, hrel⟩ :=
      dtype.apply_linear_index_non_leading builtin_kinds sizeof_void_ptr same_object
        extended_eq leaf base T nindices indices current_i root_dt dtP hP
    obtain ⟨dt, hdt, hcases⟩ := hrel hn
    rcases hrt with hrt | ⟨hrt, heqP⟩
    · refine ⟨rb0, rt0, hrt.trans hdtP, ?_⟩
      rw [if_neg hn]
      refine ⟨dt, hdt, ?_⟩
      rcases hcases with ⟨_, h2, h3⟩ | ⟨_, h2, _⟩
      · exact Or.inr ⟨h2, h3⟩
      · exact Or.inl h2
    · refine ⟨base, T, hrt, ?_⟩
      rw [if_neg hn]
      refine ⟨dt, hdt, ?_⟩
      rcases hcases with ⟨_, _, h3⟩ | ⟨_, h2, h3⟩
      · exact Or.inr ⟨rfl, h3⟩
      · left
        rw [hdtP, h2] at heqP
        unfold dtype.eq at heqP
        simp only [] at heqP
        by_cases hso : same_object (dtype.pointer rb0 dt) (dtype.pointer base T) = true
        · have := hsame _ _ hso
          injection this with _ h5
          exact h5.symm
        · rw [if_neg hso] at heqP
          split at heqP
          · cases heqP
          · rw [h3] at heqP
            cases heqP

/-- The data-level pass off a leading dimension conforms to the metadata size
of the result dtype it is handed: on a chain of pointers whose source records
and blocks are in the memory and whose output records are elsewhere, over a
leaf whose class conforms, it returns, and leaves every record outside the
`get_metadata_size` bytes of the result at `out_metadata` as it was. -/
theorem dtype.apply_linear_index_data_conforms (builtin_kinds : type_id_t → dtype_kind_t)
    (sizeof_void_ptr : Nat) (same_object : dtype → dtype → Bool)
    (extended_eq : base_dtype → Nat → dtype → Bool)
    (leaf : dtype → Int → List irange → Int → dtype → Bool → Except index_exception dtype)
    (sizeof_metadata : Nat) (extended_metadata_size : base_dtype → Nat → Nat)
    (pointer_at : Int → Option Int)
    (extended_apply :
      base_dtype → Nat → metadata_memory → Int → List irange → Int → dtype → Int → Int →
        Int → dtype → Bool → Option Int → Option Int → Option index_data_result)
    (nindices : Int) (indices : List irange) (embedded_reference current_i : Int)
    (root_dt : dtype)
    (hS : 0 < sizeof_metadata)
    (hsame : ∀ a b, same_object a b = true → a = b)
    (hext : ∀ (base : base_dtype) (payload : Nat) (rt : dtype) (mem : metadata_memory)
        (metadata out_metadata : Int),
      dtype.admissible_result builtin_kinds sizeof_void_ptr same_object extended_eq leaf
        nindices indices current_i root_dt (dtype.extended base payload) rt →
      ∃ res, extended_apply base payload mem nindices indices metadata rt out_metadata
          embedded_reference current_i root_dt false none none = some res ∧
        mem.same_outside res.mem out_metadata
          (rt.get_metadata_size sizeof_metadata extended_metadata_size))
    (x : dtype) :
    ∀ (mem : metadata_memory) (metadata out_metadata : Int) (rt : dtype),
      (∀ a, a ∈ dtype.record_addresses sizeof_metadata x metadata →
        ∃ md b, mem.records a = some md ∧ mem.blocks md.blockref = some b) →
      (∀ a, a ∈ dtype.record_addresses sizeof_metadata x out_metadata →
        ∃ g, mem.records a = some g) →
      (∀ a, a ∈ dtype.record_addresses sizeof_metadata x metadata →
        a ∉ dtype.record_addresses sizeof_metadata x out_metadata) →
      dtype.admissible_result builtin_kinds sizeof_void_ptr same_object extended_eq leaf
        nindices indices current_i root_dt x rt →
      ∃ res, dtype.apply_linear_index_data sizeof_metadata pointer_at extended_apply x mem
          nindices indices metadata rt out_metadata embedded_reference current_i root_dt
          false none none = some res ∧
        (x.is_pointer = true → res.returned = 0) ∧
        mem.same_outside res.mem out_metadata
          (rt.get_metadata_size sizeof_metadata extended_metadata_size) := by
  induction x with
  | builtin type_id =>
    intro mem metadata out_metadata rt _ _ _ _
    exact ⟨⟨mem, 0, none, none⟩, rfl, (fun h => by cases h), fun _ _ => rfl⟩
  | extended base payload =>
    intro mem metadata out_metadata rt _ _ _ hadm
    obtain ⟨res, hres, hframe⟩ := hext base payload rt mem metadata out_metadata hadm
    exact ⟨res, hres, (fun h => by cases h), hframe⟩
  | pointer base t ih =>
    intro mem metadata out_metadata rt hsrc hdst hdisj hadm
    obtain ⟨rb, rtT, hrt, hadmT⟩ :=
      dtype.admissible_result_pointer builtin_kinds sizeof_void_ptr same_object extended_eq
        leaf nindices indices current_i root_dt hsame base t rt hadm
    subst hrt
    have hSi : (0 : Int) < (sizeof_metadata : Int) := by exact_mod_cast hS
    have haddr : ∀ x, dtype.record_addresses sizeof_metadata (dtype.pointer base t) x =
        x :: dtype.record_addresses sizeof_metadata t (x + sizeof_metadata) := by
      intro x
      rfl
    rw [haddr] at hsrc hdisj
    rw [haddr] at hdst hdisj
    obtain ⟨md, b, hmd, hb⟩ := hsrc metadata (List.mem_cons_self _ _)
    obtain ⟨g, hg⟩ := hdst out_metadata (List.mem_cons_self _ _)
    have hne : out_metadata ≠ metadata := by
      intro h
      exact hdisj metadata (List.mem_cons_self _ _) (by rw [h]; exact List.mem_cons_self _ _)
    have hout_tail : ∀ a, a ∈ dtype.record_addresses sizeof_metadata t
        (out_metadata + sizeof_metadata) → a ≠ out_metadata := by
      intro a ha
      have := dtype.record_addresses_ge sizeof_metadata (le_of_lt hSi) t _ _ ha
      omega
    have hsrc_tail : ∀ a, a ∈ dtype.record_addresses sizeof_metadata t
        (metadata + sizeof_metadata) → a ≠ out_metadata := by
      intro a ha h
      exact hdisj a (List.mem_cons_of_mem _ ha) (by rw [h]; exact List.mem_cons_self _ _)
    have hmd_eta : (⟨md.blockref, md.offset⟩ : pointer_dtype_metadata) = md := by
      cases md
      rfl
    have hcopy_out : (mem.with_copy out_metadata md b).records out_metadata = some md := by
      show (if out_metadata = out_metadata then _ else _) = _
      rw [if_pos rfl, hmd_eta]
    have hcopy_other : ∀ a, a ≠ out_metadata →
        (mem.with_copy out_metadata md b).records a = mem.records a := by
      intro a ha
      show (if a = out_metadata then _ else _) = _
      rw [if_neg ha]
    rw [dtype.apply_linear_index_data_step sizeof_metadata pointer_at extended_apply base t
      mem nindices indices metadata (dtype.pointer rb rtT) out_metadata embedded_reference
      current_i root_dt none none md g b hmd hg hne hb]
    rw [dtype.get_metadata_size_pointer]
    by_cases hbt : t.is_builtin = true
    · rw [if_pos hbt]
      refine ⟨_, rfl, fun _ => rfl, ?_⟩
      intro a ha
      apply hcopy_other
      push_cast at ha
      omega
    · rw [if_neg hbt]
      simp only []
      obtain ⟨r2, hr2, _, hframe2⟩ :=
        ih (mem.with_copy out_metadata md b) (metadata + sizeof_metadata)
          (out_metadata + sizeof_metadata) rtT
          (by
            intro a ha
            obtain ⟨md2, b2, h1, h2⟩ := hsrc a (List.mem_cons_of_mem _ ha)
            refine ⟨md2, ?_⟩
            by_cases hsame2 : md2.blockref = md.blockref
            · refine ⟨{ b with m_use_count := b.m_use_count + 1 }, ?_, ?_⟩
              · rw [hcopy_other a (hsrc_tail a ha), h1]
              · show (if md2.blockref = md.blockref then _ else _) = _
                rw [if_pos hsame2]
            · refine ⟨b2, ?_, ?_⟩
              · rw [hcopy_other a (hsrc_tail a ha), h1]
              · show (if md2.blockref = md.blockref then _ else _) = _
                rw [if_neg hsame2, h2])
          (by
            intro a ha
            obtain ⟨g2, h1⟩ := hdst a (List.mem_cons_of_mem _ ha)
            exact ⟨g2, by rw [hcopy_other a (hout_tail a ha), h1]⟩)
          (by
            intro a ha h
            exact hdisj a (List.mem_cons_of_mem _ ha) (List.mem_cons_of_mem _ h))
          hadmT
      rw [hr2]
      simp only []
      have hout2 : r2.mem.records out_metadata = some md := by
        rw [hframe2 out_metadata (Or.inl (by omega)), hcopy_out]
      rw [hout2]
      simp only []
      unfold metadata_memory.set_offset
      rw [hout2]
      refine ⟨_, rfl, fun _ => rfl, ?_⟩
      intro a ha
      have ha1 : a ≠ out_metadata := by
        push_cast at ha
        omega
      show (if a = out_metadata then _ else _) = _
      rw [if_neg ha1, hframe2 a (by push_cast at ha ⊢; omega), hcopy_other a ha1]

/-- C33: type-level and data-level indexing of `pointer<T>` off a leading
dimension stay in lock-step. Whenever the type-level pass of `T` returns its
indexed type `dt`, and the constructor accepts `dt` when it is not `== T`, the
type-level pass of `pointer<T>` returns a pointer dtype `pointer<rt>`: the
dtype itself for no indices or when `dt == T`, otherwise a new pointer dtype
with the target `dt`. `get_metadata_size` of the result is
`sizeof(pointer_dtype_metadata)` plus the size of `rt`, which is nothing for a
builtin `rt`, a function of the type alone; a builtin `T` gives `rt = T`. The
data-level pass with that result returns 0 and writes the output metadata of
exactly that size: one pointer record at `out_metadata`, the copy of the
source record with a reference taken on its block and the offset moved by
what the pass of `T` returns, followed by what the pass of `T`, run with the
result `rt` on the output right after that record, writes within the size of
`rt`; no record outside the `get_metadata_size` bytes of the result is
changed. For a chain of pointers over a builtin dtype, run with the dtype
itself as the result, which it is for no indices, the records written are
exactly the pointer records of the result. The members of the other classes are
parameters: `operator==` relates the same object only to itself, indexing a
builtin dtype gives that dtype, and the data-level pass of another class
returns and keeps within the metadata size of its result. -/
theorem pointer_index_lock_step (builtin_kinds : type_id_t → dtype_kind_t)
    (sizeof_void_ptr : Nat) (same_object : dtype → dtype → Bool)
    (extended_eq : base_dtype → Nat → dtype → Bool)
    (leaf : dtype → Int → List irange → Int → dtype → Bool → Except index_exception dtype)
    (sizeof_metadata : Nat) (extended_metadata_size : base_dtype → Nat → Nat)
    (pointer_at : Int → Option Int)
    (extended_apply :
      base_dtype → Nat → metadata_memory → Int → List irange → Int → dtype → Int → Int →
        Int → dtype → Bool → Option Int → Option Int → Option index_data_result)
    (base : base_dtype) (T dt : dtype) (nindices : Int) (indices : List irange)
    (current_i : Int) (root_dt : dtype) (mem : metadata_memory)
    (metadata out_metadata embedded_reference : Int)
    (md : pointer_dtype_metadata) (b : memory_block_data)
    (hS : 0 < sizeof_metadata)
    (hsame : ∀ a b, same_object a b = true → a = b)
    (hbuiltin : ∀ type_id d,
      leaf (dtype.builtin type_id) nindices indices current_i root_dt false = Except.ok d →
      d = dtype.builtin type_id)
    (hext : ∀ (base : base_dtype) (payload : Nat) (rt : dtype) (mem : metadata_memory)
        (metadata out_metadata : Int),
      dtype.admissible_result builtin_kinds sizeof_void_ptr same_object extended_eq leaf
        nindices indices current_i root_dt (dtype.extended base payload) rt →
      ∃ res, extended_apply base payload mem nindices indices metadata rt out_metadata
          embedded_reference current_i root_dt false none none = some res ∧
        mem.same_outside res.mem out_metadata
          (rt.get_metadata_size sizeof_metadata extended_metadata_size))
    (hT : nindices ≠ 0 →
      dtype.apply_linear_index builtin_kinds sizeof_void_ptr same_object extended_eq leaf
        T nindices indices current_i root_dt false = Except.ok dt)
    (hacc : nindices ≠ 0 → dtype.eq same_object extended_eq dt T = false →
      ¬ (dt.get_kind builtin_kinds = dtype_kind_t.expression_kind ∧
        dt.get_type_id ≠ type_id_t.pointer_type_id))
    (hsrcs : ∀ a, a ∈ dtype.record_addresses sizeof_metadata (dtype.pointer base T) metadata →
      ∃ md2 b2, mem.records a = some md2 ∧ mem.blocks md2.blockref = some b2)
    (hdsts : ∀ a,
      a ∈ dtype.record_addresses sizeof_metadata (dtype.pointer base T) out_metadata →
      ∃ g2, mem.records a = some g2)
    (hdisj : ∀ a, a ∈ dtype.record_addresses sizeof_metadata (dtype.pointer base T) metadata →
      a ∉ dtype.record_addresses sizeof_metadata (dtype.pointer base T) out_metadata)
    (hsrc : mem.records metadata = some md)
    (hblock : mem.blocks md.blockref = some b) :
    dtype.apply_linear_index builtin_kinds sizeof_void_ptr same_object extended_eq leaf
      (dtype.pointer base T) nindices indices current_i root_dt false =
      Except.ok
        (if nindices = 0 ∨ dtype.eq same_object extended_eq dt T = true then
          dtype.pointer base T
        else
          dtype.pointer
            { m_type_id := type_id_t.pointer_type_id
              m_kind := dtype_kind_t.expression_kind
              m_data_size := sizeof_void_ptr
              m_alignment := sizeof_void_ptr
              m_undim := dt.get_undim } dt) ∧
    (∃ rb rt,
      dtype.apply_linear_index builtin_kinds sizeof_void_ptr same_object extended_eq leaf
        (dtype.pointer base T) nindices indices current_i root_dt false =
        Except.ok (dtype.pointer rb rt) ∧
      (nindices = 0 → rt = T) ∧
      (nindices ≠ 0 → rt = dt ∨ (rt = T ∧ dtype.eq same_object extended_eq dt T = true)) ∧
      (dtype.pointer rb rt).get_metadata_size sizeof_metadata extended_metadata_size =
        sizeof_metadata + rt.get_metadata_size sizeof_metadata extended_metadata_size ∧
      (T.is_builtin = true → rt = T ∧
        (dtype.pointer rb rt).get_metadata_size sizeof_metadata extended_metadata_size =
          sizeof_metadata) ∧
      ∃ res, dtype.apply_linear_index_data sizeof_metadata pointer_at extended_apply
          (dtype.pointer base T) mem nindices indices metadata (dtype.pointer rb rt)
          out_metadata embedded_reference current_i root_dt false none none = some res ∧
        res.returned = 0 ∧
        mem.same_outside res.mem out_metadata
          ((dtype.pointer rb rt).get_metadata_size sizeof_metadata extended_metadata_size) ∧
        (T.is_builtin = true → res.mem = mem.with_copy out_metadata md b) ∧
        (T.is_builtin = false →
          ∃ r2, dtype.apply_linear_index_data sizeof_metadata pointer_at extended_apply T
              (mem.with_copy out_metadata md b) nindices indices
              (metadata + sizeof_metadata) rt (out_metadata + sizeof_metadata)
              embedded_reference current_i root_dt false none none = some r2 ∧
            (mem.with_copy out_metadata md b).same_outside r2.mem
              (out_metadata + sizeof_metadata)
              (rt.get_metadata_size sizeof_metadata extended_metadata_size) ∧
            res.mem.records out_metadata =
              some ⟨md.blockref, md.offset + r2.returned⟩ ∧
            (∀ a, a ≠ out_metadata → res.mem.records a = r2.mem.records a) ∧
            res.mem.blocks = r2.mem.blocks)) ∧
    ((dtype.pointer base T).strip_pointers.is_builtin = true →
      (dtype.pointer base T).get_metadata_size sizeof_metadata extended_metadata_size =
        sizeof_metadata *
          (dtype.record_addresses sizeof_metadata (dtype.pointer base T)
            out_metadata).length ∧
      ∃ res, dtype.apply_linear_index_data sizeof_metadata pointer_at extended_apply
          (dtype.pointer base T) mem nindices indices metadata (dtype.pointer base T)
          out_metadata embedded_reference current_i root_dt false none none = some res ∧
        res.returned = 0 ∧
        (∀ pair, pair ∈ List.zip
            (dtype.record_addresses sizeof_metadata (dtype.pointer base T) metadata)
            (dtype.record_addresses sizeof_metadata (dtype.pointer base T) out_metadata) →
          res.mem.records pair.2 = mem.records pair.1) ∧
        (∀ a, a ∉ dtype.record_addresses sizeof_metadata (dtype.pointer base T)
            out_metadata → res.mem.records a = mem.records a)) := by
  have htype := dtype.apply_linear_index_pointer_returns builtin_kinds sizeof_void_ptr
    same_object extended_eq leaf base T nindices indices current_i root_dt dt hT hacc
  have hSi : (0 : Int) < (sizeof_metadata : Int) := by exact_mod_cast hS
  have hbt_rt : T.is_builtin = true → nindices ≠ 0 →
      dtype.eq same_object extended_eq dt T = true := by
    intro hb hn
    cases T with
    | builtin type_id =>
      have h1 := hT hn
      unfold dtype.apply_linear_index at h1
      rw [hbuiltin type_id dt h1]
      simp [dtype.eq]
    | pointer b2 t2 => cases hb
    | extended b2 p2 => cases hb
  have haddr : ∀ x, dtype.record_addresses sizeof_metadata (dtype.pointer base T) x =
      x :: dtype.record_addresses sizeof_metadata T (x + sizeof_metadata) := by
    intro x
    rfl
  have hsrcs0 := hsrcs
  have hdsts0 := hdsts
  have hdisj0 := hdisj
  rw [haddr] at hsrcs hdisj
  rw [haddr] at hdsts hdisj
  obtain ⟨g, hg⟩ := hdsts out_metadata (List.mem_cons_self _ _)
  have hne : out_metadata ≠ metadata := by
    intro h
    exact hdisj metadata (List.mem_cons_self _ _) (by rw [h]; exact List.mem_cons_self _ _)
  have hout_tail : ∀ a, a ∈ dtype.record_addresses sizeof_metadata T
      (out_metadata + sizeof_metadata) → a ≠ out_metadata := by
    intro a ha
    have := dtype.record_addresses_ge sizeof_metadata (le_of_lt hSi) T _ _ ha
    omega
  have hsrc_tail : ∀ a, a ∈ dtype.record_addresses sizeof_metadata T
      (metadata + sizeof_metadata) → a ≠ out_metadata := by
    intro a ha h
    exact hdisj a (List.mem_cons_of_mem _ ha) (by rw [h]; exact List.mem_cons_self _ _)
  have hmd_eta : (⟨md.blockref, md.offset⟩ : pointer_dtype_metadata) = md := by
    cases md
    rfl
  have hcopy_out : (mem.with_copy out_metadata md b).records out_metadata = some md := by
    show (if out_metadata = out_metadata then _ else _) = _
    rw [if_pos rfl, hmd_eta]
  have hcopy_other : ∀ a, a ≠ out_metadata →
      (mem.with_copy out_metadata md b).records a = mem.records a := by
    intro a ha
    show (if a = out_metadata then _ else _) = _
    rw [if_neg ha]
  have hmain : ∀ rb rt,
      dtype.admissible_result builtin_kinds sizeof_void_ptr same_object extended_eq leaf
        nindices indices current_i root_dt T rt →
      ∃ res, dtype.apply_linear_index_data sizeof_metadata pointer_at extended_apply
          (dtype.pointer base T) mem nindices indices metadata (dtype.pointer rb rt)
          out_metadata embedded_reference current_i root_dt false none none = some res ∧
        res.returned = 0 ∧
        mem.same_outside res.mem out_metadata
          ((dtype.pointer rb rt).get_metadata_size sizeof_metadata extended_metadata_size) ∧
        (T.is_builtin = true → res.mem = mem.with_copy out_metadata md b) ∧
        (T.is_builtin = false →
          ∃ r2, dtype.apply_linear_index_data sizeof_metadata pointer_at extended_apply T
              (mem.with_copy out_metadata md b) nindices indices
              (metadata + sizeof_metadata) rt (out_metadata + sizeof_metadata)
              embedded_reference current_i root_dt false none none = some r2 ∧
            (mem.with_copy out_metadata md b).same_outside r2.mem
              (out_metadata + sizeof_metadata)
              (rt.get_metadata_size sizeof_metadata extended_metadata_size) ∧
            res.mem.records out_metadata =
              some ⟨md.blockref, md.offset + r2.returned⟩ ∧
            (∀ a, a ≠ out_metadata → res.mem.records a = r2.mem.records a) ∧
            res.mem.blocks = r2.mem.blocks) := by
    intro rb rt hadm
    rw [dtype.apply_linear_index_data_step sizeof_metadata pointer_at extended_apply base T
      mem nindices indices metadata (dtype.pointer rb rt) out_metadata embedded_reference
      current_i root_dt none none md g b hsrc hg hne hblock]
    rw [dtype.get_metadata_size_pointer]
    by_cases hbt : T.is_builtin = true
    · rw [if_pos hbt]
      refine ⟨_, rfl, rfl, ?_, ?_, ?_⟩
      · intro a ha
        apply hcopy_other
        push_cast at ha
        omega
      · intro _
        rfl
      · intro hf
        rw [hbt] at hf
        cases hf
    · rw [if_neg hbt]
      simp only []
      obtain ⟨r2, hr2, _, hframe2⟩ :=
        dtype.apply_linear_index_data_conforms builtin_kinds sizeof_void_ptr same_object
          extended_eq leaf sizeof_metadata extended_metadata_size pointer_at extended_apply
          nindices indices embedded_reference current_i root_dt hS hsame hext T
          (mem.with_copy out_metadata md b) (metadata + sizeof_metadata)
          (out_metadata + sizeof_metadata) rt
          (by
            intro a ha
            obtain ⟨md2, b2, h1, h2⟩ := hsrcs a (List.mem_cons_of_mem _ ha)
            refine ⟨md2, ?_⟩
            by_cases hsame2 : md2.blockref = md.blockref
            · refine ⟨{ b with m_use_count := b.m_use_count + 1 }, ?_, ?_⟩
              · rw [hcopy_other a (hsrc_tail a ha), h1]
              · show (if md2.blockref = md.blockref then _ else _) = _
                rw [if_pos hsame2]
            · refine ⟨b2, ?_, ?_⟩
              · rw [hcopy_other a (hsrc_tail a ha), h1]
              · show (if md2.blockref = md.blockref then _ else _) = _
                rw [if_neg hsame2, h2])
          (by
            intro a ha
            obtain ⟨g2, h1⟩ := hdsts a (List.mem_cons_of_mem _ ha)
            exact ⟨g2, by rw [hcopy_other a (hout_tail a ha), h1]⟩)
          (by
            intro a ha h
            exact hdisj a (List.mem_cons_of_mem _ ha) (List.mem_cons_of_mem _ h))
          hadm
      rw [hr2]
      simp only []
      have hout2 : r2.mem.records out_metadata = some md := by
        rw [hframe2 out_metadata (Or.inl (by omega)), hcopy_out]
      rw [hout2]
      simp only []
      unfold metadata_memory.set_offset
      rw [hout2]
      refine ⟨_, rfl, rfl, ?_, ?_, ?_⟩
      · intro a ha
        have ha1 : a ≠ out_metadata := by
          push_cast at ha
          omega
        show (if a = out_metadata then _ else _) = _
        rw [if_neg ha1, hframe2 a (by push_cast at ha ⊢; omega), hcopy_other a ha1]
      · intro hf
        exact absurd hf hbt
      · intro _
        refine ⟨r2, rfl, hframe2, ?_, ?_, rfl⟩
        · show (if out_metadata = out_metadata then _ else _) = _
          rw [if_pos rfl]
        · intro a ha
          show (if a = out_metadata then _ else _) = _
          rw [if_neg ha]
  refine ⟨htype, ?_, ?_⟩
  · by_cases hc : nindices = 0 ∨ dtype.eq same_object extended_eq dt T = true
    · rw [if_pos hc] at htype
      have hadm : dtype.admissible_result builtin_kinds sizeof_void_ptr same_object
          extended_eq leaf nindices indices current_i root_dt T T := by
        unfold dtype.admissible_result
        by_cases hn : nindices = 0
        · rw [if_pos hn]
        · rw [if_neg hn]
          rcases hc with hc | hc
          · exact absurd hc hn
          · exact ⟨dt, hT hn, Or.inr ⟨rfl, hc⟩⟩
      refine ⟨base, T, htype, fun _ => rfl, ?_, dtype.get_metadata_size_pointer _ _ _ _, ?_,
        hmain base T hadm⟩
      · intro hn
        rcases hc with hc | hc
        · exact absurd hc hn
        · exact Or.inr ⟨rfl, hc⟩
      · intro hb
        refine ⟨rfl, ?_⟩
        rw [dtype.get_metadata_size_pointer]
        cases T with
        | builtin type_id => rfl
        | pointer b2 t2 => cases hb
        | extended b2 p2 => cases hb
    · rw [if_neg hc] at htype
      have hn : nindices ≠ 0 := fun h => hc (Or.inl h)
      have hadm : dtype.admissible_result builtin_kinds sizeof_void_ptr same_object
          extended_eq leaf nindices indices current_i root_dt T dt := by
        unfold dtype.admissible_result
        rw [if_neg hn]
        exact ⟨dt, hT hn, Or.inl rfl⟩
      refine ⟨_, dt, htype, fun h => absurd h hn, fun _ => Or.inl rfl,
        dtype.get_metadata_size_pointer _ _ _ _, ?_, hmain _ dt hadm⟩
      intro hb
      exact absurd (Or.inr (hbt_rt hb hn)) hc
  · intro hchain
    refine ⟨?_, ?_⟩
    · exact dtype.get_metadata_size_chain sizeof_metadata extended_metadata_size
        (dtype.pointer base T) out_metadata hchain
    · exact dtype.apply_linear_index_data_chain sizeof_metadata hSi
        pointer_at extended_apply nindices indices embedded_reference current_i root_dt
        (dtype.pointer base T) hchain mem metadata out_metadata hsrcs0 hdsts0 hdisj0

/-- Witness of C33 on a pointer to an array of `int32` with 16-byte records,
indexed with one index, which changes the shape: the type-level result is
`pointer<int32>`, of metadata size 16; the data-level pass copies the record
at 4096 to the record at 4128, with the offset moved by the 8 bytes the pass
of the array returns, and leaves the record at 4144 alone. -/
theorem pointer_index_lock_step_witness :
    0 < 16 ∧
    dtype.apply_linear_index sample_builtin_kinds 8 (fun _ _ => false) sample_extended_eq
      sample_array_apply_linear_index (dtype.extended sample_array_base 7) 1
      [irange.make_index 2] 0 (dtype.builtin type_id_t.int32_type_id) false =
      Except.ok (dtype.builtin type_id_t.int32_type_id) ∧
    nested_metadata_memory.records 4096 = some ⟨8192, 24⟩ ∧
    nested_metadata_memory.blocks 8192 =
      some ⟨1, memory_block_type_t.pod_memory_block_type⟩ ∧
    dtype.apply_linear_index sample_builtin_kinds 8 (fun _ _ => false) sample_extended_eq
      sample_array_apply_linear_index
      (dtype.pointer sample_pointer_base (dtype.extended sample_array_base 7)) 1
      [irange.make_index 2] 0 (dtype.builtin type_id_t.int32_type_id) false =
      Except.ok (dtype.pointer sample_pointer_base (dtype.builtin type_id_t.int32_type_id)) ∧
    (dtype.pointer sample_pointer_base (dtype.builtin type_id_t.int32_type_id)
      ).get_metadata_size 16 (fun _ _ => 0) = 16 ∧
    ∃ res, dtype.apply_linear_index_data 16 (fun _ => none) sample_array_apply
        (dtype.pointer sample_pointer_base (dtype.extended sample_array_base 7))
        nested_metadata_memory 1 [irange.make_index 2] 4096
        (dtype.pointer sample_pointer_base (dtype.builtin type_id_t.int32_type_id))
        4128 0 0 (dtype.builtin type_id_t.int32_type_id) false none none = some res ∧
      res.returned = 0 ∧
      res.mem.records 4128 = some ⟨8192, 32⟩ ∧
      res.mem.records 4144 = some ⟨0, 0⟩ := by
  have h1 : ∀ a, a ∈ dtype.record_addresses ((16 : Nat) : Int)
      (dtype.pointer sample_pointer_base (dtype.extended sample_array_base 7)) 4096 →
      ∃ md2 b2, nested_metadata_memory.records a = some md2 ∧
        nested_metadata_memory.blocks md2.blockref = some b2 := by
    intro a ha
    have hcases : a = 4096 := by
      simpa [dtype.record_addresses] using ha
    subst hcases
    exact ⟨⟨8192, 24⟩, ⟨1, memory_block_type_t.pod_memory_block_type⟩, rfl, rfl⟩
  have h2 : ∀ a, a ∈ dtype.record_addresses ((16 : Nat) : Int)
      (dtype.pointer sample_pointer_base (dtype.extended sample_array_base 7)) 4128 →
      ∃ g2, nested_metadata_memory.records a = some g2 := by
    intro a ha
    have hcases : a = 4128 := by
      simpa [dtype.record_addresses] using ha
    subst hcases
    exact ⟨⟨0, 0⟩, rfl⟩
  have h3 : ∀ a, a ∈ dtype.record_addresses ((16 : Nat) : Int)
      (dtype.pointer sample_pointer_base (dtype.extended sample_array_base 7)) 4096 →
      a ∉ dtype.record_addresses ((16 : Nat) : Int)
        (dtype.pointer sample_pointer_base (dtype.extended sample_array_base 7)) 4128 := by
    intro a ha
    have hcases : a = 4096 := by
      simpa [dtype.record_addresses] using ha
    subst hcases
    decide
  obtain ⟨htype, ⟨rb, rt, htype2, _, _, _, _, res, hres, hret, hframe, _, hnb⟩, _⟩ :=
    pointer_index_lock_step sample_builtin_kinds 8 (fun _ _ => false) sample_extended_eq
      sample_array_apply_linear_index 16 (fun _ _ => 0) (fun _ => none) sample_array_apply
      sample_pointer_base (dtype.extended sample_array_base 7)
      (dtype.builtin type_id_t.int32_type_id) 1 [irange.make_index 2] 0
      (dtype.builtin type_id_t.int32_type_id) nested_metadata_memory 4096 4128 0
      ⟨8192, 24⟩ ⟨1, memory_block_type_t.pod_memory_block_type⟩ (by decide)
      (fun _ _ h => by cases h)
      (fun type_id d h => by simp [sample_array_apply_linear_index] at h)
      (fun _ _ _ mem _ _ _ => ⟨_, rfl, fun _ _ => rfl⟩)
      (fun _ => rfl) (fun _ _ => by decide) h1 h2 h3 rfl rfl
  have hconc : (if (1 : Int) = 0 ∨ dtype.eq (fun _ _ => false) sample_extended_eq
        (dtype.builtin type_id_t.int32_type_id) (dtype.extended sample_array_base 7) = true
      then dtype.pointer sample_pointer_base (dtype.extended sample_array_base 7)
      else
        dtype.pointer
          { m_type_id := type_id_t.pointer_type_id
            m_kind := dtype_kind_t.expression_kind
            m_data_size := 8
            m_alignment := 8
            m_undim := (dtype.builtin type_id_t.int32_type_id).get_undim }
          (dtype.builtin type_id_t.int32_type_id)) =
      dtype.pointer sample_pointer_base (dtype.builtin type_id_t.int32_type_id) := by
    decide
  rw [hconc] at htype
  rw [htype] at htype2
  injection htype2 with hp
  injection hp with hrb hrtT
  subst hrb
  subst hrtT
  obtain ⟨r2, hr2, _, hrec, _, _⟩ := hnb rfl
  have hr8 : r2.returned = 8 := by
    unfold dtype.apply_linear_index_data sample_array_apply at hr2
    injection hr2 with hr2
    rw [← hr2]
    rfl
  refine ⟨by decide, rfl, rfl, rfl, htype, by decide, res, hres, hret, ?_, ?_⟩
  · rw [hrec, hr8]
    rfl
  · rw [hframe 4144 (Or.inr (by decide))]
    rfl

/-! ### Pointer metadata: copy, destruct and the data-level pass -/

/-- C34, on the code: for `pointer<pointer<int32>>` with the records at 4096
and 4112, `metadata_copy_construct` to 4128 raises the use counts of both
blocks from 1 to 2, one for each of the two records it copies, and
`metadata_destruct` of the copy lowers only the count of the block of the
first record: the block of the inner pointer keeps the count 2. For
`pointer<int32>` the count is restored. -/
theorem destruct_leaves_inner_reference :
    ((dtype.metadata_copy_construct 16 (fun _ _ _ _ _ _ => none)
        (dtype.pointer sample_pointer_base
          (dtype.pointer sample_pointer_base (dtype.builtin type_id_t.int32_type_id)))
        nested_metadata_memory 4128 4096 0).map
      (fun m => (m.records 4128, m.records 4144, m.blocks 8192, m.blocks 8208))) =
      some (some ⟨8192, 24⟩, some ⟨8208, 0⟩,
        some ⟨2, memory_block_type_t.pod_memory_block_type⟩,
        some ⟨2, memory_block_type_t.pod_memory_block_type⟩) ∧
    (((dtype.metadata_copy_construct 16 (fun _ _ _ _ _ _ => none)
        (dtype.pointer sample_pointer_base
          (dtype.pointer sample_pointer_base (dtype.builtin type_id_t.int32_type_id)))
        nested_metadata_memory 4128 4096 0).bind
      (fun m => pointer_dtype.metadata_destruct m 4128)).map
      (fun m => (m.blocks 8192, m.blocks 8208))) =
      some (some ⟨1, memory_block_type_t.pod_memory_block_type⟩,
        some ⟨2, memory_block_type_t.pod_memory_block_type⟩) ∧
    nested_metadata_memory.blocks 8208 =
      some ⟨1, memory_block_type_t.pod_memory_block_type⟩ ∧
    (((dtype.metadata_copy_construct 16 (fun _ _ _ _ _ _ => none)
        (dtype.pointer sample_pointer_base (dtype.builtin type_id_t.int32_type_id))
        nested_metadata_memory 4128 4096 0).bind
      (fun m => pointer_dtype.metadata_destruct m 4128)).map
      (fun m => (m.blocks 8192, m.blocks 8208))) =
      some (some ⟨1, memory_block_type_t.pod_memory_block_type⟩,
        some ⟨1, memory_block_type_t.pod_memory_block_type⟩) := by
  decide

/-- C36, on the code: for `pointer<int32>` off a leading dimension and a
source record whose `blockref` is null, `metadata_copy_construct` stores
`(embedded_reference, offset)` and raises the use count of the embedded block,
while the data-level `apply_linear_index` stores the null `blockref` and calls
`memory_block_incref` on it, which has no defined result. On the record at
4112, whose `blockref` is not null, the two agree. -/
theorem data_index_null_blockref_diverges :
    sample_metadata_memory.records 4096 = some ⟨0, 24⟩ ∧
    ((dtype.metadata_copy_construct 16 (fun _ _ _ _ _ _ => none)
        (dtype.pointer sample_pointer_base (dtype.builtin type_id_t.int32_type_id))
        sample_metadata_memory 4112 4096 8192).map
      (fun m => (m.records 4112, m.blocks 8192))) =
      some (some ⟨8192, 24⟩, some ⟨2, memory_block_type_t.pod_memory_block_type⟩) ∧
    (sample_metadata_memory.set_blockref 4112 0).map (fun m => m.records 4112) =
      some (some ⟨0, 0⟩) ∧
    (memory_block_incref sample_metadata_memory 0).isSome = false ∧
    ((dtype.apply_linear_index_data 16 (fun _ => none)
        (fun _ _ _ _ _ _ _ _ _ _ _ _ _ _ => none)
        (dtype.pointer sample_pointer_base (dtype.builtin type_id_t.int32_type_id))
        sample_metadata_memory 0 [] 4096
        (dtype.pointer sample_pointer_base (dtype.builtin type_id_t.int32_type_id))
        4112 8192 0
        (dtype.pointer sample_pointer_base (dtype.builtin type_id_t.int32_type_id))
        false none none).map (fun r => (r.mem.records 4112, r.mem.blocks 8192))) = none ∧
    ((dtype.apply_linear_index_data 16 (fun _ => none)
        (fun _ _ _ _ _ _ _ _ _ _ _ _ _ _ => none)
        (dtype.pointer sample_pointer_base (dtype.builtin type_id_t.int32_type_id))
        sample_metadata_memory 0 [] 4112
        (dtype.pointer sample_pointer_base (dtype.builtin type_id_t.int32_type_id))
        4096 8192 0
        (dtype.pointer sample_pointer_base (dtype.builtin type_id_t.int32_type_id))
        false none none).map (fun r => (r.mem.records 4096, r.mem.blocks 8192))) =
      some (some ⟨8192, 0⟩, some ⟨2, memory_block_type_t.pod_memory_block_type⟩) ∧
    ((dtype.metadata_copy_construct 16 (fun _ _ _ _ _ _ => none)
        (dtype.pointer sample_pointer_base (dtype.builtin type_id_t.int32_type_id))
        sample_metadata_memory 4096 4112 8192).map
      (fun m => (m.records 4096, m.blocks 8192))) =
      some (some ⟨8192, 0⟩, some ⟨2, memory_block_type_t.pod_memory_block_type⟩) := by
  decide

/-! ### pointer_dtype::get_canonical_dtype on nested pointers -/

/-- C35, on the code: `pointer<pointer<int32>>` is a pointer dtype that the
constructor accepts; its `get_canonical_dtype()` is `pointer<int32>`, a
pointer dtype, and the canonical dtype of that result is `int32`, another
dtype, so a second application changes the result. -/
theorem canonical_of_nested_pointer_is_pointer :
    pointer_dtype.make sample_builtin_kinds 8 (dtype.builtin type_id_t.int32_type_id) =
      Except.ok ⟨sample_pointer_base, dtype.builtin type_id_t.int32_type_id⟩ ∧
    pointer_dtype.make sample_builtin_kinds 8
      (dtype.pointer sample_pointer_base (dtype.builtin type_id_t.int32_type_id)) =
      Except.ok ⟨sample_pointer_base,
        dtype.pointer sample_pointer_base (dtype.builtin type_id_t.int32_type_id)⟩ ∧
    (⟨sample_pointer_base,
        dtype.pointer sample_pointer_base (dtype.builtin type_id_t.int32_type_id)⟩ :
      pointer_dtype).get_canonical_dtype =
      dtype.pointer sample_pointer_base (dtype.builtin type_id_t.int32_type_id) ∧
    (⟨sample_pointer_base,
        dtype.pointer sample_pointer_base (dtype.builtin type_id_t.int32_type_id)⟩ :
      pointer_dtype).get_canonical_dtype.is_pointer = true ∧
    (⟨sample_pointer_base, dtype.builtin type_id_t.int32_type_id⟩ :
      pointer_dtype).get_canonical_dtype = dtype.builtin type_id_t.int32_type_id ∧
    dtype.builtin type_id_t.int32_type_id ≠
      dtype.pointer sample_pointer_base (dtype.builtin type_id_t.int32_type_id) := by
  decide

/-! ### irange: the inclusive bounds -/

/-- The indices of a range with a positive step are the elements of its
progression that are less than its finish. -/
theorem irange.mem_indices_of_pos (r : irange) (hstep : 0 < r.m_step) (x : Int) :
    x ∈ r.indices ↔ (∃ k : Nat, x = r.m_start + (k : Int) * r.m_step) ∧ x < r.m_finish := by
  unfold irange.indices
  rw [if_neg (by omega), if_pos hstep]
  simp only [List.mem_map, List.mem_range]
  have key : ∀ k : Nat,
      k < ((r.m_finish - r.m_start + r.m_step - 1) / r.m_step).toNat ↔
        r.m_start + (k : Int) * r.m_step < r.m_finish := by
    intro k
    rw [Int.lt_toNat]
    have h1 : (k : Int) < (r.m_finish - r.m_start + r.m_step - 1) / r.m_step ↔
        (k : Int) + 1 ≤ (r.m_finish - r.m_start + r.m_step - 1) / r.m_step := by omega
    rw [h1, Int.le_ediv_iff_mul_le hstep]
    have h2 : ((k : Int) + 1) * r.m_step = (k : Int) * r.m_step + r.m_step := by ring
    rw [h2]
    omega
  constructor
  · rintro ⟨k, hk, rfl⟩
    exact ⟨⟨k, rfl⟩, (key k).1 hk⟩
  · rintro ⟨⟨k, rfl⟩, hlt⟩
    exact ⟨k, (key k).2 hlt, rfl⟩

/-- The indices of a range with a negative step are the elements of its
progression that are greater than its finish. -/
theorem irange.mem_indices_of_neg (r : irange) (hstep : r.m_step < 0) (x : Int) :
    x ∈ r.indices ↔ (∃ k : Nat, x = r.m_start + (k : Int) * r.m_step) ∧ r.m_finish < x := by
  unfold irange.indices
  rw [if_neg (by omega), if_neg (by omega)]
  simp only [List.mem_map, List.mem_range]
  have hpos : 0 < -r.m_step := by omega
  have key : ∀ k : Nat,
      k < ((r.m_start - r.m_finish + -r.m_step - 1) / -r.m_step).toNat ↔
        r.m_finish < r.m_start + (k : Int) * r.m_step := by
    intro k
    rw [Int.lt_toNat]
    have h1 : (k : Int) < (r.m_start - r.m_finish + -r.m_step - 1) / -r.m_step ↔
        (k : Int) + 1 ≤ (r.m_start - r.m_finish + -r.m_step - 1) / -r.m_step := by omega
    rw [h1, Int.le_ediv_iff_mul_le hpos]
    have h2 : ((k : Int) + 1) * -r.m_step = -((k : Int) * r.m_step) + -r.m_step := by ring
    rw [h2]
    omega
  constructor
  · rintro ⟨k, hk, rfl⟩
    exact ⟨⟨k, rfl⟩, (key k).1 hk⟩
  · rintro ⟨⟨k, rfl⟩, hlt⟩
    exact ⟨k, (key k).2 hlt, rfl⟩

/-- C37, as stated, fails at `last = 0` with a negative step: on a 64-bit
`intptr_t`, `r >= 0` for the range `r = (5, 100, -1)` has the finish
`INTPTR_MAX`, so no element of the progression 5, 4, 3, ... is greater than
its finish and its index set is empty, although 5 is an element of the
progression that is `>= 0`. -/
theorem irange_ge_zero_is_empty :
    irange.ge 64 (irange.make_range 5 100 (-1)) 0 =
      some (irange.make_range 5 9223372036854775807 (-1)) ∧
    (irange.make_range 5 9223372036854775807 (-1)).indices = [] ∧
    (5 : Int) = (irange.make_range 5 100 (-1)).m_start +
      ((0 : Nat) : Int) * (irange.make_range 5 100 (-1)).m_step ∧
    (0 : Int) ≤ 5 ∧
    (irange.make_range 5 4 (-1)).indices = [5] := by
  decide

/-- C37, amended: with a positive step and `0 <= last`, `last + 1`
representable, the indices of `r <= last` are exactly the elements of the
progression of `r` that are `<= last`; with a negative step and `0 < last`,
the indices of `r >= last` are exactly the elements of the progression that
are `>= last`; and `r >= 0` has the finish `INTPTR_MAX`. -/
theorem irange_inclusive_bounds (bits : Nat) (r : irange) (last : Int)
    (hlast : 0 ≤ last) (hup : last + 1 ≤ intptr_max bits) :
    (0 < r.m_step →
      ∃ r2, r.le bits last = some r2 ∧
        ∀ x, x ∈ r2.indices ↔
          (∃ k : Nat, x = r.m_start + (k : Int) * r.m_step) ∧ x ≤ last) ∧
    (r.m_step < 0 → 0 < last →
      ∃ r2, r.ge bits last = some r2 ∧
        ∀ x, x ∈ r2.indices ↔
          (∃ k : Nat, x = r.m_start + (k : Int) * r.m_step) ∧ last ≤ x) ∧
    r.ge bits 0 = some (irange.make_range r.m_start (intptr_max bits) r.m_step) := by
  refine ⟨?_, ?_, ?_⟩
  · intro hstep
    refine ⟨irange.make_range r.m_start (last + 1) r.m_step, ?_, ?_⟩
    · unfold irange.le
      rw [if_pos (by omega), if_pos hup]
    · intro x
      rw [irange.mem_indices_of_pos (irange.make_range r.m_start (last + 1) r.m_step) hstep]
      show _ ∧ x < last + 1 ↔ _
      constructor
      · rintro ⟨hk, hx⟩
        exact ⟨hk, by omega⟩
      · rintro ⟨hk, hx⟩
        exact ⟨hk, by omega⟩
  · intro hstep hpos
    have hmin : intptr_min bits ≤ 0 := by
      unfold intptr_min
      have : (0 : Int) ≤ 2 ^ (bits - 1) := by positivity
      omega
    refine ⟨irange.make_range r.m_start (last - 1) r.m_step, ?_, ?_⟩
    · unfold irange.ge
      rw [if_pos (by omega), if_pos (by omega)]
    · intro x
      rw [irange.mem_indices_of_neg (irange.make_range r.m_start (last - 1) r.m_step) hstep]
      show _ ∧ last - 1 < x ↔ _
      constructor
      · rintro ⟨hk, hx⟩
        exact ⟨hk, by omega⟩
      · rintro ⟨hk, hx⟩
        exact ⟨hk, by omega⟩
  · unfold irange.ge
    rw [if_neg (by simp)]

/-- Witness of the amended C37 at `last = 3` on a 64-bit `intptr_t`. -/
theorem irange_inclusive_bounds_witness :
    (0 : Int) ≤ 3 ∧ (3 : Int) + 1 ≤ intptr_max 64 ∧
    irange.ge 64 (irange.make_range 5 100 (-1)) 0 =
      some (irange.make_range 5 (intptr_max 64) (-1)) :=
  ⟨by decide, by decide,
    (irange_inclusive_bounds 64 (irange.make_range 5 100 (-1)) 3 (by decide)
      (by decide)).2.2⟩

/-! ### elwise_entry_callable::resolve -/

/-- The `size_t` difference of two dimension counts, when the first is not
smaller and the difference fits. -/
theorem size_t_difference (size_bits s c : Nat) (hge : c ≤ s) (hlt : s - c < 2 ^ size_bits) :
    ((((s : Int) - (c : Int)) % 2 ^ size_bits).toNat) = s - c := by
  have h1 : ((s : Int) - (c : Int)) = ((s - c : Nat) : Int) := by
    rw [Nat.cast_sub hge]
  rw [h1]
  have h2 : (((s - c : Nat) : Int)) % 2 ^ size_bits = ((s - c : Nat) : Int) := by
    apply Int.emod_eq_of_lt
    · exact Int.natCast_nonneg _
    · exact_mod_cast hlt
  rw [h2, Int.toNat_natCast]

/-- The loop of `resolve` on sources that each have at least the dimensions of
the argument of the child: its result is the largest of the start value and
the differences. -/
theorem nd.functional.elwise_entry_callable.resolve_loop_max (size_bits : Nat)
    (src_tp : Nat → ndt.type) (child : nd.base_callable) (remaining : Nat) :
    ∀ (i data_ndim : Nat),
      (∀ j, i ≤ j → j < i + remaining →
        (child.get_argument_types j).get_ndim ≤ (src_tp j).get_ndim ∧
        (src_tp j).get_ndim - (child.get_argument_types j).get_ndim < 2 ^ size_bits) →
      data_ndim ≤ nd.functional.elwise_entry_callable.resolve_loop size_bits src_tp child
        remaining i data_ndim ∧
      (∀ j, i ≤ j → j < i + remaining →
        (src_tp j).get_ndim - (child.get_argument_types j).get_ndim ≤
          nd.functional.elwise_entry_callable.resolve_loop size_bits src_tp child remaining
            i data_ndim) ∧
      (nd.functional.elwise_entry_callable.resolve_loop size_bits src_tp child remaining i
          data_ndim = data_ndim ∨
        ∃ j, i ≤ j ∧ j < i + remaining ∧
          nd.functional.elwise_entry_callable.resolve_loop size_bits src_tp child remaining
            i data_ndim = (src_tp j).get_ndim - (child.get_argument_types j).get_ndim) := by
  induction remaining with
  | zero =>
    intro i data_ndim _
    refine ⟨le_refl _, ?_, Or.inl rfl⟩
    intro j h1 h2
    omega
  | succ n ih =>
    intro i data_ndim h
    obtain ⟨hge, hlt⟩ := h i (le_refl _) (by omega)
    unfold nd.functional.elwise_entry_callable.resolve_loop
    simp only []
    rw [size_t_difference size_bits _ _ hge hlt]
    obtain ⟨h1, h2, h3⟩ := ih (i + 1)
      (if (src_tp i).get_ndim - (child.get_argument_types i).get_ndim > data_ndim then
        (src_tp i).get_ndim - (child.get_argument_types i).get_ndim else data_ndim)
      (fun j hj1 hj2 => h j (by omega) (by omega))
    have hacc : data_ndim ≤
          (if (src_tp i).get_ndim - (child.get_argument_types i).get_ndim > data_ndim then
            (src_tp i).get_ndim - (child.get_argument_types i).get_ndim else data_ndim) ∧
        (src_tp i).get_ndim - (child.get_argument_types i).get_ndim ≤
          (if (src_tp i).get_ndim - (child.get_argument_types i).get_ndim > data_ndim then
            (src_tp i).get_ndim - (child.get_argument_types i).get_ndim else data_ndim) := by
      split <;> omega
    refine ⟨le_trans hacc.1 h1, ?_, ?_⟩
    · intro j hj1 hj2
      by_cases hji : j = i
      · subst hji
        exact le_trans hacc.2 h1
      · exact h2 j (by omega) (by omega)
    · rcases h3 with h3 | ⟨j, hj1, hj2, hj3⟩
      · rw [h3]
        by_cases hgt : (src_tp i).get_ndim - (child.get_argument_types i).get_ndim >
            data_ndim
        · rw [if_pos hgt]
          exact Or.inr ⟨i, le_refl _, by omega, rfl⟩
        · rw [if_neg hgt]
          exact Or.inl rfl
      · exact Or.inr ⟨j, by omega, by omega, hj3⟩

/-- C38, as stated, fails: with state enabled, a child whose argument has one
dimension and one source without dimensions, `resolve` records
`ndim = 2^64 - 1` on a 64-bit `size_t`, in `data` and in the node of the call
graph, where `max(0, 0 - 1)` is 0: the difference is taken in `size_t`. -/
theorem elwise_resolve_ndim_wraps :
    (sample_child_one_dim.get_argument_types 0).get_ndim = 1 ∧
    ((nd.functional.elwise_entry_callable.resolve 64
        ⟨some sample_child_one_dim, false, true⟩ ⟨fun _ => ⟨0, 0⟩⟩ [] 1
        (fun _ => ⟨3, 0⟩)).map (fun c => (c.data.ndim, c.cg))) =
      some (18446744073709551615, [⟨18446744073709551615⟩]) := by
  decide

/-- C38, amended: for at most seven sources, each with at least as many
dimensions as the argument type of the child at its place, `resolve` with
state enabled records as `ndim` the largest of 0 and the differences
`src_tp[i].ndim - child argument ndim`, which is 0 without sources, and adds
one node with that `ndim` to the call graph; with state disabled `ndim` is 0
and the call graph is unchanged. The child is `m_child` when set and the
caller otherwise. -/
theorem elwise_resolve_ndim (size_bits : Nat)
    (self : nd.functional.elwise_entry_callable) (caller : nd.base_callable)
    (cg : List nd.functional.index_state_node) (nsrc : Nat) (src_tp : Nat → ndt.type)
    (htable : nsrc < 8)
    (hdims : ∀ j, j < nsrc →
      ((self.m_child.getD caller).get_argument_types j).get_ndim ≤ (src_tp j).get_ndim ∧
      (src_tp j).get_ndim - ((self.m_child.getD caller).get_argument_types j).get_ndim <
        2 ^ size_bits) :
    ∃ c, nd.functional.elwise_entry_callable.resolve size_bits self caller cg nsrc src_tp =
        some c ∧
      c.table_index = nsrc ∧
      (∀ m, self.m_child = some m → c.data.child.get_argument_types = m.get_argument_types) ∧
      (self.m_child = none → c.data.child.get_argument_types = caller.get_argument_types) ∧
      (self.m_state = true →
        (∀ j, j < nsrc →
          (src_tp j).get_ndim - ((self.m_child.getD caller).get_argument_types j).get_ndim ≤
            c.data.ndim) ∧
        (c.data.ndim = 0 ∨
          ∃ j, j < nsrc ∧ c.data.ndim =
            (src_tp j).get_ndim -
              ((self.m_child.getD caller).get_argument_types j).get_ndim) ∧
        (nsrc = 0 → c.data.ndim = 0) ∧
        c.cg = cg ++ [{ ndim := c.data.ndim }]) ∧
      (self.m_state = false → c.data.ndim = 0 ∧ c.cg = cg) := by
  have hchild : (match self.m_child with
      | some c => c
      | none => caller) = self.m_child.getD caller := by
    cases self.m_child <;> rfl
  unfold nd.functional.elwise_entry_callable.resolve
  simp only [if_pos htable, hchild]
  refine ⟨_, rfl, rfl, ?_, ?_, ?_, ?_⟩
  · intro m hm
    simp only [hm, Option.getD_some]
    split <;> rfl
  · intro hm
    simp only [hm, Option.getD_none]
    split <;> rfl
  · intro hs
    obtain ⟨_, h2, h3⟩ :=
      nd.functional.elwise_entry_callable.resolve_loop_max size_bits src_tp
        (self.m_child.getD caller) nsrc 0 0
        (fun j _ hj => hdims j (by omega))
    simp only [hs, if_true]
    refine ⟨fun j hj => h2 j (Nat.zero_le _) (by omega), ?_, ?_, trivial⟩
    · rcases h3 with h3 | ⟨j, _, hj2, hj3⟩
      · exact Or.inl h3
      · exact Or.inr ⟨j, by omega, hj3⟩
    · intro h0
      subst h0
      rfl
  · intro hs
    simp only [hs, Bool.false_eq_true, if_false]
    exact ⟨trivial, trivial⟩

/-- Witness of the amended C38: one source of three dimensions for a child
that takes one dimension records `ndim = 2`. -/
theorem elwise_resolve_ndim_witness :
    (1 : Nat) < 8 ∧
    ((nd.functional.elwise_entry_callable.resolve 64
        ⟨some sample_child_one_dim, false, true⟩ ⟨fun _ => ⟨0, 0⟩⟩ [] 1
        (fun _ => ⟨3, 3⟩)).map (fun c => (c.data.ndim, c.cg))) = some (2, [⟨2⟩]) ∧
    ∃ c, nd.functional.elwise_entry_callable.resolve 64
        ⟨some sample_child_one_dim, false, true⟩ ⟨fun _ => ⟨0, 0⟩⟩ [] 1
        (fun _ => ⟨3, 3⟩) = some c ∧ c.table_index = 1 := by
  obtain ⟨c, hc, ht, _⟩ :=
    elwise_resolve_ndim 64 ⟨some sample_child_one_dim, false, true⟩ ⟨fun _ => ⟨0, 0⟩⟩ [] 1
      (fun _ => ⟨3, 3⟩) (by decide)
      (by
        intro j _
        exact ⟨show (1 : Nat) ≤ 3 by decide, show (3 : Nat) - 1 < 2 ^ 64 by decide⟩)
  exact ⟨by decide, by decide, c, hc, ht⟩

/-! ### dnd dtype: validation of the type id -/

/-- C39: `dtype(type_id)` throws `invalid_type_id` if and only if the id, read
as unsigned, is above `utf8_type_id`, that is for the negative ids and the ids
above `utf8_type_id`; for an accepted id the row read from
`basic_type_id_info` is inside the table and the dtype has that row's kind,
alignment and itemsize. `dtype(type_id, size)` throws for the same ids, and
for an accepted id it throws, a `std::runtime_error` whose message names
the id, if and only if the itemsize of the row is not zero and differs from
`size`; otherwise it builds the dtype of the row's kind and alignment with
the itemsize `size`, which is the row's own itemsize when that is not zero
and the requested one for a row with itemsize zero, the row of `utf8`. -/
theorem dtype_constructor_validation (hpp : dnd.dtype_hpp) (type_id size : Int)
    (hint : -2147483648 ≤ type_id ∧ type_id < 2147483648) :
    (dnd.dtype.make hpp type_id = Except.error (dnd.exception.invalid_type_id type_id) ↔
      13 < type_id % 4294967296) ∧
    (13 < type_id % 4294967296 ↔ type_id < 0 ∨ 13 < type_id) ∧
    (¬ 13 < type_id % 4294967296 →
      type_id.toNat < dnd.DND_MAX_NUM_TYPE_IDS ∧
      (dnd.basic_type_id_info hpp)[type_id.toNat]? =
        some (dnd.info_row hpp type_id.toNat) ∧
      dnd.dtype.make hpp type_id =
        Except.ok
          { m_type_id := type_id
            m_kind := (dnd.info_row hpp type_id.toNat).kind
            m_alignment := (dnd.info_row hpp type_id.toNat).alignment
            m_itemsize := (dnd.info_row hpp type_id.toNat).itemsize
            m_data := none }) ∧
    (13 < type_id % 4294967296 →
      dnd.dtype.make_sized hpp type_id size =
        Except.error (dnd.exception.invalid_type_id type_id)) ∧
    (¬ 13 < type_id % 4294967296 →
      ((∃ e, dnd.dtype.make_sized hpp type_id size = Except.error e) ↔
        (dnd.info_row hpp type_id.toNat).itemsize ≠ 0 ∧
        ((dnd.info_row hpp type_id.toNat).itemsize : Int) ≠ size) ∧
      (∀ e, dnd.dtype.make_sized hpp type_id size = Except.error e →
        ∃ what, e = dnd.exception.runtime_error what) ∧
      ((dnd.info_row hpp type_id.toNat).itemsize = 0 →
        dnd.dtype.make_sized hpp type_id size =
          Except.ok
            { m_type_id := type_id
              m_kind := (dnd.info_row hpp type_id.toNat).kind
              m_alignment := (dnd.info_row hpp type_id.toNat).alignment
              m_itemsize := size
              m_data := none }) ∧
      ((dnd.info_row hpp type_id.toNat).itemsize = 0 ↔ type_id = dnd.utf8_type_id) ∧
      (((dnd.info_row hpp type_id.toNat).itemsize : Int) = size →
        dnd.dtype.make_sized hpp type_id size =
          Except.ok
            { m_type_id := type_id
              m_kind := (dnd.info_row hpp type_id.toNat).kind
              m_alignment := (dnd.info_row hpp type_id.toNat).alignment
              m_itemsize := (dnd.info_row hpp type_id.toNat).itemsize
              m_data := none }) ∧
      dnd.dtype.make_sized hpp type_id size =
        (if (dnd.info_row hpp type_id.toNat).itemsize ≠ 0 ∧
            ((dnd.info_row hpp type_id.toNat).itemsize : Int) ≠ size then
          Except.error (dnd.exception.runtime_error
            ("invalid itemsize for type id " ++ dnd.type_id_names.getD type_id.toNat ""))
        else
          Except.ok
            { m_type_id := type_id
              m_kind := (dnd.info_row hpp type_id.toNat).kind
              m_alignment := (dnd.info_row hpp type_id.toNat).alignment
              m_itemsize := size
              m_data := none })) := by
  have hbad : 13 < type_id % 4294967296 →
      dnd.validate_type_id type_id =
        Except.error (dnd.exception.invalid_type_id type_id) := by
    intro h
    unfold dnd.validate_type_id
    rw [if_neg (by unfold dnd.utf8_type_id; omega)]
  have hgood : ¬ 13 < type_id % 4294967296 →
      dnd.validate_type_id type_id = Except.ok type_id := by
    intro h
    unfold dnd.validate_type_id
    rw [if_pos (by unfold dnd.utf8_type_id; omega)]
  have hmake : ¬ 13 < type_id % 4294967296 →
      dnd.dtype.make hpp type_id =
        Except.ok
          { m_type_id := type_id
            m_kind := (dnd.info_row hpp type_id.toNat).kind
            m_alignment := (dnd.info_row hpp type_id.toNat).alignment
            m_itemsize := (dnd.info_row hpp type_id.toNat).itemsize
            m_data := none } := by
    intro h
    unfold dnd.dtype.make
    rw [hgood h]
  have hname : ¬ 13 < type_id % 4294967296 →
      ∃ name, dnd.get_type_id_basename type_id = Except.ok name := by
    intro h
    unfold dnd.get_type_id_basename
    rw [hgood h]
    exact ⟨_, rfl⟩
  refine ⟨?_, by omega, ?_, ?_, ?_⟩
  · constructor
    · intro h
      by_contra hn
      rw [hmake hn] at h
      cases h
    · intro h
      unfold dnd.dtype.make
      rw [hbad h]
  · intro h
    have hr : 0 ≤ type_id ∧ type_id ≤ 13 := by omega
    refine ⟨by unfold dnd.DND_MAX_NUM_TYPE_IDS; omega, ?_, hmake h⟩
    unfold dnd.info_row
    have hlen : type_id.toNat < (dnd.basic_type_id_info hpp).length := by
      simp only [dnd.basic_type_id_info, dnd.DND_MAX_NUM_TYPE_IDS, List.length_append,
        List.length_cons, List.length_nil, List.length_replicate]
      omega
    rw [List.getD_eq_getElem?_getD, List.getElem?_eq_getElem hlen]
    rfl
  · intro h
    unfold dnd.dtype.make_sized dnd.dtype.make
    rw [hbad h]
  · intro h
    obtain ⟨name, hn⟩ := hname h
    have hr : 0 ≤ type_id ∧ type_id ≤ 13 := by omega
    have hfull : dnd.dtype.make_sized hpp type_id size =
        (if (dnd.info_row hpp type_id.toNat).itemsize ≠ 0 ∧
            ((dnd.info_row hpp type_id.toNat).itemsize : Int) ≠ size then
          Except.error (dnd.exception.runtime_error
            ("invalid itemsize for type id " ++ dnd.type_id_names.getD type_id.toNat ""))
        else
          Except.ok
            { m_type_id := type_id
              m_kind := (dnd.info_row hpp type_id.toNat).kind
              m_alignment := (dnd.info_row hpp type_id.toNat).alignment
              m_itemsize := size
              m_data := none }) := by
      unfold dnd.dtype.make_sized dnd.get_type_id_basename
      rw [hmake h, hgood h]
      simp only []
      by_cases h0 : ((dnd.info_row hpp type_id.toNat).itemsize : Int) ≠ 0
      · have h0n : (dnd.info_row hpp type_id.toNat).itemsize ≠ 0 := by
          intro hz
          apply h0
          rw [hz]
          rfl
        rw [if_pos h0]
        by_cases hs : ((dnd.info_row hpp type_id.toNat).itemsize : Int) ≠ size
        · rw [if_pos hs, if_pos ⟨h0n, hs⟩]
        · rw [if_neg hs, if_neg (fun hc => hs hc.2)]
          have hs2 : ((dnd.info_row hpp type_id.toNat).itemsize : Int) = size := by
            by_contra hc
            exact hs hc
          rw [hs2]
      · have h0n : (dnd.info_row hpp type_id.toNat).itemsize = 0 := by
          by_contra hc
          apply h0
          intro hz
          apply hc
          exact_mod_cast hz
        rw [if_neg h0, if_neg (fun hc => hc.1 h0n)]
    refine ⟨?_, ?_, ?_, ?_, ?_, hfull⟩
    · unfold dnd.dtype.make_sized
      rw [hmake h, hn]
      simp only []
      by_cases h0 : ((dnd.info_row hpp type_id.toNat).itemsize : Int) ≠ 0
      · rw [if_pos h0]
        by_cases hs : ((dnd.info_row hpp type_id.toNat).itemsize : Int) ≠ size
        · rw [if_pos hs]
          constructor
          · intro _
            exact ⟨by intro hz; apply h0; rw [hz]; rfl, hs⟩
          · intro _
            exact ⟨_, rfl⟩
        · rw [if_neg hs]
          constructor
          · rintro ⟨e, he⟩
            cases he
          · rintro ⟨_, h2⟩
            exact absurd h2 hs
      · rw [if_neg h0]
        constructor
        · rintro ⟨e, he⟩
          cases he
        · rintro ⟨h1, _⟩
          exfalso
          apply h0
          intro hz
          apply h1
          exact_mod_cast hz
    · intro e he
      unfold dnd.dtype.make_sized at he
      rw [hmake h, hn] at he
      simp only [] at he
      by_cases h0 : ((dnd.info_row hpp type_id.toNat).itemsize : Int) ≠ 0
      · rw [if_pos h0] at he
        by_cases hs : ((dnd.info_row hpp type_id.toNat).itemsize : Int) ≠ size
        · rw [if_pos hs] at he
          injection he with he
          exact ⟨_, he.symm⟩
        · rw [if_neg hs] at he
          cases he
      · rw [if_neg h0] at he
        cases he
    · intro hz
      unfold dnd.dtype.make_sized
      rw [hmake h]
      simp only []
      rw [if_neg (by rw [hz]; simp)]
    · obtain ⟨h0, h13⟩ := hr
      unfold dnd.utf8_type_id
      interval_cases type_id
      all_goals simp [dnd.info_row, dnd.basic_type_id_info]
    · intro hs
      rw [hfull, if_neg (fun hc => hc.2 hs), hs]

/-- Witness of C39: the id -1 is rejected; `dtype(int32_type_id, 4)` is the
dtype of the row of `int32`, of `int_kind` with alignment 4 and itemsize 4;
`dtype(int32_type_id, 8)` throws the `std::runtime_error` naming `int32`; and
`dtype(utf8_type_id, 5)` is the `string_kind` dtype with itemsize 5. -/
theorem dtype_constructor_validation_witness :
    (-2147483648 ≤ (-1 : Int) ∧ (-1 : Int) < 2147483648) ∧
    dnd.dtype.make dnd.sample_hpp (-1) =
      Except.error (dnd.exception.invalid_type_id (-1)) ∧
    dnd.dtype.make_sized dnd.sample_hpp 3 4 =
      Except.ok
        { m_type_id := 3, m_kind := dtype_kind_t.int_kind, m_alignment := 4,
          m_itemsize := 4, m_data := none } ∧
    dnd.dtype.make_sized dnd.sample_hpp 3 8 =
      Except.error (dnd.exception.runtime_error "invalid itemsize for type id int32") ∧
    dnd.dtype.make_sized dnd.sample_hpp 13 5 =
      Except.ok
        { m_type_id := 13, m_kind := dtype_kind_t.string_kind, m_alignment := 1,
          m_itemsize := 5, m_data := none } :=
  ⟨by decide,
    (dtype_constructor_validation dnd.sample_hpp (-1) 0 (by decide)).1.2 (by decide),
    ((dtype_constructor_validation dnd.sample_hpp 3 4 (by decide)).2.2.2.2
      (by decide)).2.2.2.2.1 (by decide),
    ((dtype_constructor_validation dnd.sample_hpp 3 8 (by decide)).2.2.2.2
      (by decide)).2.2.2.2.2.trans (by decide),
    ((dtype_constructor_validation dnd.sample_hpp 13 5 (by decide)).2.2.2.2
      (by decide)).2.2.1 (by decide)⟩

/-! ### tuple_type::is_lossless_assignment -/

/-- A type that refers to the same object as a tuple type is that tuple
type. -/
theorem types.extended_is_eq (same_object : types.type → types.type → Bool)
    (hsame : ∀ a b, same_object a b = true → a = b) (tp self : types.type)
    (h : types.extended_is same_object tp self = true) : tp = self := by
  cases tp with
  | builtin r =>
    unfold types.extended_is at h
    cases h
  | tuple al fs => exact hsame _ _ h
  | other ri rp => exact hsame _ _ h

/-- C40: `tuple_type::is_lossless_assignment(dst, src)` is true exactly when
`dst` is this type object and `src` is the same object or has the tuple type
id and is `==` to `dst`; so it is true only when `dst` is this tuple type and
`src` is a tuple type of the same shape, false when `src` is not a tuple type
and when `dst` is not this type object, in particular when `dst` is not a
tuple type, and true on the type object with itself. -/
theorem tuple_is_lossless_assignment_iff (same_object : types.type → types.type → Bool)
    (other_eq : types.type_id_t → Nat → types.type → Bool) (data_alignment : Nat)
    (m_field_types : List types.type) (dst_tp src_tp : types.type)
    (hsame : ∀ a b, same_object a b = true → a = b)
    (hother : ∀ type_id payload rhs,
      other_eq type_id payload rhs = true ↔ rhs = types.type.other type_id payload) :
    (types.tuple_type.is_lossless_assignment same_object other_eq data_alignment
        m_field_types dst_tp src_tp = true ↔
      types.extended_is same_object dst_tp
          (types.type.tuple data_alignment m_field_types) = true ∧
        (types.extended_is same_object src_tp
            (types.type.tuple data_alignment m_field_types) = true ∨
          (src_tp.get_type_id = types.type_id_t.tuple_type_id ∧
            types.type.eq same_object other_eq dst_tp src_tp = true))) ∧
    (types.tuple_type.is_lossless_assignment same_object other_eq data_alignment
        m_field_types dst_tp src_tp = true →
      dst_tp = types.type.tuple data_alignment m_field_types ∧
        src_tp = types.type.tuple data_alignment m_field_types) ∧
    ((∀ al fs, src_tp ≠ types.type.tuple al fs) →
      types.tuple_type.is_lossless_assignment same_object other_eq data_alignment
        m_field_types dst_tp src_tp = false) ∧
    ((∀ al fs, dst_tp ≠ types.type.tuple al fs) →
      types.tuple_type.is_lossless_assignment same_object other_eq data_alignment
        m_field_types dst_tp src_tp = false) ∧
    (types.extended_is same_object dst_tp
        (types.type.tuple data_alignment m_field_types) = false →
      types.tuple_type.is_lossless_assignment same_object other_eq data_alignment
        m_field_types dst_tp src_tp = false) ∧
    (same_object (types.type.tuple data_alignment m_field_types)
        (types.type.tuple data_alignment m_field_types) = true →
      types.tuple_type.is_lossless_assignment same_object other_eq data_alignment
        m_field_types (types.type.tuple data_alignment m_field_types)
        (types.type.tuple data_alignment m_field_types) = true) := by
  have hiff : types.tuple_type.is_lossless_assignment same_object other_eq data_alignment
        m_field_types dst_tp src_tp = true ↔
      types.extended_is same_object dst_tp
          (types.type.tuple data_alignment m_field_types) = true ∧
        (types.extended_is same_object src_tp
            (types.type.tuple data_alignment m_field_types) = true ∨
          (src_tp.get_type_id = types.type_id_t.tuple_type_id ∧
            types.type.eq same_object other_eq dst_tp src_tp = true)) := by
    unfold types.tuple_type.is_lossless_assignment
    by_cases hd : types.extended_is same_object dst_tp
        (types.type.tuple data_alignment m_field_types) = true
    · rw [if_pos hd]
      by_cases hs : types.extended_is same_object src_tp
          (types.type.tuple data_alignment m_field_types) = true
      · rw [if_pos hs]
        exact ⟨fun _ => ⟨hd, Or.inl hs⟩, fun _ => rfl⟩
      · rw [if_neg hs]
        by_cases hid : src_tp.get_type_id = types.type_id_t.tuple_type_id
        · rw [if_pos hid]
          constructor
          · intro h
            exact ⟨hd, Or.inr ⟨hid, h⟩⟩
          · rintro ⟨_, h | ⟨_, h⟩⟩
            · exact absurd h hs
            · exact h
        · rw [if_neg hid]
          constructor
          · intro h
            cases h
          · rintro ⟨_, h | ⟨h, _⟩⟩
            · exact absurd h hs
            · exact absurd h hid
    · rw [if_neg hd]
      constructor
      · intro h
        cases h
      · rintro ⟨h, _⟩
        exact absurd h hd
  have hshape : types.tuple_type.is_lossless_assignment same_object other_eq data_alignment
        m_field_types dst_tp src_tp = true →
      dst_tp = types.type.tuple data_alignment m_field_types ∧
        src_tp = types.type.tuple data_alignment m_field_types := by
    intro h
    obtain ⟨hd, hs⟩ := hiff.1 h
    have hdst := types.extended_is_eq same_object hsame _ _ hd
    refine ⟨hdst, ?_⟩
    rcases hs with hs | ⟨_, heq⟩
    · exact types.extended_is_eq same_object hsame _ _ hs
    · rw [← hdst]
      exact ((types.type.eq_iff_same_type same_object other_eq hsame hother
        dst_tp src_tp).1 heq).symm
  refine ⟨hiff, hshape, ?_, ?_, ?_, ?_⟩
  · intro hns
    cases h : types.tuple_type.is_lossless_assignment same_object other_eq data_alignment
        m_field_types dst_tp src_tp
    · rfl
    · exact absurd (hshape h).2 (hns _ _)
  · intro hnd
    cases h : types.tuple_type.is_lossless_assignment same_object other_eq data_alignment
        m_field_types dst_tp src_tp
    · rfl
    · exact absurd (hshape h).1 (hnd _ _)
  · intro hd
    unfold types.tuple_type.is_lossless_assignment
    rw [hd]
    rfl
  · intro hself
    unfold types.tuple_type.is_lossless_assignment
    have h1 : types.extended_is same_object
        (types.type.tuple data_alignment m_field_types)
        (types.type.tuple data_alignment m_field_types) = true := hself
    rw [if_pos h1, if_pos h1]

/-- Witness of C40 on the empty tuple type: lossless to itself, not lossless
from a type of another class. -/
theorem tuple_is_lossless_assignment_iff_witness :
    (∀ a b, sample_same_unit_tuple a b = true → a = b) ∧
    (∀ type_id payload rhs,
      sample_other_eq type_id payload rhs = true ↔ rhs = types.type.other type_id payload) ∧
    types.tuple_type.is_lossless_assignment sample_same_unit_tuple sample_other_eq 1 []
      (types.type.tuple 1 []) (types.type.tuple 1 []) = true ∧
    types.tuple_type.is_lossless_assignment sample_same_unit_tuple sample_other_eq 1 []
      (types.type.tuple 1 []) (types.type.other (types.type_id_t.other_type_id 7) 0) =
      false := by
  have h1 : ∀ a b, sample_same_unit_tuple a b = true → a = b := by
    intro a b h
    unfold sample_same_unit_tuple at h
    split at h
    · rfl
    · cases h
  have h4 : ∀ type_id payload rhs,
      sample_other_eq type_id payload rhs = true ↔
        rhs = types.type.other type_id payload := by
    intro type_id payload rhs
    cases rhs with
    | builtin r => simp [sample_other_eq]
    | tuple al fs => simp [sample_other_eq]
    | other ri rp =>
      simp only [sample_other_eq, decide_eq_true_eq, types.type.other.injEq]
      constructor
      · rintro ⟨rfl, rfl⟩
        exact ⟨rfl, rfl⟩
      · rintro ⟨rfl, rfl⟩
        exact ⟨rfl, rfl⟩
  exact ⟨h1, h4,
    (tuple_is_lossless_assignment_iff sample_same_unit_tuple sample_other_eq 1 []
      (types.type.tuple 1 []) (types.type.tuple 1 []) h1 h4).2.2.2.2.2 rfl,
    (tuple_is_lossless_assignment_iff sample_same_unit_tuple sample_other_eq 1 []
      (types.type.tuple 1 []) (types.type.other (types.type_id_t.other_type_id 7) 0)
      h1 h4).2.2.1 (by intro al fs h; cases h)⟩
end dynd
